import Mathlib

/-!
# YOLO Daily Tracker: a shallow embedding of `src/app.js`

The tracker keeps an ordered collection of task records, filters it by day,
week or month around an anchor date, aggregates it into a calendar heatmap,
and persists it either to browser local storage (guest mode) or to a remote
document store (signed-in mode).

The file has three parts.

* `JSDate`: the fragment of the ECMAScript `Date` abstract operations that
  `app.js` relies on (`new Date(string)`, `getFullYear`, `getMonth`,
  `getDate`, `getDay`, `setDate`, relational comparison).  Time values are
  integers (milliseconds since the epoch); `none` stands for `NaN`
  (an Invalid Date).  The local time zone is a fixed offset in minutes east of
  UTC; daylight-saving transitions are outside the model.
* `TaskTracker`: the methods of the class, as functions on an explicit state.
* The theorems: lemmas on the date operations, on the map of counts and on
  `findIndex`, then one block per claim of the specification.
-/

namespace JSDate

/-! ## Day number and time within day (ECMA-262, 21.4.1.3) -/

def msPerDay : Int := 86400000

def msPerMinute : Int := 60000

/-- Day number of a time value: `floor(t / msPerDay)`. -/
def Day (t : Int) : Int := t / msPerDay

/-- Milliseconds elapsed since the start of the day of `t`. -/
def TimeWithinDay (t : Int) : Int := t % msPerDay

/-! ## Year number (ECMA-262, 21.4.1.4-21.4.1.9) -/

def DaysInYear (y : Int) : Int :=
  if y % 4 ≠ 0 then 365
  else if y % 100 ≠ 0 then 366
  else if y % 400 ≠ 0 then 365
  else 366

/-- Day number of the first day of year `y`. -/
def DayFromYear (y : Int) : Int :=
  365 * (y - 1970) + (y - 1969) / 4 - (y - 1901) / 100 + (y - 1601) / 400

/-- The largest year `y` with `DayFromYear y ≤ Day t`.  The mean Gregorian year
has 146097/400 days, so the estimate `c` is off by at most one. -/
def YearFromTime (t : Int) : Int :=
  let d := Day t
  let c := 1970 + (d * 400) / 146097
  if DayFromYear (c + 1) ≤ d then c + 1
  else if DayFromYear c ≤ d then c
  else c - 1

def DayWithinYear (t : Int) : Int := Day t - DayFromYear (YearFromTime t)

/-- One in a leap year, zero otherwise. -/
def InLeapYear (t : Int) : Int :=
  if DaysInYear (YearFromTime t) = 366 then 1 else 0

/-! ## Month and date (ECMA-262, 21.4.1.10-21.4.1.12) -/

/-- Month number (0 = January) from the day within the year `dwy` and the
leap-year flag `leap`. -/
def monthOfDayWithinYear (dwy leap : Int) : Int :=
  if dwy < 31 then 0
  else if dwy < 59 + leap then 1
  else if dwy < 90 + leap then 2
  else if dwy < 120 + leap then 3
  else if dwy < 151 + leap then 4
  else if dwy < 181 + leap then 5
  else if dwy < 212 + leap then 6
  else if dwy < 243 + leap then 7
  else if dwy < 273 + leap then 8
  else if dwy < 304 + leap then 9
  else if dwy < 334 + leap then 10
  else 11

/-- Number of days of the year that precede month `m` (0 = January). -/
def daysBeforeMonth (m leap : Int) : Int :=
  if m = 0 then 0
  else if m = 1 then 31
  else if m = 2 then 59 + leap
  else if m = 3 then 90 + leap
  else if m = 4 then 120 + leap
  else if m = 5 then 151 + leap
  else if m = 6 then 181 + leap
  else if m = 7 then 212 + leap
  else if m = 8 then 243 + leap
  else if m = 9 then 273 + leap
  else if m = 10 then 304 + leap
  else 334 + leap

def MonthFromTime (t : Int) : Int :=
  monthOfDayWithinYear (DayWithinYear t) (InLeapYear t)

/-- Day of the month, 1-based. -/
def DateFromTime (t : Int) : Int :=
  DayWithinYear t + 1 - daysBeforeMonth (MonthFromTime t) (InLeapYear t)

/-- Day of the week, 0 = Sunday; day number 0 (1 January 1970) is a Thursday. -/
def WeekDay (t : Int) : Int := (Day t + 4) % 7

/-! ## Local time (fixed offset) -/

/-- Local time value for the UTC time value `t`, `tz` minutes east of UTC. -/
def LocalTime (tz t : Int) : Int := t + tz * msPerMinute

/-- UTC time value for the local time value `t`. -/
def UTC (tz t : Int) : Int := t - tz * msPerMinute

/-! ## Building time values (ECMA-262, 21.4.1.28-21.4.1.31) -/

/-- Day number of the `date`-th day (1-based, may overflow either way) of
month `month` (0-based, may overflow either way) of `year`. -/
def MakeDay (year month date : Int) : Int :=
  let ym := year + month / 12
  let mn := month % 12
  let leap := if DaysInYear ym = 366 then 1 else 0
  DayFromYear ym + daysBeforeMonth mn leap + date - 1

def MakeDate (day time : Int) : Int := day * msPerDay + time

/-- Time values beyond 8.64e15 ms from the epoch are not representable. -/
def TimeClip (t : Int) : Option Int :=
  if -8640000000000000 ≤ t ∧ t ≤ 8640000000000000 then some t else none

/-! ## Parsing the date-only form `YYYY-MM-DD`

`new Date(s)` reads a date-only ISO string as midnight UTC of that calendar
day.  The tracker's dates come from `<input type="date">`, whose value is
either empty or such a string.  Every other text is mapped to `none` here;
engines differ on texts outside the ISO forms. -/

def digitVal (c : Char) : Option Int :=
  if c.isDigit then some ((c.toNat : Int) - 48) else none

/-- Number of days of month `m` (0 = January) in year `y`. -/
def daysInMonth (y m : Int) : Int :=
  let leap := if DaysInYear y = 366 then 1 else 0
  if m = 11 then 31 else daysBeforeMonth (m + 1) leap - daysBeforeMonth m leap

/-- Year, month (1-based) and day fields of a `YYYY-MM-DD` text, unchecked. -/
def dateFields : List Char → Option (Int × Int × Int)
  | [y1, y2, y3, y4, s1, m1, m2, s2, d1, d2] =>
    if s1 = '-' ∧ s2 = '-' then
      match digitVal y1, digitVal y2, digitVal y3, digitVal y4,
            digitVal m1, digitVal m2, digitVal d1, digitVal d2 with
      | some a, some b, some c, some d, some e, some f, some g, some h =>
        some (1000 * a + 100 * b + 10 * c + d, 10 * e + f, 10 * g + h)
      | _, _, _, _, _, _, _, _ => none
    else none
  | _ => none

/-- The calendar date (year, month 1..12, day) that a text of the form
`YYYY-MM-DD` denotes; `none` for every other text. -/
def calendarDate (s : String) : Option (Int × Int × Int) :=
  match dateFields s.data with
  | some (y, m, d) =>
    if 1 ≤ m ∧ m ≤ 12 ∧ 1 ≤ d ∧ d ≤ daysInMonth y (m - 1) then some (y, m, d) else none
  | none => none

/-- Time value of `new Date(s)` for a date-only text `s`: midnight UTC. -/
def parse (s : String) : Option Int :=
  match calendarDate s with
  | some (y, m, d) => TimeClip (MakeDate (MakeDay y (m - 1) d) 0)
  | none => none

/-! ## Methods of `Date.prototype`, in the time zone `tz` -/

def getFullYear (tz : Int) (t : Option Int) : Option Int :=
  t.map fun v => YearFromTime (LocalTime tz v)

def getMonth (tz : Int) (t : Option Int) : Option Int :=
  t.map fun v => MonthFromTime (LocalTime tz v)

def getDate (tz : Int) (t : Option Int) : Option Int :=
  t.map fun v => DateFromTime (LocalTime tz v)

def getDay (tz : Int) (t : Option Int) : Option Int :=
  t.map fun v => WeekDay (LocalTime tz v)

/-- Method `setDate(dt)`: the new time value of the date object. -/
def setDate (tz : Int) (t dt : Option Int) : Option Int :=
  match t, dt with
  | some v, some n =>
    let l := LocalTime tz v
    TimeClip (UTC tz (MakeDate (MakeDay (YearFromTime l) (MonthFromTime l) n) (TimeWithinDay l)))
  | _, _ => none

/-- Numeric `a - b`; `NaN` propagates. -/
def sub (a b : Option Int) : Option Int :=
  match a, b with
  | some x, some y => some (x - y)
  | _, _ => none

/-- Numeric `a + b`; `NaN` propagates. -/
def add (a b : Option Int) : Option Int :=
  match a, b with
  | some x, some y => some (x + y)
  | _, _ => none

/-- Relational `a <= b` on time values: false when either side is `NaN`. -/
def le (a b : Option Int) : Bool :=
  match a, b with
  | some x, some y => decide (x ≤ y)
  | _, _ => false

/-- Strict equality `a === b` on numbers: false when either side is `NaN`. -/
def strictEq (a b : Option Int) : Bool :=
  match a, b with
  | some x, some y => decide (x = y)
  | _, _ => false

/-- Day number of the calendar date that a date text denotes. -/
def dayNumber (s : String) : Option Int := (parse s).map Day

/-- Day number of the Sunday on or before day number `n`. -/
def sundayOnOrBefore (n : Int) : Int := n - (n + 4) % 7

/-! ## Writing dates -/

/-- The decimal digit for `n` modulo 10. -/
def digitChar (n : Int) : Char := Char.ofNat (48 + (n % 10).toNat)

/-- Two decimal digits: `String(n).padStart(2, '0')` for `0 ≤ n ≤ 99`. -/
def pad2 (n : Int) : List Char := [digitChar (n / 10), digitChar n]

/-- Four decimal digits, for `0 ≤ n ≤ 9999`. -/
def pad4 (n : Int) : List Char :=
  [digitChar (n / 1000), digitChar (n / 100), digitChar (n / 10), digitChar n]

/-- The date part of `toISOString()` (the text before `T`) of a time value: the
UTC fields as `YYYY-MM-DD`, for years 0 to 9999. -/
def toISODate (t : Int) : String :=
  String.mk (pad4 (YearFromTime t) ++ ['-'] ++ pad2 (MonthFromTime t + 1) ++ ['-'] ++
    pad2 (DateFromTime t))

/-- The year as `ToString` writes it in a template literal. -/
def yearText (y : Int) : List Char := (toString y).data

/-- The year that `new Date(year, ...)` takes for a year argument: 0 to 99
stand for 1900 to 1999. -/
def fullYear (year : Int) : Int := if 0 ≤ year ∧ year ≤ 99 then 1900 + year else year

/-- Time value of `new Date(year, month, date)`: local midnight of that day. -/
def newDateLocal (tz year month date : Int) : Option Int :=
  TimeClip (UTC tz (MakeDate (MakeDay (fullYear year) month date) 0))

/-- Time value of local midnight of the day with day number `day`. -/
def localMidnight (tz day : Int) : Int := day * msPerDay - tz * msPerMinute

/-- Relational `a < b` on time values: false when either side is `NaN`. -/
def lt (a b : Option Int) : Bool :=
  match a, b with
  | some x, some y => decide (x < y)
  | _, _ => false

end JSDate

namespace TaskTracker

open JSDate

/-! ## Task records -/

/-- A stored task.  `hours` is the exact value of the stored number (rounding
of IEEE doubles is outside the model); `updatedAt` is absent until an update
stamps it. -/
structure Task where
  id : String
  title : String
  date : String
  status : String
  hours : ℚ
  notes : String
  createdAt : String
  updatedAt : Option String
deriving DecidableEq

/-- Method `getFilteredTasks()`, with the values of the `filterDate` and
`filterType` controls and the collection as arguments. -/
def getFilteredTasks (tz : Int) (tasks : List Task) (filterType filterDate : String) :
    List Task :=
  if filterType = "all" then tasks
  else
    let targetDate := parse filterDate
    tasks.filter fun task =>
      let taskDate := parse task.date
      if filterType = "day" then
        decide (task.date = filterDate)
      else if filterType = "week" then
        let weekStart := setDate tz targetDate (sub (getDate tz targetDate) (getDay tz targetDate))
        let weekEnd := setDate tz weekStart (add (getDate tz weekStart) (some 6))
        le weekStart taskDate && le taskDate weekEnd
      else if filterType = "month" then
        strictEq (getMonth tz taskDate) (getMonth tz targetDate) &&
          strictEq (getFullYear tz taskDate) (getFullYear tz targetDate)
      else true

/-! ## Heatmap aggregation -/

/-- Method `getActivityLevel(count)`. -/
def getActivityLevel (count : Nat) : Nat :=
  if count = 0 then 0
  else if count ≤ 1 then 1
  else if count ≤ 3 then 2
  else if count ≤ 5 then 3
  else 4

/-- Property read `activityMap[key]` on the object used as a map from date
strings to counts; `none` is `undefined`. -/
def mapGet : List (String × Nat) → String → Option Nat
  | [], _ => none
  | (k, v) :: m, key => if k = key then some v else mapGet m key

/-- Property write `activityMap[key] = n`: an existing key keeps its place, a
new key is added last. -/
def mapSet : List (String × Nat) → String → Nat → List (String × Nat)
  | [], key, n => [(key, n)]
  | (k, v) :: m, key, n => if k = key then (key, n) :: m else (k, v) :: mapSet m key n

/-- Value of the `heatmapMonth` control: the text `all`, or a numeral, given by
the number `parseInt` reads from it. -/
inductive MonthSelection where
  | all
  | index (m : Int)
deriving DecidableEq

/-- The variables `activityMap`, `totalTasks`, `totalHours` and `activeDays`
of `renderHeatmap`. -/
structure Activity where
  activityMap : List (String × Nat)
  totalTasks : Nat
  totalHours : ℚ
  activeDays : Nat
deriving DecidableEq

/-- The two `return` guards of the `forEach` callback of `renderHeatmap`: the
task is counted when its local year is the selected year and, unless all
months are selected, its local month is the selected month. -/
def counted (tz selectedYear : Int) (selectedMonth : MonthSelection) (task : Task) : Bool :=
  let taskDate := parse task.date
  let taskYear := getFullYear tz taskDate
  let taskMonth := getMonth tz taskDate
  if !strictEq taskYear (some selectedYear) then false
  else
    match selectedMonth with
    | MonthSelection.all => true
    | MonthSelection.index m => strictEq taskMonth (some m)

/-- One call of the `forEach` callback of `renderHeatmap`. -/
def activityStep (tz selectedYear : Int) (selectedMonth : MonthSelection)
    (acc : Activity) (task : Task) : Activity :=
  if counted tz selectedYear selectedMonth task then
    let fresh := decide ((mapGet acc.activityMap task.date).getD 0 = 0)
    let map1 := if fresh then mapSet acc.activityMap task.date 0 else acc.activityMap
    let days1 := if fresh then acc.activeDays + 1 else acc.activeDays
    { activityMap := mapSet map1 task.date ((mapGet map1 task.date).getD 0 + 1)
      totalTasks := acc.totalTasks + 1
      totalHours := acc.totalHours + task.hours
      activeDays := days1 }
  else acc

/-- The aggregation loop of `renderHeatmap` ("Calculate activity per day"). -/
def renderHeatmapActivity (tz : Int) (tasks : List Task) (selectedYear : Int)
    (selectedMonth : MonthSelection) : Activity :=
  tasks.foldl (activityStep tz selectedYear selectedMonth)
    { activityMap := [], totalTasks := 0, totalHours := 0, activeDays := 0 }

/-- The count `activityMap[dateStr] || 0` that a heatmap cell shows. -/
def dayCount (a : Activity) (dateStr : String) : Nat :=
  (mapGet a.activityMap dateStr).getD 0

/-! ## The store

Rendering changes no field of the store and is left out.  The identifier
that `generateId` draws, the clock reading `new Date().toISOString()` and the
outcome of an awaited remote write are arguments of the operations. -/

/-- What `JSON.parse` makes of a text: it throws a `SyntaxError`, or returns an
array of task records, or a falsy value (`null`, `false`, `0`, the empty
string), or some other value that is not an array.  Arrays whose elements are
not task records are outside the model. -/
inductive Parsed where
  | syntaxError
  | tasks (ts : List Task)
  | falsy
  | other
deriving DecidableEq

/-- The host functions whose result depends on text: `parseFloat` (`none` is
`NaN`), `JSON.stringify` on the collection, `JSON.parse`, the conversion of
a number to text that `Array.prototype.join` applies, and the properties that
every object literal inherits: `prototypeText name` is the text that `join`
writes for the value `Object.prototype` holds under the property `name` when
that value is truthy (`constructor`, `toString`, `valueOf`, ...), and `none`
for a name under which `Object.prototype` holds nothing truthy. -/
structure Runtime where
  parseFloat : String → Option ℚ
  stringify : List Task → String
  jsonParse : String → Parsed
  numberToString : ℚ → String
  prototypeText : String → Option String

/-- The object `taskData` that `saveTask` builds from the form. -/
structure TaskInput where
  title : String
  date : String
  status : String
  hours : String
  notes : Option String
deriving DecidableEq

/-- An object literal with some of the mutable fields of a task, as passed to
an object spread or to the `update` call of the document store. -/
structure Patch where
  title : Option String
  date : Option String
  status : Option String
  hours : Option ℚ
  notes : Option String
  updatedAt : Option String
deriving DecidableEq

/-- The spread `{ ...task, ...patch }`. -/
def applyPatch (task : Task) (patch : Patch) : Task :=
  { id := task.id
    title := patch.title.getD task.title
    date := patch.date.getD task.date
    status := patch.status.getD task.status
    hours := patch.hours.getD task.hours
    notes := patch.notes.getD task.notes
    createdAt := task.createdAt
    updatedAt := match patch.updatedAt with
      | some u => some u
      | none => task.updatedAt }

/-- A write issued to `users/<uid>/tasks/<id>` of the document store. -/
inductive RemoteCall where
  | set (uid id : String) (task : Task)
  | update (uid id : String) (fields : Patch)
  | delete (uid id : String)
deriving DecidableEq

/-- The fields of the tracker that the store operations read or write,
the value under the local-storage key `yolo_guest_tasks`, and the writes
issued to the document store so far (oldest first). -/
structure State where
  tasks : List Task
  currentUser : Option String
  isConfigured : Bool
  localStorage : Option String
  remoteCalls : List RemoteCall

/-- The test `this.currentUser && window.firebaseConfig.isConfigured`. -/
def remoteMode (s : State) : Bool := s.currentUser.isSome && s.isConfigured

/-- Method `saveToLocalStorage()`. -/
def saveToLocalStorage (rt : Runtime) (s : State) : State :=
  { s with localStorage := some (rt.stringify s.tasks) }

/-- Array method `findIndex`; `none` is the result `-1`. -/
def findIndex (p : Task → Bool) : List Task → Option Nat
  | [] => none
  | t :: ts => if p t then some 0 else (findIndex p ts).map (· + 1)

/-- Records a write issued for the signed-in user. -/
def issue (s : State) (call : String → RemoteCall) : State :=
  match s.currentUser with
  | some uid => { s with remoteCalls := s.remoteCalls ++ [call uid] }
  | none => s

/-- Method `addTask(taskData)`. -/
def addTask (rt : Runtime) (newId now : String) (remoteOk : Bool) (s : State)
    (taskData : TaskInput) : State :=
  let task : Task :=
    { id := newId
      title := taskData.title
      date := taskData.date
      status := taskData.status
      hours := (rt.parseFloat taskData.hours).getD 0
      notes := taskData.notes.getD ""
      createdAt := now
      updatedAt := none }
  if remoteMode s then
    let s1 := issue s fun uid => RemoteCall.set uid task.id task
    if remoteOk then s1
    else saveToLocalStorage rt { s1 with tasks := s1.tasks ++ [task] }
  else saveToLocalStorage rt { s with tasks := s.tasks ++ [task] }

/-- The block shared by both local branches of `updateTask`: find the task,
replace it by the spread, save. -/
def updateLocal (rt : Runtime) (s : State) (id : String) (updatedTask : Patch) : State :=
  match findIndex (fun t => decide (t.id = id)) s.tasks with
  | some index =>
    match s.tasks[index]? with
    | some old =>
      saveToLocalStorage rt { s with tasks := s.tasks.set index (applyPatch old updatedTask) }
    | none => s
  | none => s

/-- Method `updateTask(id, taskData)`. -/
def updateTask (rt : Runtime) (now : String) (remoteOk : Bool) (s : State) (id : String)
    (taskData : TaskInput) : State :=
  let updatedTask : Patch :=
    { title := some taskData.title
      date := some taskData.date
      status := some taskData.status
      hours := some ((rt.parseFloat taskData.hours).getD 0)
      notes := some (taskData.notes.getD "")
      updatedAt := some now }
  if remoteMode s then
    let s1 := issue s fun uid => RemoteCall.update uid id updatedTask
    if remoteOk then s1 else updateLocal rt s1 id updatedTask
  else updateLocal rt s id updatedTask

/-- Method `updateTaskStatus(id, newStatus)`. -/
def updateTaskStatus (rt : Runtime) (now : String) (s : State) (id newStatus : String) :
    State :=
  if remoteMode s then
    issue s fun uid => RemoteCall.update uid id
      { title := none, date := none, status := some newStatus, hours := none, notes := none,
        updatedAt := some now }
  else
    match findIndex (fun t => decide (t.id = id)) s.tasks with
    | some index =>
      match s.tasks[index]? with
      | some old =>
        saveToLocalStorage rt { s with tasks := s.tasks.set index { old with status := newStatus } }
      | none => s
    | none => s

/-- What the loop of `renderHeatmap` maintains: the keys of the map are
distinct, every stored count is positive, `activeDays` is the number of keys
and `totalTasks` is the sum of the counts. -/
def ActivityInv (a : Activity) : Prop :=
  (a.activityMap.map Prod.fst).Nodup ∧
  (∀ e ∈ a.activityMap, 1 ≤ e.2) ∧
  a.activeDays = a.activityMap.length ∧
  a.totalTasks = (a.activityMap.map Prod.snd).sum

/-! ## Sample data for the closed statements -/

/-- A two-hour task in status `todo` with the given id and date. -/
def sampleTask (id date : String) : Task :=
  { id := id, title := "Write spec", date := date, status := "todo", hours := 2, notes := "",
    createdAt := "2024-03-15T09:00:00.000Z", updatedAt := none }

/-- A runtime that reads the numeral `2` and writes the ids of the collection;
its `JSON.parse` reads the texts `[]` and `null` and rejects the text `oops`,
it writes the numbers 0 and 2, and its `Object.prototype` holds the twelve
standard properties: eleven functions and the accessor `__proto__`. -/
def sampleRuntime : Runtime :=
  { parseFloat := fun text => if text = "2" then some 2 else none
    stringify := fun tasks => String.intercalate "," (tasks.map fun t => t.id)
    jsonParse := fun text =>
      if text = "[]" then Parsed.tasks []
      else if text = "null" then Parsed.falsy
      else if text = "oops" then Parsed.syntaxError
      else Parsed.other
    numberToString := fun q => if q = 2 then "2" else "0"
    prototypeText := fun name =>
      if name = "constructor" then some "function Object() \x7b [native code] \x7d"
      else if name ∈ ["hasOwnProperty", "isPrototypeOf", "propertyIsEnumerable",
          "toLocaleString", "toString", "valueOf", "__defineGetter__", "__defineSetter__",
          "__lookupGetter__", "__lookupSetter__"] then
        some ("function " ++ name ++ "() \x7b [native code] \x7d")
      else if name = "__proto__" then some "[object Object]"
      else none }

/-- A form submission: two hours of review, done, with a note. -/
def sampleInput : TaskInput :=
  { title := "Review", date := "2024-03-12", status := "done", hours := "2", notes := some "ok" }

/-- A guest-mode store holding the given tasks, nothing saved yet. -/
def guestStore (tasks : List Task) : State :=
  { tasks := tasks, currentUser := none, isConfigured := false, localStorage := none,
    remoteCalls := [] }

/-- Whether a date text denotes a day of the selected calendar year and, unless
all months are selected, of the selected month (index 0 = January). -/
def inSelectedPeriod (selectedYear : Int) (selectedMonth : MonthSelection) (date : String) :
    Bool :=
  match calendarDate date with
  | some (y, m, _) =>
    decide (y = selectedYear) &&
      (match selectedMonth with
       | MonthSelection.all => true
       | MonthSelection.index i => decide (m - 1 = i))
  | none => false

/-! ## Deleting and loading -/

/-- Method `deleteTask(id)`; `confirmed` is the answer to the `confirm` dialog.
A failing remote delete is only logged. -/
def deleteTask (rt : Runtime) (confirmed : Bool) (s : State) (id : String) : State :=
  if confirmed then
    if remoteMode s then issue s fun uid => RemoteCall.delete uid id
    else saveToLocalStorage rt { s with tasks := s.tasks.filter fun t => !decide (t.id = id) }
  else s

/-- The errors that reach the caller of `loadFromLocalStorage`. -/
inductive JSError where
  | syntaxError
  | typeError
deriving DecidableEq

/-- Method `loadFromLocalStorage()`.  `getItem` gives `null` for an absent key
and `JSON.parse(null)` is `null`; a `SyntaxError` of `JSON.parse` is not
caught; a value that is not an array makes `this.tasks.forEach` in
`initHeatmapYearDropdown` throw a `TypeError`. -/
def loadFromLocalStorage (rt : Runtime) (s : State) : Except JSError State :=
  let parsed :=
    match s.localStorage with
    | none => Parsed.falsy
    | some text => rt.jsonParse text
  match parsed with
  | Parsed.syntaxError => Except.error JSError.syntaxError
  | Parsed.tasks ts => Except.ok { s with tasks := ts }
  | Parsed.falsy => Except.ok { s with tasks := [] }
  | Parsed.other => Except.error JSError.typeError

/-- The collection after a load, when the load completes. -/
def loadedTasks (r : Except JSError State) : Option (List Task) :=
  match r with
  | Except.ok s => some s.tasks
  | Except.error _ => none

/-- The error a load raises, when it raises one. -/
def raised (r : Except JSError State) : Option JSError :=
  match r with
  | Except.ok _ => none
  | Except.error e => some e

/-! ## Host functions on text: `parseInt`, `parseFloat` -/

/-- The characters `StrWhiteSpaceChar` that `parseInt` and `parseFloat` skip at
the start: white space and line terminators. -/
def isStrWhiteSpace (c : Char) : Bool :=
  let n := c.toNat
  n = 9 || n = 10 || n = 11 || n = 12 || n = 13 || n = 32 || n = 160 || n = 5760 ||
    (8192 ≤ n && n ≤ 8202) || n = 8232 || n = 8233 || n = 8239 || n = 8287 || n = 12288 ||
    n = 65279

/-- Value of a hexadecimal digit. -/
def hexVal (c : Char) : Option Int :=
  if c.isDigit then some ((c.toNat : Int) - 48)
  else if 97 ≤ c.toNat ∧ c.toNat ≤ 102 then some ((c.toNat : Int) - 87)
  else if 65 ≤ c.toNat ∧ c.toNat ≤ 70 then some ((c.toNat : Int) - 55)
  else none

/-- Value of the longest prefix of digits in the given radix; `acc` is the
value read so far, `none` while no digit has been read. -/
def readDigits (radix : Int) (val : Char → Option Int) : List Char → Option Int → Option Int
  | [], acc => acc
  | c :: cs, acc =>
    match val c with
    | some d => readDigits radix val cs (some (radix * acc.getD 0 + d))
    | none => acc

/-- The sign that a text starts with (`-1` after a minus sign, else `1`) and
the text after the sign. -/
def stripSign (s : List Char) : Int × List Char :=
  match s with
  | c :: r => if c = '-' then (-1, r) else if c = '+' then (1, r) else (1, s)
  | [] => (1, [])

/-- The radix that a text announces (16 after `0x` or `0X`, else 10) and the
text after the prefix. -/
def stripHexPrefix (s : List Char) : Int × List Char :=
  match s with
  | c :: d :: r => if c = '0' ∧ (d = 'x' ∨ d = 'X') then (16, r) else (10, s)
  | _ => (10, s)

/-- The host function `parseInt(text)` without a radix argument: leading white
space, an optional sign, an optional `0x` prefix, then the longest prefix of
digits; `none` is `NaN`.  The result is the exact integer. -/
def parseInt (text : String) : Option Int :=
  let signed := stripSign (text.data.dropWhile isStrWhiteSpace)
  let prefixed := stripHexPrefix signed.2
  (readDigits prefixed.1 (if prefixed.1 = 16 then hexVal else digitVal) prefixed.2 none).map
    fun v => signed.1 * v

/-- The digits at the start of a text, and the rest. -/
def spanDigits : List Char → List Char × List Char
  | [] => ([], [])
  | c :: cs =>
    if c.isDigit then ((spanDigits cs).1.cons c, (spanDigits cs).2) else ([], c :: cs)

/-- The exponent part at the start of a text, when there is one: `e` or `E`,
an optional sign, and at least one digit. -/
def readExponent (s : List Char) : Int :=
  match s with
  | c :: r =>
    if c = 'e' ∨ c = 'E' then
      (stripSign r).1 * (readDigits 10 digitVal (stripSign r).2 none).getD 0
    else 0
  | [] => 0

/-- Mantissa `m` and decimal exponent `e` of the finite decimal numeral that
`parseFloat` reads at the start of a text (value `m * 10 ^ e`): leading white
space, an optional sign, digits with an optional fraction and an optional
exponent part; `none` is `NaN`.  The spelling `Infinity` is outside this
definition. -/
def decimalParts (text : String) : Option (Int × Int) :=
  let signed := stripSign (text.data.dropWhile isStrWhiteSpace)
  let whole := spanDigits signed.2
  let frac := match whole.2 with
    | c :: r => if c = '.' then spanDigits r else ([], whole.2)
    | [] => ([], [])
  match readDigits 10 digitVal (whole.1 ++ frac.1) none with
  | some m => some (signed.1 * m, readExponent frac.2 - (frac.1.length : Int))
  | none => none

/-- The number `parseFloat` reads from a finite decimal numeral, as an exact
rational. -/
def parseFloatDecimal (text : String) : Option ℚ :=
  (decimalParts text).map fun p => (p.1 : ℚ) * (10 : ℚ) ^ p.2

/-- A runtime whose `parseFloat` reads finite decimal numerals; the other
host functions are those of the sample runtime. -/
def decimalRuntime : Runtime :=
  { parseFloat := parseFloatDecimal
    stringify := sampleRuntime.stringify
    jsonParse := sampleRuntime.jsonParse
    numberToString := sampleRuntime.numberToString
    prototypeText := sampleRuntime.prototypeText }

/-! ## Export -/

/-- The double-quote character. -/
def dquote : Char := Char.ofNat 34

/-- The replacement `text.replace(/"/g, '""')`: every double quote is written
twice. -/
def doubleQuotes : List Char → List Char
  | [] => []
  | c :: cs => if c = dquote then dquote :: dquote :: doubleQuotes cs else c :: doubleQuotes cs

/-- Reading the inside of a quoted field back, as a reader of the format does:
a pair of double quotes is one double quote, and a double quote on its own,
which would end the field, is refused (`none`). -/
def undoubleQuotes : List Char → Option (List Char)
  | [] => some []
  | [c] => if c = dquote then none else some [c]
  | c :: d :: cs =>
    if c = dquote then
      if d = dquote then (undoubleQuotes cs).map fun r => dquote :: r else none
    else (undoubleQuotes (d :: cs)).map fun r => c :: r

/-- The template literal that wraps the text, quotes doubled, in double
quotes. -/
def quoteField (text : String) : String :=
  String.mk (dquote :: (doubleQuotes text.data ++ [dquote]))

/-- The properties of a task object that the row builder of `exportTasks`
reads.  A record made by `addTask` carries all of them; a record that came
from storage or from a snapshot may lack `hours` or `notes`, which the guards
`task.hours || 0` and `task.notes || ''` cover: `none` stands for a missing
(or otherwise falsy) value. -/
structure TaskRecord where
  date : String
  title : String
  status : String
  hours : Option ℚ
  notes : Option String
deriving DecidableEq

/-- The properties of a task of the collection, all present. -/
def Task.record (task : Task) : TaskRecord :=
  { date := task.date, title := task.title, status := task.status, hours := some task.hours,
    notes := some task.notes }

/-- The own properties of the object literal `labels` of `getStatusLabel`. -/
def labels : List (String × String) :=
  [("todo", "To Do"), ("inprogress", "In Progress"), ("onhold", "On Hold"), ("done", "Done")]

/-- Method `getStatusLabel(status)`, as the text its result contributes to a
joined row.  The lookup `labels[status]` finds an own property of `labels`,
or else a property inherited from `Object.prototype`; when it finds nothing
truthy, `|| status` gives the status itself. -/
def getStatusLabel (rt : Runtime) (status : String) : String :=
  match labels.lookup status with
  | some label => label
  | none =>
    match rt.prototypeText status with
    | some text => text
    | none => status

/-- The array `headers` of `exportTasks`. -/
def csvHeaders : List String := ["Date", "Title", "Status", "Hours", "Notes"]

/-- One element of `rows`, joined by commas. -/
def csvRow (rt : Runtime) (task : TaskRecord) : String :=
  String.intercalate ","
    [task.date, quoteField task.title, getStatusLabel rt task.status,
     rt.numberToString (task.hours.getD 0), quoteField (task.notes.getD "")]

/-- The text `csvContent` of `exportTasks`: the header line and the rows,
joined by line feeds. -/
def csvContent (rt : Runtime) (tasksToExport : List TaskRecord) : String :=
  String.intercalate (String.singleton (Char.ofNat 10))
    (String.intercalate "," csvHeaders :: tasksToExport.map (csvRow rt))

/-- The `switch (range)` of `exportTasks`; `now` is the time value of
`new Date()`, `filterType` and `filterDate` are the values of the filter
controls. -/
def tasksToExport (tz now : Int) (tasks : List Task) (filterType filterDate range : String) :
    List Task :=
  let today : Option Int := some now
  let todayStr := toISODate now
  if range = "current" then getFilteredTasks tz tasks filterType filterDate
  else if range = "day" then tasks.filter fun t => decide (t.date = todayStr)
  else if range = "week" then
    let weekStart := setDate tz today (sub (getDate tz today) (getDay tz today))
    let weekEnd := setDate tz weekStart (add (getDate tz weekStart) (some 6))
    tasks.filter fun t =>
      let taskDate := parse t.date
      le weekStart taskDate && le taskDate weekEnd
  else if range = "month" then
    tasks.filter fun t =>
      let taskDate := parse t.date
      strictEq (getMonth tz taskDate) (getMonth tz today) &&
        strictEq (getFullYear tz taskDate) (getFullYear tz today)
  else if range = "all" then tasks
  else []

/-- Method `exportTasks(range)`: the content of the downloaded file, `none`
when the selection is empty and only the alert is shown. -/
def exportTasks (rt : Runtime) (tz now : Int) (tasks : List Task)
    (filterType filterDate range : String) : Option String :=
  let selection := tasksToExport tz now tasks filterType filterDate range
  if selection.length = 0 then none
  else some (csvContent rt (selection.map Task.record))

/-- The task of the export scenario: its title is `Say "hi"`. -/
def quotedTask : Task :=
  { id := "a", title := "Say \"hi\"", date := "2024-03-15", status := "todo", hours := 2,
    notes := "", createdAt := "2024-03-15T09:00:00.000Z", updatedAt := none }

/-- A record without hours and notes whose title is a single double quote. -/
def bareRecord : TaskRecord :=
  { date := "2024-03-16", title := "\"", status := "done", hours := none, notes := none }

/-- A record whose status is the name of an inherited property. -/
def inheritedRecord : TaskRecord :=
  { date := "2024-03-17", title := "x", status := "__proto__", hours := some 0, notes := some "n" }

/-! ### The export format as described

The definitions below are written from the description of the format, not
from the code, and are compared with `csvContent`. -/

/-- A text field of the format: the text with every double-quote character
written twice, the whole between two double quotes. -/
def expectedField (text : String) : String :=
  String.mk
    (['"'] ++ (text.data.map fun c => if c = '"' then ['"', '"'] else [c]).flatten ++ ['"'])

/-- The label of a status: the display name of each of the four workflow
states; any other status stands for itself, unless it names a property that
object literals inherit, whose text is written instead. -/
def expectedLabel (rt : Runtime) (status : String) : String :=
  if status = "todo" then "To Do"
  else if status = "inprogress" then "In Progress"
  else if status = "onhold" then "On Hold"
  else if status = "done" then "Done"
  else
    match rt.prototypeText status with
    | some text => text
    | none => status

/-- The hours of a record, 0 when absent. -/
def expectedHours (hours : Option ℚ) : ℚ :=
  match hours with
  | some h => h
  | none => 0

/-- The notes of a record, empty when absent. -/
def expectedNotes (notes : Option String) : String :=
  match notes with
  | some text => text
  | none => ""

/-- One line of the format: date, title field, status label, hours and notes
field, separated by commas. -/
def expectedLine (rt : Runtime) (r : TaskRecord) : String :=
  r.date ++ "," ++ expectedField r.title ++ "," ++ expectedLabel rt r.status ++ "," ++
    rt.numberToString (expectedHours r.hours) ++ "," ++ expectedField (expectedNotes r.notes)

/-- The text of the format: the header line, then one line per record in list
order, each after a line feed. -/
def expectedCsv (rt : Runtime) (records : List TaskRecord) : String :=
  records.foldl (fun text r => text ++ "\n" ++ expectedLine rt r) "Date,Title,Status,Hours,Notes"

/-! ## The task form -/

/-- The values of the controls that `saveTask` reads. -/
structure TaskForm where
  taskId : String
  taskTitle : String
  taskDate : String
  taskStatus : String
  taskHours : String
  taskNotes : String
deriving DecidableEq

/-- The element `text.split('-')[0]`: the text before the first hyphen. -/
def beforeHyphen (text : String) : String :=
  String.mk (text.data.takeWhile fun c => !decide (c = '-'))

/-- The property `length` of a text: its number of UTF-16 code units. -/
def utf16Length (text : String) : Nat :=
  (text.data.map fun c => if c.toNat < 65536 then 1 else 2).sum

/-- The test that makes `saveTask` show the alert and return. -/
def yearRejected (dateValue : String) : Bool :=
  let year := beforeHyphen dateValue
  !decide (utf16Length year = 4) || lt (parseInt year) (some 1900) ||
    lt (some 2100) (parseInt year)

/-- Function `saveTask(event)`: `none` when the alert is shown and nothing is
saved, otherwise the store after `updateTask` (when the form carries a task
id) or `addTask`. -/
def saveTask (rt : Runtime) (newId now : String) (remoteOk : Bool) (s : State)
    (form : TaskForm) : Option State :=
  if yearRejected form.taskDate then none
  else
    let taskData : TaskInput :=
      { title := form.taskTitle
        date := form.taskDate
        status := form.taskStatus
        hours := form.taskHours
        notes := some form.taskNotes }
    if form.taskId ≠ "" then some (updateTask rt now remoteOk s form.taskId taskData)
    else some (addTask rt newId now remoteOk s taskData)

/-- A form submission with the hours text `-3`. -/
def negativeInput : TaskInput :=
  { title := "Review", date := "2024-03-12", status := "done", hours := "-3", notes := none }

/-- A store of the signed-in user `uid` that holds the given tasks of the
remote collection; nothing is saved locally and no write has been issued. -/
def signedInStore (uid : String) (tasks : List Task) : State :=
  { tasks := tasks, currentUser := some uid, isConfigured := true, localStorage := none,
    remoteCalls := [] }

/-! ## Sign-in, sign-out and the remote subscription -/

/-- The tracker together with its subscriptions to the document store.
`unsubscribe` is the field `this.unsubscribe` (the handle of the listener it
would release), `live` the listeners registered and not yet released,
`released` the handles whose release function has been called, in order, and
`nextHandle` the handle the next registration gets. -/
structure Session where
  store : State
  unsubscribe : Option Nat
  live : List Nat
  released : List Nat
  nextHandle : Nat

/-- The store after `loadFromLocalStorage()` inside a callback: an error ends
the callback and the store keeps its collection.  (After a `TypeError` the
real collection is the value that is not an array.) -/
def loadOrKeep (rt : Runtime) (s : State) : State :=
  match loadFromLocalStorage rt s with
  | Except.ok s1 => s1
  | Except.error _ => s

/-- Method `setupFirestoreListener()`: registers a listener and stores its
release function in `this.unsubscribe`. -/
def setupFirestoreListener (ss : Session) : Session :=
  { ss with
    unsubscribe := some ss.nextHandle
    live := ss.live ++ [ss.nextHandle]
    nextHandle := ss.nextHandle + 1 }

/-- The callback that `setupAuthListener()` passes to `onAuthStateChanged`. -/
def onAuthStateChanged (rt : Runtime) (ss : Session) (user : Option String) : Session :=
  let ss1 : Session := { ss with store := { ss.store with currentUser := user } }
  match user with
  | some _ => setupFirestoreListener ss1
  | none =>
    let ss2 : Session :=
      match ss1.unsubscribe with
      | some h =>
        { ss1 with
          live := ss1.live.erase h
          released := ss1.released ++ [h]
          unsubscribe := none }
      | none => ss1
    { ss2 with store := loadOrKeep rt ss2.store }

/-- The snapshot callback of the listener `handle`: the documents replace the
collection; nothing is written to local storage.  A released listener calls
back no more. -/
def onSnapshot (ss : Session) (handle : Nat) (docs : List Task) : Session :=
  if handle ∈ ss.live then { ss with store := { ss.store with tasks := docs } } else ss

/-- The error callback of the listener `handle`. -/
def onSnapshotError (rt : Runtime) (ss : Session) (handle : Nat) : Session :=
  if handle ∈ ss.live then { ss with store := loadOrKeep rt ss.store } else ss

/-- What can happen to a session. -/
inductive Event where
  | auth (user : Option String)
  | snapshot (handle : Nat) (docs : List Task)
  | snapshotError (handle : Nat)
  | add (newId now : String) (remoteOk : Bool) (taskData : TaskInput)
  | update (now : String) (remoteOk : Bool) (id : String) (taskData : TaskInput)
  | setStatus (now id newStatus : String)
  | delete (confirmed : Bool) (id : String)

/-- The session after one event. -/
def step (rt : Runtime) (ss : Session) : Event → Session
  | Event.auth user => onAuthStateChanged rt ss user
  | Event.snapshot handle docs => onSnapshot ss handle docs
  | Event.snapshotError handle => onSnapshotError rt ss handle
  | Event.add newId now remoteOk taskData =>
    { ss with store := addTask rt newId now remoteOk ss.store taskData }
  | Event.update now remoteOk id taskData =>
    { ss with store := updateTask rt now remoteOk ss.store id taskData }
  | Event.setStatus now id newStatus =>
    { ss with store := updateTaskStatus rt now ss.store id newStatus }
  | Event.delete confirmed id => { ss with store := deleteTask rt confirmed ss.store id }

/-- The session after a sequence of events. -/
def run (rt : Runtime) (ss : Session) (events : List Event) : Session :=
  events.foldl (step rt) ss

/-- A session in guest mode with Firebase configured: the collection `G` is
saved under the guest key and no listener is registered. -/
def guestSession (rt : Runtime) (G : List Task) : Session :=
  { store :=
      { tasks := G, currentUser := none, isConfigured := true,
        localStorage := some (rt.stringify G), remoteCalls := [] }
    unsubscribe := none
    live := []
    released := []
    nextHandle := 0 }

/-- An event that can write the guest key while a user is signed in: an
`addTask` or `updateTask` whose remote write fails. -/
def Event.fallsBack : Event → Bool
  | Event.add _ _ remoteOk _ => !remoteOk
  | Event.update _ remoteOk _ _ => !remoteOk
  | _ => false

/-- An auth-state notification. -/
def Event.isAuth : Event → Bool
  | Event.auth _ => true
  | _ => false

/-- What every event maintains of the subscriptions: no handle is live twice or
released twice, handles in use are below `nextHandle`, a released handle is not
live, and the handle held in `this.unsubscribe` is live. -/
def SubscriptionsInv (ss : Session) : Prop :=
  ss.live.Nodup ∧ ss.released.Nodup ∧
  (∀ h ∈ ss.live, h < ss.nextHandle) ∧ (∀ h ∈ ss.released, h < ss.nextHandle) ∧
  (∀ h ∈ ss.released, h ∉ ss.live) ∧
  (∀ h, ss.unsubscribe = some h → h ∈ ss.live)

/-! ## The heatmap grid -/

/-- Method `getLocalDateString(date)`: the local year, month and day of the
date as `YYYY-MM-DD`; every field of an Invalid Date is written `NaN`. -/
def getLocalDateString (tz : Int) (date : Option Int) : String :=
  match date with
  | some t =>
    String.mk (yearText (YearFromTime (LocalTime tz t)) ++ ['-'] ++
      pad2 (MonthFromTime (LocalTime tz t) + 1) ++ ['-'] ++ pad2 (DateFromTime (LocalTime tz t)))
  | none => "NaN-NaN-NaN"

/-- One `div` of the heatmap: a day cell with its `data-date` and its level, or
the disabled placeholder.  The tooltip, a text built from the count and the
formatted date, is left out. -/
inductive Cell where
  | day (dateStr : String) (level : Nat)
  | placeholder
deriving DecidableEq

/-- The variables `startDate` and `endDate` of `renderHeatmap`; `now` is the
time value of `today`. -/
def heatmapRange (tz now selectedYear : Int) (selectedMonth : MonthSelection) :
    Option Int × Option Int :=
  let today : Option Int := some now
  match selectedMonth with
  | MonthSelection.all =>
    (newDateLocal tz selectedYear 0 1,
     if strictEq (some selectedYear) (getFullYear tz today) then today
     else newDateLocal tz selectedYear 11 31)
  | MonthSelection.index month =>
    (newDateLocal tz selectedYear month 1,
     if strictEq (some selectedYear) (getFullYear tz today) &&
         strictEq (some month) (getMonth tz today) then today
     else newDateLocal tz selectedYear (month + 1) 0)

/-- One pass of the body of the `for` loop of `renderHeatmap`, without the
step to the next day. -/
def heatmapCell (tz now : Int) (act : Activity) (startDate currentDate : Option Int) : Cell :=
  let dateStr := getLocalDateString tz currentDate
  let count := dayCount act dateStr
  let level := getActivityLevel count
  let isFuture := lt (some now) currentDate
  let isBeforeRange := lt currentDate startDate
  if !isFuture && !isBeforeRange then Cell.day dateStr level else Cell.placeholder

/-- The `for` loop of `renderHeatmap` run for `days` passes: the cells it
emits and the value of `currentDate` after it. -/
def heatmapWeek (tz now : Int) (act : Activity) (startDate : Option Int) :
    Nat → Option Int → List Cell × Option Int
  | 0, currentDate => ([], currentDate)
  | days + 1, currentDate =>
    let cell := heatmapCell tz now act startDate currentDate
    let next := setDate tz currentDate (add (getDate tz currentDate) (some 1))
    let rest := heatmapWeek tz now act startDate days next
    (cell :: rest.1, rest.2)

/-- The `while (currentDate <= endDate)` loop of `renderHeatmap` with at most
`fuel` passes: the weeks it emits, `none` when `fuel` passes do not end it. -/
def heatmapWeeks (tz now : Int) (act : Activity) (startDate endDate : Option Int) :
    Nat → Option Int → Option (List (List Cell))
  | 0, currentDate => if le currentDate endDate then none else some []
  | fuel + 1, currentDate =>
    if le currentDate endDate then
      let week := heatmapWeek tz now act startDate 7 currentDate
      (heatmapWeeks tz now act startDate endDate fuel week.2).map fun weeks => week.1 :: weeks
    else some []

/-- The grid part of `renderHeatmap`: range, alignment to Sunday, and the week
loop with at most `fuel` passes. -/
def renderHeatmapGrid (tz now : Int) (tasks : List Task) (selectedYear : Int)
    (selectedMonth : MonthSelection) (fuel : Nat) : Option (List (List Cell)) :=
  let act := renderHeatmapActivity tz tasks selectedYear selectedMonth
  let range := heatmapRange tz now selectedYear selectedMonth
  let startDate := range.1
  let endDate := range.2
  let alignedStart := setDate tz startDate (sub (getDate tz startDate) (getDay tz startDate))
  heatmapWeeks tz now act startDate endDate fuel alignedStart

/-- The text `YYYY-MM-DD` of the calendar day with day number `day`. -/
def dayText (day : Int) : String :=
  String.mk (yearText (YearFromTime (day * msPerDay)) ++ ['-'] ++
    pad2 (MonthFromTime (day * msPerDay) + 1) ++ ['-'] ++ pad2 (DateFromTime (day * msPerDay)))

/-- The cell that the specification asks for the calendar day `day`: a
placeholder when the day is after today or before the first day of the range,
otherwise a day cell with the text of the day and the level of its count. -/
def expectedCell (tz now : Int) (act : Activity) (startDay day : Int) : Cell :=
  if Day (LocalTime tz now) < day ∨ day < startDay then Cell.placeholder
  else Cell.day (dayText day) (getActivityLevel (dayCount act (dayText day)))

/-- The grid that the specification asks for: `weeks` rows of seven
consecutive days, the first day being the Sunday on or before the first day of
the range. -/
def expectedGrid (tz now : Int) (act : Activity) (startDay : Int) (weeks : Nat) :
    List (List Cell) :=
  (List.range weeks).map fun (i : Nat) =>
    (List.range 7).map fun (j : Nat) =>
      expectedCell tz now act startDay (sundayOnOrBefore startDay + 7 * (i : Int) + (j : Int))

/-- Day number of the first day of the range that the heatmap shows. -/
def rangeStartDay (selectedYear : Int) (selectedMonth : MonthSelection) : Int :=
  match selectedMonth with
  | MonthSelection.all => MakeDay (fullYear selectedYear) 0 1
  | MonthSelection.index month => MakeDay (fullYear selectedYear) month 1

/-- Local day number of the variable `endDate` of `renderHeatmap`. -/
def rangeEndDay (tz now selectedYear : Int) (selectedMonth : MonthSelection) : Int :=
  match (heatmapRange tz now selectedYear selectedMonth).2 with
  | some e => Day (LocalTime tz e)
  | none => 0

/-- The number of weeks from the Sunday on or before `startDay` that begin on
or before `endDay`. -/
def weeksShown (startDay endDay : Int) : Nat :=
  ((endDay - sundayOnOrBefore startDay) / 7 + 1).toNat

end TaskTracker

/-! ## Lemmas on the date operations -/

namespace JSDate

theorem digitVal_range (c : Char) (a : Int) (h : digitVal c = some a) : 0 ≤ a ∧ a ≤ 9 := by
  unfold digitVal at h
  split_ifs at h with hd
  simp only [Option.some.injEq] at h
  simp only [Char.isDigit, Bool.and_eq_true, decide_eq_true_eq] at hd
  have h1 : 48 ≤ c.toNat := hd.1
  have h2 : c.toNat ≤ 57 := hd.2
  omega

theorem dateFields_range (cs : List Char) (y m d : Int) (h : dateFields cs = some (y, m, d)) :
    0 ≤ y ∧ y ≤ 9999 ∧ 0 ≤ m ∧ m ≤ 99 ∧ 0 ≤ d ∧ d ≤ 99 := by
  unfold dateFields at h
  split at h
  · split_ifs at h
    split at h
    · rename_i a b c d0 e f g k h1 h2 h3 h4 h5 h6 h7 h8
      simp only [Option.some.injEq, Prod.mk.injEq] at h
      have := digitVal_range _ _ h1
      have := digitVal_range _ _ h2
      have := digitVal_range _ _ h3
      have := digitVal_range _ _ h4
      have := digitVal_range _ _ h5
      have := digitVal_range _ _ h6
      have := digitVal_range _ _ h7
      have := digitVal_range _ _ h8
      omega
    · simp at h
  · simp at h

theorem year_spec (t : Int) :
    DayFromYear (YearFromTime t) ≤ Day t ∧ Day t < DayFromYear (YearFromTime t + 1) := by
  unfold YearFromTime
  simp only []
  generalize Day t = d
  generalize hc : 1970 + d * 400 / 146097 = c
  have hc1 : 146097 * (c - 1970) ≤ 400 * d := by omega
  have hc2 : 400 * d < 146097 * (c - 1970) + 146097 := by omega
  clear hc
  have e : c - 1 + 1 = c := by omega
  split_ifs with h1 h2
  · refine ⟨h1, ?_⟩
    unfold DayFromYear
    omega
  · exact ⟨h2, by omega⟩
  · rw [e]
    refine ⟨?_, by omega⟩
    unfold DayFromYear
    omega

theorem DayFromYear_succ (y : Int) : DayFromYear (y + 1) = DayFromYear y + DaysInYear y := by
  unfold DayFromYear DaysInYear
  split_ifs <;> omega

theorem DaysInYear_pos (y : Int) : 365 ≤ DaysInYear y ∧ DaysInYear y ≤ 366 := by
  unfold DaysInYear
  split_ifs <;> omega

theorem DayFromYear_lt (a b : Int) (h : a < b) : DayFromYear a < DayFromYear b := by
  unfold DayFromYear
  omega

theorem YearFromTime_unique (t y : Int) (h1 : DayFromYear y ≤ Day t)
    (h2 : Day t < DayFromYear (y + 1)) : YearFromTime t = y := by
  obtain ⟨k1, k2⟩ := year_spec t
  by_contra hne
  rcases lt_or_gt_of_ne hne with hlt | hgt
  · have h3 : YearFromTime t + 1 ≤ y := by omega
    rcases eq_or_lt_of_le h3 with h4 | h4
    · rw [h4] at k2; omega
    · have := DayFromYear_lt _ _ h4
      omega
  · have h3 : y + 1 ≤ YearFromTime t := by omega
    rcases eq_or_lt_of_le h3 with h4 | h4
    · rw [← h4] at k1; omega
    · have := DayFromYear_lt _ _ h4
      omega

theorem monthOfDayWithinYear_range (dwy leap : Int) :
    0 ≤ monthOfDayWithinYear dwy leap ∧ monthOfDayWithinYear dwy leap ≤ 11 := by
  unfold monthOfDayWithinYear
  by_cases h0 : dwy < 31
  · rw [if_pos h0]; omega
  by_cases h1 : dwy < 59 + leap
  · rw [if_neg h0, if_pos h1]; omega
  by_cases h2 : dwy < 90 + leap
  · rw [if_neg h0, if_neg h1, if_pos h2]; omega
  by_cases h3 : dwy < 120 + leap
  · rw [if_neg h0, if_neg h1, if_neg h2, if_pos h3]; omega
  by_cases h4 : dwy < 151 + leap
  · rw [if_neg h0, if_neg h1, if_neg h2, if_neg h3, if_pos h4]; omega
  by_cases h5 : dwy < 181 + leap
  · rw [if_neg h0, if_neg h1, if_neg h2, if_neg h3, if_neg h4, if_pos h5]; omega
  by_cases h6 : dwy < 212 + leap
  · rw [if_neg h0, if_neg h1, if_neg h2, if_neg h3, if_neg h4, if_neg h5, if_pos h6]; omega
  by_cases h7 : dwy < 243 + leap
  · rw [if_neg h0, if_neg h1, if_neg h2, if_neg h3, if_neg h4, if_neg h5, if_neg h6, if_pos h7]; omega
  by_cases h8 : dwy < 273 + leap
  · rw [if_neg h0, if_neg h1, if_neg h2, if_neg h3, if_neg h4, if_neg h5, if_neg h6, if_neg h7, if_pos h8]; omega
  by_cases h9 : dwy < 304 + leap
  · rw [if_neg h0, if_neg h1, if_neg h2, if_neg h3, if_neg h4, if_neg h5, if_neg h6, if_neg h7, if_neg h8, if_pos h9]; omega
  by_cases h10 : dwy < 334 + leap
  · rw [if_neg h0, if_neg h1, if_neg h2, if_neg h3, if_neg h4, if_neg h5, if_neg h6, if_neg h7, if_neg h8, if_neg h9, if_pos h10]; omega
  rw [if_neg h0, if_neg h1, if_neg h2, if_neg h3, if_neg h4, if_neg h5, if_neg h6, if_neg h7, if_neg h8, if_neg h9, if_neg h10]; omega

/-- Setting the day of the month to the current one plus `j` moves the day
number by `j`. -/
theorem MakeDay_shift (l j : Int) :
    MakeDay (YearFromTime l) (MonthFromTime l) (DateFromTime l + j) = Day l + j := by
  have hm := monthOfDayWithinYear_range (DayWithinYear l) (InLeapYear l)
  unfold MakeDay DateFromTime
  simp only []
  have e1 : MonthFromTime l / 12 = 0 := by unfold MonthFromTime; omega
  have e2 : MonthFromTime l % 12 = MonthFromTime l := by unfold MonthFromTime; omega
  rw [e1, e2, add_zero]
  have e3 : (if DaysInYear (YearFromTime l) = 366 then (1 : Int) else 0) = InLeapYear l := rfl
  rw [e3]
  unfold DayWithinYear
  omega

theorem MakeDate_shift (l j : Int) :
    MakeDate (Day l + j) (TimeWithinDay l) = l + j * msPerDay := by
  unfold MakeDate Day TimeWithinDay msPerDay
  omega

/-- In a zone with a fixed offset, `setDate(getDate() + j)` moves the time
value by `j` whole days. -/
theorem setDate_getDate_add (tz v j : Int) :
    setDate tz (some v) (add (getDate tz (some v)) (some j)) = TimeClip (v + j * msPerDay) := by
  simp only [setDate, add, getDate, Option.map_some']
  rw [MakeDay_shift, MakeDate_shift]
  unfold UTC LocalTime
  congr 1
  omega

theorem setDate_getDate_sub (tz v j : Int) :
    setDate tz (some v) (sub (getDate tz (some v)) (some j)) = TimeClip (v - j * msPerDay) := by
  simp only [setDate, sub, getDate, Option.map_some']
  rw [sub_eq_add_neg, MakeDay_shift, MakeDate_shift]
  unfold UTC LocalTime
  congr 1
  simp only [neg_mul]
  omega

theorem daysBeforeMonth_range (m leap : Int) (hl : 0 ≤ leap ∧ leap ≤ 1) :
    0 ≤ daysBeforeMonth m leap ∧ daysBeforeMonth m leap ≤ 335 := by
  unfold daysBeforeMonth
  by_cases h0 : m = 0
  · rw [if_pos h0]; omega
  by_cases h1 : m = 1
  · rw [if_neg h0, if_pos h1]; omega
  by_cases h2 : m = 2
  · rw [if_neg h0, if_neg h1, if_pos h2]; omega
  by_cases h3 : m = 3
  · rw [if_neg h0, if_neg h1, if_neg h2, if_pos h3]; omega
  by_cases h4 : m = 4
  · rw [if_neg h0, if_neg h1, if_neg h2, if_neg h3, if_pos h4]; omega
  by_cases h5 : m = 5
  · rw [if_neg h0, if_neg h1, if_neg h2, if_neg h3, if_neg h4, if_pos h5]; omega
  by_cases h6 : m = 6
  · rw [if_neg h0, if_neg h1, if_neg h2, if_neg h3, if_neg h4, if_neg h5, if_pos h6]; omega
  by_cases h7 : m = 7
  · rw [if_neg h0, if_neg h1, if_neg h2, if_neg h3, if_neg h4, if_neg h5, if_neg h6, if_pos h7]; omega
  by_cases h8 : m = 8
  · rw [if_neg h0, if_neg h1, if_neg h2, if_neg h3, if_neg h4, if_neg h5, if_neg h6, if_neg h7, if_pos h8]; omega
  by_cases h9 : m = 9
  · rw [if_neg h0, if_neg h1, if_neg h2, if_neg h3, if_neg h4, if_neg h5, if_neg h6, if_neg h7, if_neg h8, if_pos h9]; omega
  by_cases h10 : m = 10
  · rw [if_neg h0, if_neg h1, if_neg h2, if_neg h3, if_neg h4, if_neg h5, if_neg h6, if_neg h7, if_neg h8, if_neg h9, if_pos h10]; omega
  rw [if_neg h0, if_neg h1, if_neg h2, if_neg h3, if_neg h4, if_neg h5, if_neg h6, if_neg h7, if_neg h8, if_neg h9, if_neg h10]; omega

theorem TimeClip_eq_some (t v : Int) (h : TimeClip t = some v) :
    v = t ∧ -8640000000000000 ≤ t ∧ t ≤ 8640000000000000 := by
  unfold TimeClip at h
  split_ifs at h with hb
  simp only [Option.some.injEq] at h
  omega

theorem TimeClip_of_bounds (t : Int) (h1 : -8640000000000000 ≤ t) (h2 : t ≤ 8640000000000000) :
    TimeClip t = some t := by
  unfold TimeClip
  rw [if_pos ⟨h1, h2⟩]

theorem calendarDate_eq_some (s : String) (y m d : Int) (h : calendarDate s = some (y, m, d)) :
    0 ≤ y ∧ y ≤ 9999 ∧ 1 ≤ m ∧ m ≤ 12 ∧ 1 ≤ d ∧ d ≤ daysInMonth y (m - 1) ∧ d ≤ 99 := by
  unfold calendarDate at h
  split at h
  · rename_i y0 m0 d0 hf
    split_ifs at h with hv
    simp only [Option.some.injEq, Prod.mk.injEq] at h
    obtain ⟨rfl, rfl, rfl⟩ := h
    obtain ⟨hy1, hy2, -, -, -, hd2⟩ := dateFields_range _ _ _ _ hf
    exact ⟨hy1, hy2, hv.1, hv.2.1, hv.2.2.1, hv.2.2.2, hd2⟩
  · simp at h

theorem MakeDay_bounds (y m d : Int) (hy1 : 0 ≤ y) (hy2 : y ≤ 9999) (hm1 : 0 ≤ m) (hm2 : m ≤ 11)
    (hd1 : 1 ≤ d) (hd2 : d ≤ 99) : -720000 ≤ MakeDay y m d ∧ MakeDay y m d ≤ 2940000 := by
  have e1 : m / 12 = 0 := by omega
  unfold MakeDay
  simp only []
  rw [e1, add_zero]
  have hb := daysBeforeMonth_range (m % 12)
    (if DaysInYear y = 366 then 1 else 0) (by split_ifs <;> omega)
  unfold DayFromYear
  omega

/-- A text that denotes a calendar date parses to midnight UTC of that day. -/
theorem parse_of_calendarDate (s : String) (y m d : Int)
    (h : calendarDate s = some (y, m, d)) :
    parse s = some (MakeDay y (m - 1) d * msPerDay) := by
  obtain ⟨hy1, hy2, hm1, hm2, hd1, -, hd2⟩ := calendarDate_eq_some s y m d h
  obtain ⟨b1, b2⟩ := MakeDay_bounds y (m - 1) d hy1 hy2 (by omega) (by omega) hd1 hd2
  unfold parse
  rw [h]
  simp only []
  unfold MakeDate
  rw [add_zero, TimeClip_of_bounds]
  · unfold msPerDay; omega
  · unfold msPerDay; omega

theorem parse_of_calendarDate_none (s : String) (h : calendarDate s = none) : parse s = none := by
  unfold parse
  rw [h]

/-- A parsed date is midnight UTC of a day between year 0 and year 9999. -/
theorem parse_eq_some (s : String) (v : Int) (h : parse s = some v) :
    ∃ n : Int, v = n * msPerDay ∧ -720000 ≤ n ∧ n ≤ 2940000 := by
  cases hc : calendarDate s with
  | none => rw [parse_of_calendarDate_none s hc] at h; simp at h
  | some ymd =>
    obtain ⟨y, m, d⟩ := ymd
    obtain ⟨hy1, hy2, hm1, hm2, hd1, -, hd2⟩ := calendarDate_eq_some s y m d hc
    obtain ⟨b1, b2⟩ := MakeDay_bounds y (m - 1) d hy1 hy2 (by omega) (by omega) hd1 hd2
    rw [parse_of_calendarDate s y m d hc] at h
    simp only [Option.some.injEq] at h
    exact ⟨MakeDay y (m - 1) d, h.symm, b1, b2⟩

theorem WeekDay_range (t : Int) : 0 ≤ WeekDay t ∧ WeekDay t ≤ 6 := by
  unfold WeekDay
  omega

theorem dayNumber_eq_some (s : String) (n : Int) (h : dayNumber s = some n) :
    parse s = some (n * msPerDay) ∧ -720000 ≤ n ∧ n ≤ 2940000 := by
  unfold dayNumber at h
  cases hp : parse s with
  | none => simp [hp] at h
  | some v =>
    obtain ⟨k, hk, b1, b2⟩ := parse_eq_some s v hp
    simp only [hp, Option.map_some', Option.some.injEq] at h
    have e : k = n := by
      rw [← h, hk]
      unfold Day msPerDay
      omega
    subst e
    exact ⟨by rw [hk], b1, b2⟩

theorem dayNumber_of_calendarDate (s : String) (y m d : Int)
    (h : calendarDate s = some (y, m, d)) : dayNumber s = some (MakeDay y (m - 1) d) := by
  unfold dayNumber
  rw [parse_of_calendarDate s y m d h]
  simp only [Option.map_some', Option.some.injEq]
  unfold Day msPerDay
  omega

theorem monthOfDayWithinYear_cases (x leap : Int) (hl : 0 ≤ leap ∧ leap ≤ 1) :
    (x < 31 → monthOfDayWithinYear x leap = 0) ∧
    (31 ≤ x → x < 59 + leap → monthOfDayWithinYear x leap = 1) ∧
    (59 + leap ≤ x → x < 90 + leap → monthOfDayWithinYear x leap = 2) ∧
    (90 + leap ≤ x → x < 120 + leap → monthOfDayWithinYear x leap = 3) ∧
    (120 + leap ≤ x → x < 151 + leap → monthOfDayWithinYear x leap = 4) ∧
    (151 + leap ≤ x → x < 181 + leap → monthOfDayWithinYear x leap = 5) ∧
    (181 + leap ≤ x → x < 212 + leap → monthOfDayWithinYear x leap = 6) ∧
    (212 + leap ≤ x → x < 243 + leap → monthOfDayWithinYear x leap = 7) ∧
    (243 + leap ≤ x → x < 273 + leap → monthOfDayWithinYear x leap = 8) ∧
    (273 + leap ≤ x → x < 304 + leap → monthOfDayWithinYear x leap = 9) ∧
    (304 + leap ≤ x → x < 334 + leap → monthOfDayWithinYear x leap = 10) ∧
    (334 + leap ≤ x → monthOfDayWithinYear x leap = 11) := by
  unfold monthOfDayWithinYear
  by_cases h0 : x < 31
  · rw [if_pos h0]
    refine ⟨?_, ?_, ?_, ?_, ?_, ?_, ?_, ?_, ?_, ?_, ?_, ?_⟩ <;> intros <;> omega
  by_cases h1 : x < 59 + leap
  · rw [if_neg h0, if_pos h1]
    refine ⟨?_, ?_, ?_, ?_, ?_, ?_, ?_, ?_, ?_, ?_, ?_, ?_⟩ <;> intros <;> omega
  by_cases h2 : x < 90 + leap
  · rw [if_neg h0, if_neg h1, if_pos h2]
    refine ⟨?_, ?_, ?_, ?_, ?_, ?_, ?_, ?_, ?_, ?_, ?_, ?_⟩ <;> intros <;> omega
  by_cases h3 : x < 120 + leap
  · rw [if_neg h0, if_neg h1, if_neg h2, if_pos h3]
    refine ⟨?_, ?_, ?_, ?_, ?_, ?_, ?_, ?_, ?_, ?_, ?_, ?_⟩ <;> intros <;> omega
  by_cases h4 : x < 151 + leap
  · rw [if_neg h0, if_neg h1, if_neg h2, if_neg h3, if_pos h4]
    refine ⟨?_, ?_, ?_, ?_, ?_, ?_, ?_, ?_, ?_, ?_, ?_, ?_⟩ <;> intros <;> omega
  by_cases h5 : x < 181 + leap
  · rw [if_neg h0, if_neg h1, if_neg h2, if_neg h3, if_neg h4, if_pos h5]
    refine ⟨?_, ?_, ?_, ?_, ?_, ?_, ?_, ?_, ?_, ?_, ?_, ?_⟩ <;> intros <;> omega
  by_cases h6 : x < 212 + leap
  · rw [if_neg h0, if_neg h1, if_neg h2, if_neg h3, if_neg h4, if_neg h5, if_pos h6]
    refine ⟨?_, ?_, ?_, ?_, ?_, ?_, ?_, ?_, ?_, ?_, ?_, ?_⟩ <;> intros <;> omega
  by_cases h7 : x < 243 + leap
  · rw [if_neg h0, if_neg h1, if_neg h2, if_neg h3, if_neg h4, if_neg h5, if_neg h6, if_pos h7]
    refine ⟨?_, ?_, ?_, ?_, ?_, ?_, ?_, ?_, ?_, ?_, ?_, ?_⟩ <;> intros <;> omega
  by_cases h8 : x < 273 + leap
  · rw [if_neg h0, if_neg h1, if_neg h2, if_neg h3, if_neg h4, if_neg h5, if_neg h6, if_neg h7, if_pos h8]
    refine ⟨?_, ?_, ?_, ?_, ?_, ?_, ?_, ?_, ?_, ?_, ?_, ?_⟩ <;> intros <;> omega
  by_cases h9 : x < 304 + leap
  · rw [if_neg h0, if_neg h1, if_neg h2, if_neg h3, if_neg h4, if_neg h5, if_neg h6, if_neg h7, if_neg h8, if_pos h9]
    refine ⟨?_, ?_, ?_, ?_, ?_, ?_, ?_, ?_, ?_, ?_, ?_, ?_⟩ <;> intros <;> omega
  by_cases h10 : x < 334 + leap
  · rw [if_neg h0, if_neg h1, if_neg h2, if_neg h3, if_neg h4, if_neg h5, if_neg h6, if_neg h7, if_neg h8, if_neg h9, if_pos h10]
    refine ⟨?_, ?_, ?_, ?_, ?_, ?_, ?_, ?_, ?_, ?_, ?_, ?_⟩ <;> intros <;> omega
  rw [if_neg h0, if_neg h1, if_neg h2, if_neg h3, if_neg h4, if_neg h5, if_neg h6, if_neg h7, if_neg h8, if_neg h9, if_neg h10]
  refine ⟨?_, ?_, ?_, ?_, ?_, ?_, ?_, ?_, ?_, ?_, ?_, ?_⟩ <;> intros <;> omega

theorem daysBeforeMonth_values (leap : Int) :
    daysBeforeMonth 0 leap = 0 ∧
    daysBeforeMonth 1 leap = 31 ∧
    daysBeforeMonth 2 leap = 59 + leap ∧
    daysBeforeMonth 3 leap = 90 + leap ∧
    daysBeforeMonth 4 leap = 120 + leap ∧
    daysBeforeMonth 5 leap = 151 + leap ∧
    daysBeforeMonth 6 leap = 181 + leap ∧
    daysBeforeMonth 7 leap = 212 + leap ∧
    daysBeforeMonth 8 leap = 243 + leap ∧
    daysBeforeMonth 9 leap = 273 + leap ∧
    daysBeforeMonth 10 leap = 304 + leap ∧
    daysBeforeMonth 11 leap = 334 + leap := by
  simp [daysBeforeMonth]

theorem month_of_valid_date (m d leap : Int) (hl : 0 ≤ leap ∧ leap ≤ 1) (hm0 : 0 ≤ m)
    (hm1 : m ≤ 11) (hd1 : 1 ≤ d)
    (hd2 : d ≤ if m = 11 then 31 else daysBeforeMonth (m + 1) leap - daysBeforeMonth m leap) :
    monthOfDayWithinYear (daysBeforeMonth m leap + d - 1) leap = m ∧
    0 ≤ daysBeforeMonth m leap + d - 1 ∧ daysBeforeMonth m leap + d - 1 < 365 + leap := by
  obtain ⟨v0, v1, v2, v3, v4, v5, v6, v7, v8, v9, v10, v11⟩ := daysBeforeMonth_values leap
  interval_cases m
  · rw [if_neg (by decide)] at hd2
    norm_num only [] at hd2
    rw [v1, v0] at hd2
    rw [v0]
    clear v0 v1 v2 v3 v4 v5 v6 v7 v8 v9 v10 v11
    have h2 : 0 + d - 1 < 31 := by omega
    have h3 : 0 ≤ 0 + d - 1 := by omega
    have h4 : 0 + d - 1 < 365 + leap := by omega
    exact ⟨(monthOfDayWithinYear_cases _ leap hl).1 h2, h3, h4⟩
  · rw [if_neg (by decide)] at hd2
    norm_num only [] at hd2
    rw [v2, v1] at hd2
    rw [v1]
    clear v0 v1 v2 v3 v4 v5 v6 v7 v8 v9 v10 v11
    have h1 : 31 ≤ 31 + d - 1 := by omega
    have h2 : 31 + d - 1 < 59 + leap := by omega
    have h3 : 0 ≤ 31 + d - 1 := by omega
    have h4 : 31 + d - 1 < 365 + leap := by omega
    exact ⟨(monthOfDayWithinYear_cases _ leap hl).2.1 h1 h2, h3, h4⟩
  · rw [if_neg (by decide)] at hd2
    norm_num only [] at hd2
    rw [v3, v2] at hd2
    rw [v2]
    clear v0 v1 v2 v3 v4 v5 v6 v7 v8 v9 v10 v11
    have h1 : 59 + leap ≤ 59 + leap + d - 1 := by omega
    have h2 : 59 + leap + d - 1 < 90 + leap := by omega
    have h3 : 0 ≤ 59 + leap + d - 1 := by omega
    have h4 : 59 + leap + d - 1 < 365 + leap := by omega
    exact ⟨(monthOfDayWithinYear_cases _ leap hl).2.2.1 h1 h2, h3, h4⟩
  · rw [if_neg (by decide)] at hd2
    norm_num only [] at hd2
    rw [v4, v3] at hd2
    rw [v3]
    clear v0 v1 v2 v3 v4 v5 v6 v7 v8 v9 v10 v11
    have h1 : 90 + leap ≤ 90 + leap + d - 1 := by omega
    have h2 : 90 + leap + d - 1 < 120 + leap := by omega
    have h3 : 0 ≤ 90 + leap + d - 1 := by omega
    have h4 : 90 + leap + d - 1 < 365 + leap := by omega
    exact ⟨(monthOfDayWithinYear_cases _ leap hl).2.2.2.1 h1 h2, h3, h4⟩
  · rw [if_neg (by decide)] at hd2
    norm_num only [] at hd2
    rw [v5, v4] at hd2
    rw [v4]
    clear v0 v1 v2 v3 v4 v5 v6 v7 v8 v9 v10 v11
    have h1 : 120 + leap ≤ 120 + leap + d - 1 := by omega
    have h2 : 120 + leap + d - 1 < 151 + leap := by omega
    have h3 : 0 ≤ 120 + leap + d - 1 := by omega
    have h4 : 120 + leap + d - 1 < 365 + leap := by omega
    exact ⟨(monthOfDayWithinYear_cases _ leap hl).2.2.2.2.1 h1 h2, h3, h4⟩
  · rw [if_neg (by decide)] at hd2
    norm_num only [] at hd2
    rw [v6, v5] at hd2
    rw [v5]
    clear v0 v1 v2 v3 v4 v5 v6 v7 v8 v9 v10 v11
    have h1 : 151 + leap ≤ 151 + leap + d - 1 := by omega
    have h2 : 151 + leap + d - 1 < 181 + leap := by omega
    have h3 : 0 ≤ 151 + leap + d - 1 := by omega
    have h4 : 151 + leap + d - 1 < 365 + leap := by omega
    exact ⟨(monthOfDayWithinYear_cases _ leap hl).2.2.2.2.2.1 h1 h2, h3, h4⟩
  · rw [if_neg (by decide)] at hd2
    norm_num only [] at hd2
    rw [v7, v6] at hd2
    rw [v6]
    clear v0 v1 v2 v3 v4 v5 v6 v7 v8 v9 v10 v11
    have h1 : 181 + leap ≤ 181 + leap + d - 1 := by omega
    have h2 : 181 + leap + d - 1 < 212 + leap := by omega
    have h3 : 0 ≤ 181 + leap + d - 1 := by omega
    have h4 : 181 + leap + d - 1 < 365 + leap := by omega
    exact ⟨(monthOfDayWithinYear_cases _ leap hl).2.2.2.2.2.2.1 h1 h2, h3, h4⟩
  · rw [if_neg (by decide)] at hd2
    norm_num only [] at hd2
    rw [v8, v7] at hd2
    rw [v7]
    clear v0 v1 v2 v3 v4 v5 v6 v7 v8 v9 v10 v11
    have h1 : 212 + leap ≤ 212 + leap + d - 1 := by omega
    have h2 : 212 + leap + d - 1 < 243 + leap := by omega
    have h3 : 0 ≤ 212 + leap + d - 1 := by omega
    have h4 : 212 + leap + d - 1 < 365 + leap := by omega
    exact ⟨(monthOfDayWithinYear_cases _ leap hl).2.2.2.2.2.2.2.1 h1 h2, h3, h4⟩
  · rw [if_neg (by decide)] at hd2
    norm_num only [] at hd2
    rw [v9, v8] at hd2
    rw [v8]
    clear v0 v1 v2 v3 v4 v5 v6 v7 v8 v9 v10 v11
    have h1 : 243 + leap ≤ 243 + leap + d - 1 := by omega
    have h2 : 243 + leap + d - 1 < 273 + leap := by omega
    have h3 : 0 ≤ 243 + leap + d - 1 := by omega
    have h4 : 243 + leap + d - 1 < 365 + leap := by omega
    exact ⟨(monthOfDayWithinYear_cases _ leap hl).2.2.2.2.2.2.2.2.1 h1 h2, h3, h4⟩
  · rw [if_neg (by decide)] at hd2
    norm_num only [] at hd2
    rw [v10, v9] at hd2
    rw [v9]
    clear v0 v1 v2 v3 v4 v5 v6 v7 v8 v9 v10 v11
    have h1 : 273 + leap ≤ 273 + leap + d - 1 := by omega
    have h2 : 273 + leap + d - 1 < 304 + leap := by omega
    have h3 : 0 ≤ 273 + leap + d - 1 := by omega
    have h4 : 273 + leap + d - 1 < 365 + leap := by omega
    exact ⟨(monthOfDayWithinYear_cases _ leap hl).2.2.2.2.2.2.2.2.2.1 h1 h2, h3, h4⟩
  · rw [if_neg (by decide)] at hd2
    norm_num only [] at hd2
    rw [v11, v10] at hd2
    rw [v10]
    clear v0 v1 v2 v3 v4 v5 v6 v7 v8 v9 v10 v11
    have h1 : 304 + leap ≤ 304 + leap + d - 1 := by omega
    have h2 : 304 + leap + d - 1 < 334 + leap := by omega
    have h3 : 0 ≤ 304 + leap + d - 1 := by omega
    have h4 : 304 + leap + d - 1 < 365 + leap := by omega
    exact ⟨(monthOfDayWithinYear_cases _ leap hl).2.2.2.2.2.2.2.2.2.2.1 h1 h2, h3, h4⟩
  · rw [if_pos rfl] at hd2
    rw [v11]
    clear v0 v1 v2 v3 v4 v5 v6 v7 v8 v9 v10 v11
    have h1 : 334 + leap ≤ 334 + leap + d - 1 := by omega
    have h3 : 0 ≤ 334 + leap + d - 1 := by omega
    have h4 : 334 + leap + d - 1 < 365 + leap := by omega
    exact ⟨(monthOfDayWithinYear_cases _ leap hl).2.2.2.2.2.2.2.2.2.2.2 h1, h3, h4⟩

/-- Reading back a valid calendar date: any time value on the day
`MakeDay y m d` has year `y`, month `m` and date `d`. -/
theorem fields_of_MakeDay (y m d t : Int) (hm0 : 0 ≤ m) (hm1 : m ≤ 11) (hd1 : 1 ≤ d)
    (hd2 : d ≤ daysInMonth y m) (ht : Day t = MakeDay y m d) :
    YearFromTime t = y ∧ MonthFromTime t = m ∧ DateFromTime t = d := by
  have e1 : m / 12 = 0 := by omega
  have e2 : m % 12 = m := by omega
  unfold MakeDay at ht
  simp only [] at ht
  rw [e1, e2, add_zero] at ht
  unfold daysInMonth at hd2
  simp only [] at hd2
  have hdy : DaysInYear y = 365 + (if DaysInYear y = 366 then 1 else 0) := by
    have := DaysInYear_pos y
    split_ifs <;> omega
  have hleap : (0 : Int) ≤ (if DaysInYear y = 366 then 1 else 0) ∧
      (if DaysInYear y = 366 then (1 : Int) else 0) ≤ 1 := by
    split_ifs <;> omega
  generalize (if DaysInYear y = 366 then (1 : Int) else 0) = leap at *
  obtain ⟨k1, k2, k3⟩ := month_of_valid_date m d leap hleap hm0 hm1 hd1 hd2
  have hy : YearFromTime t = y := by
    apply YearFromTime_unique
    · omega
    · rw [DayFromYear_succ]; omega
  have hl : InLeapYear t = leap := by
    unfold InLeapYear
    rw [hy]
    split_ifs <;> omega
  have hw : DayWithinYear t = daysBeforeMonth m leap + d - 1 := by
    unfold DayWithinYear
    rw [hy]; omega
  have hmo : MonthFromTime t = m := by
    unfold MonthFromTime
    rw [hw, hl, k1]
  refine ⟨hy, hmo, ?_⟩
  unfold DateFromTime
  rw [hmo, hw, hl]
  omega

/-- At or east of UTC the local year and month of a parsed date are the year
and month of the text. -/
theorem local_fields_east (tz : Int) (s : String) (y m d : Int) (h0 : 0 ≤ tz) (h1 : tz < 1440)
    (h : calendarDate s = some (y, m, d)) :
    getFullYear tz (parse s) = some y ∧ getMonth tz (parse s) = some (m - 1) := by
  obtain ⟨-, -, hm1, hm2, hd1, hd2, -⟩ := calendarDate_eq_some s y m d h
  rw [parse_of_calendarDate s y m d h]
  have hday : Day (LocalTime tz (MakeDay y (m - 1) d * msPerDay)) = MakeDay y (m - 1) d := by
    unfold Day LocalTime msPerDay msPerMinute
    omega
  obtain ⟨k1, k2, -⟩ := fields_of_MakeDay y (m - 1) d _ (by omega) (by omega) hd1 hd2 hday
  simp [getFullYear, getMonth, k1, k2]

theorem local_fields_none (tz : Int) (s : String) (h : calendarDate s = none) :
    getFullYear tz (parse s) = none ∧ getMonth tz (parse s) = none := by
  rw [parse_of_calendarDate_none s h]
  simp [getFullYear, getMonth]

/-- The day `sundayOnOrBefore n` is a Sunday, at most six days before `n`. -/
theorem sundayOnOrBefore_spec (n : Int) :
    WeekDay (sundayOnOrBefore n * msPerDay) = 0 ∧ sundayOnOrBefore n ≤ n ∧
    n < sundayOnOrBefore n + 7 := by
  unfold WeekDay Day sundayOnOrBefore msPerDay
  omega

/-- Day numbers of the dates that the heatmap range is built from stay far
from the limits of time values. -/
theorem MakeDay_bounds_wide (y m d : Int) (hy1 : -200000 ≤ y) (hy2 : y ≤ 200000)
    (hm1 : 0 ≤ m) (hm2 : m ≤ 12) (hd1 : 0 ≤ d) (hd2 : d ≤ 31) :
    -80000000 ≤ MakeDay y m d ∧ MakeDay y m d ≤ 80000000 := by
  unfold MakeDay
  simp only []
  have hq : 0 ≤ m / 12 ∧ m / 12 ≤ 1 := by omega
  have hb := daysBeforeMonth_range (m % 12)
    (if DaysInYear (y + m / 12) = 366 then 1 else 0) (by split_ifs <;> omega)
  generalize m / 12 = q at *
  unfold DayFromYear
  omega

theorem newDateLocal_eq (tz year month date : Int) (htz : -1440 ≤ tz ∧ tz ≤ 1440)
    (hy1 : -200000 ≤ year) (hy2 : year ≤ 200000) (hm1 : 0 ≤ month) (hm2 : month ≤ 12)
    (hd1 : 0 ≤ date) (hd2 : date ≤ 31) :
    newDateLocal tz year month date = some (localMidnight tz (MakeDay (fullYear year) month date)) ∧
    -80000000 ≤ MakeDay (fullYear year) month date ∧
    MakeDay (fullYear year) month date ≤ 80000000 := by
  have hf : -200000 ≤ fullYear year ∧ fullYear year ≤ 200000 := by
    unfold fullYear
    split_ifs <;> omega
  obtain ⟨b1, b2⟩ := MakeDay_bounds_wide (fullYear year) month date hf.1 hf.2 hm1 hm2 hd1 hd2
  refine ⟨?_, b1, b2⟩
  unfold newDateLocal UTC MakeDate localMidnight
  rw [add_zero, TimeClip_of_bounds]
  · unfold msPerDay msPerMinute; omega
  · unfold msPerDay msPerMinute; omega

theorem LocalTime_localMidnight (tz day : Int) :
    LocalTime tz (localMidnight tz day) = day * msPerDay := by
  unfold LocalTime localMidnight
  omega

theorem Day_mul_msPerDay (day : Int) : Day (day * msPerDay) = day := by
  unfold Day msPerDay
  omega

/-- Moving the date of a local midnight one day on gives the next local
midnight. -/
theorem setDate_next_day (tz day : Int) (htz : -1440 ≤ tz ∧ tz ≤ 1440)
    (h1 : -90000000 ≤ day) (h2 : day ≤ 90000000) :
    setDate tz (some (localMidnight tz day))
        (add (getDate tz (some (localMidnight tz day))) (some 1))
      = some (localMidnight tz (day + 1)) := by
  rw [setDate_getDate_add, TimeClip_of_bounds]
  · congr 1
    unfold localMidnight
    ring
  · unfold localMidnight msPerDay msPerMinute
    omega
  · unfold localMidnight msPerDay msPerMinute
    omega

/-- Moving a local midnight back to the Sunday of its week. -/
theorem setDate_sunday (tz day : Int) (htz : -1440 ≤ tz ∧ tz ≤ 1440)
    (h1 : -90000000 ≤ day) (h2 : day ≤ 90000000) :
    setDate tz (some (localMidnight tz day))
        (sub (getDate tz (some (localMidnight tz day))) (getDay tz (some (localMidnight tz day))))
      = some (localMidnight tz (sundayOnOrBefore day)) := by
  have hw : getDay tz (some (localMidnight tz day)) = some ((day + 4) % 7) := by
    simp only [getDay, Option.map_some', LocalTime_localMidnight, WeekDay, Day_mul_msPerDay]
  rw [hw, setDate_getDate_sub, TimeClip_of_bounds]
  · congr 1
    unfold localMidnight sundayOnOrBefore
    ring
  · unfold localMidnight msPerDay msPerMinute
    omega
  · unfold localMidnight msPerDay msPerMinute
    omega

/-- A local midnight is at or before an instant exactly when its day is at or
before the local day of the instant. -/
theorem localMidnight_le (tz day t : Int) :
    localMidnight tz day ≤ t ↔ day ≤ Day (LocalTime tz t) := by
  unfold localMidnight LocalTime Day msPerDay msPerMinute
  omega

theorem lt_localMidnight (tz day t : Int) :
    t < localMidnight tz day ↔ Day (LocalTime tz t) < day := by
  unfold localMidnight LocalTime Day msPerDay msPerMinute
  omega

theorem localMidnight_lt (tz a b : Int) : localMidnight tz a < localMidnight tz b ↔ a < b := by
  unfold localMidnight msPerDay
  omega

end JSDate

namespace TaskTracker

open JSDate

/-! ## Lemmas on the map of counts -/

theorem mapGet_eq_none_iff (m : List (String × Nat)) (k : String) :
    mapGet m k = none ↔ k ∉ m.map Prod.fst := by
  induction m with
  | nil => simp [mapGet]
  | cons e m ih =>
    obtain ⟨k0, v0⟩ := e
    by_cases h : k0 = k
    · simp [mapGet, h]
    · have h2 : ¬ k = k0 := fun h3 => h h3.symm
      simp [mapGet, h, h2, ih]

theorem mem_of_mapGet (m : List (String × Nat)) (k : String) (v : Nat)
    (h : mapGet m k = some v) : (k, v) ∈ m := by
  induction m with
  | nil => simp [mapGet] at h
  | cons e m ih =>
    obtain ⟨k0, v0⟩ := e
    by_cases hk : k0 = k
    · simp [mapGet, hk] at h
      simp [hk, h]
    · simp [mapGet, hk] at h
      exact List.mem_cons_of_mem _ (ih h)

theorem mapGet_of_mem (m : List (String × Nat)) (k : String) (v : Nat)
    (hn : (m.map Prod.fst).Nodup) (h : (k, v) ∈ m) : mapGet m k = some v := by
  induction m with
  | nil => simp at h
  | cons e m ih =>
    obtain ⟨k0, v0⟩ := e
    simp only [List.map_cons, List.nodup_cons] at hn
    rcases List.mem_cons.1 h with h1 | h1
    · simp only [Prod.mk.injEq] at h1
      simp [mapGet, h1.1, h1.2]
    · have hk : k0 ≠ k := by
        rintro rfl
        exact hn.1 (List.mem_map_of_mem Prod.fst h1)
      simp [mapGet, hk, ih hn.2 h1]

theorem mapSet_fresh (m : List (String × Nat)) (k : String) (n : Nat)
    (h : mapGet m k = none) : mapSet m k n = m ++ [(k, n)] := by
  induction m with
  | nil => simp [mapSet]
  | cons e m ih =>
    obtain ⟨k0, v0⟩ := e
    by_cases hk : k0 = k
    · simp [mapGet, hk] at h
    · simp [mapGet, hk] at h
      simp [mapSet, hk, ih h]

theorem mapSet_known (m : List (String × Nat)) (k : String) (v n : Nat)
    (h : mapGet m k = some v) :
    (mapSet m k n).map Prod.fst = m.map Prod.fst ∧
    (mapSet m k n).length = m.length ∧
    ((mapSet m k n).map Prod.snd).sum + v = (m.map Prod.snd).sum + n ∧
    (∀ e ∈ mapSet m k n, e = (k, n) ∨ e ∈ m) := by
  induction m with
  | nil => simp [mapGet] at h
  | cons e m ih =>
    obtain ⟨k0, v0⟩ := e
    by_cases hk : k0 = k
    · simp only [mapGet, hk, if_true, Option.some.injEq] at h
      subst h
      refine ⟨by simp [mapSet, hk], by simp [mapSet, hk], ?_, ?_⟩
      · simp only [mapSet, hk, if_true, List.map_cons, List.sum_cons]
        omega
      · intro e he
        simp only [mapSet, hk, if_true, List.mem_cons] at he
        rcases he with he | he
        · left; exact he
        · right; exact List.mem_cons_of_mem _ he
    · simp only [mapGet, hk, if_false] at h
      obtain ⟨h1, h2, h3, h4⟩ := ih h
      refine ⟨by simp [mapSet, hk, h1], by simp [mapSet, hk, h2], ?_, ?_⟩
      · simp only [mapSet, hk, if_false, List.map_cons, List.sum_cons]
        omega
      · intro e he
        simp only [mapSet, hk, if_false, List.mem_cons] at he
        rcases he with he | he
        · right; simp [he]
        · rcases h4 e he with h5 | h5
          · left; exact h5
          · right; exact List.mem_cons_of_mem _ h5

theorem mapGet_mapSet_self (m : List (String × Nat)) (k : String) (n : Nat) :
    mapGet (mapSet m k n) k = some n := by
  induction m with
  | nil => simp [mapSet, mapGet]
  | cons e m ih =>
    obtain ⟨k0, v0⟩ := e
    by_cases hk : k0 = k
    · simp [mapSet, mapGet, hk]
    · simp [mapSet, mapGet, hk, ih]

theorem mapGet_mapSet_other (m : List (String × Nat)) (k key : String) (n : Nat)
    (h : key ≠ k) : mapGet (mapSet m k n) key = mapGet m key := by
  induction m with
  | nil =>
    have h2 : ¬ k = key := fun h3 => h h3.symm
    simp [mapSet, mapGet, h2]
  | cons e m ih =>
    obtain ⟨k0, v0⟩ := e
    by_cases hk : k0 = k
    · have h2 : ¬ k = key := fun h3 => h h3.symm
      simp [mapSet, mapGet, hk, h2]
    · by_cases hk2 : k0 = key
      · subst hk2
        simp [mapSet, mapGet, hk]
      · simp [mapSet, mapGet, hk, hk2, ih]

theorem mapSet_mapSet (m : List (String × Nat)) (k : String) (a b : Nat) :
    mapSet (mapSet m k a) k b = mapSet m k b := by
  induction m with
  | nil => simp [mapSet]
  | cons e m ih =>
    obtain ⟨k0, v0⟩ := e
    by_cases hk : k0 = k
    · simp [mapSet, hk]
    · simp [mapSet, hk, ih]

theorem length_le_sum_counts (m : List (String × Nat)) (h : ∀ e ∈ m, 1 ≤ e.2) :
    m.length ≤ (m.map Prod.snd).sum := by
  induction m with
  | nil => simp
  | cons e m ih =>
    have h1 := h e (List.mem_cons_self _ _)
    have h2 := ih (fun e he => h e (List.mem_cons_of_mem _ he))
    simp only [List.length_cons, List.map_cons, List.sum_cons]
    omega

/-- The map after one counted task: the count of its date goes up by one. -/
theorem activityStep_map (tz selectedYear : Int) (selectedMonth : MonthSelection)
    (acc : Activity) (task : Task) (hc : counted tz selectedYear selectedMonth task = true) :
    (activityStep tz selectedYear selectedMonth acc task).activityMap
      = mapSet acc.activityMap task.date ((mapGet acc.activityMap task.date).getD 0 + 1) ∧
    (activityStep tz selectedYear selectedMonth acc task).totalTasks = acc.totalTasks + 1 ∧
    (activityStep tz selectedYear selectedMonth acc task).totalHours
      = acc.totalHours + task.hours ∧
    (activityStep tz selectedYear selectedMonth acc task).activeDays
      = if (mapGet acc.activityMap task.date).getD 0 = 0 then acc.activeDays + 1
        else acc.activeDays := by
  unfold activityStep
  rw [if_pos hc]
  by_cases hf : (mapGet acc.activityMap task.date).getD 0 = 0
  · simp [hf, mapGet_mapSet_self, mapSet_mapSet]
  · simp [hf]

theorem activityStep_inv (tz selectedYear : Int) (selectedMonth : MonthSelection)
    (acc : Activity) (task : Task) (h : ActivityInv acc) :
    ActivityInv (activityStep tz selectedYear selectedMonth acc task) := by
  by_cases hc : counted tz selectedYear selectedMonth task = true
  swap
  · unfold activityStep
    rw [if_neg hc]
    exact h
  obtain ⟨e1, e2, e3, e4⟩ := activityStep_map tz selectedYear selectedMonth acc task hc
  obtain ⟨h1, h2, h3, h4⟩ := h
  unfold ActivityInv
  rw [e1, e2, e4]
  cases hg : mapGet acc.activityMap task.date with
  | none =>
    have hnot := (mapGet_eq_none_iff _ _).1 hg
    rw [mapSet_fresh _ _ _ hg]
    refine ⟨?_, ?_, ?_, ?_⟩
    · rw [List.map_append, List.nodup_append]
      refine ⟨h1, by simp, ?_⟩
      intro a ha hb
      simp only [List.map_cons, List.map_nil, List.mem_singleton] at hb
      exact hnot (hb ▸ ha)
    · intro e he
      rcases List.mem_append.1 he with he | he
      · exact h2 e he
      · simp only [List.mem_singleton] at he
        simp [he]
    · simp [h3]
    · simp [h4]
  | some v =>
    have hv : 1 ≤ v := h2 _ (mem_of_mapGet _ _ _ hg)
    obtain ⟨k1, k2, k3, k4⟩ := mapSet_known acc.activityMap task.date v (v + 1) hg
    have hne : ¬ v = 0 := by omega
    refine ⟨?_, ?_, ?_, ?_⟩
    · simp only [Option.getD_some]
      rw [k1]; exact h1
    · intro e he
      simp only [Option.getD_some] at he
      rcases k4 e he with h5 | h5
      · simp [h5]
      · exact h2 e h5
    · simp only [Option.getD_some, if_neg hne]
      rw [k2]; exact h3
    · simp only [Option.getD_some]
      omega

theorem foldl_activityStep_inv (tz selectedYear : Int) (selectedMonth : MonthSelection)
    (tasks : List Task) (acc : Activity) (h : ActivityInv acc) :
    ActivityInv (tasks.foldl (activityStep tz selectedYear selectedMonth) acc) := by
  induction tasks generalizing acc with
  | nil => exact h
  | cons t ts ih => exact ih _ (activityStep_inv tz selectedYear selectedMonth acc t h)

theorem renderHeatmapActivity_inv (tz : Int) (tasks : List Task) (selectedYear : Int)
    (selectedMonth : MonthSelection) :
    ActivityInv (renderHeatmapActivity tz tasks selectedYear selectedMonth) := by
  apply foldl_activityStep_inv
  simp [ActivityInv]

theorem dayCount_activityStep (tz selectedYear : Int) (selectedMonth : MonthSelection)
    (acc : Activity) (task : Task) (d : String) :
    dayCount (activityStep tz selectedYear selectedMonth acc task) d
      = dayCount acc d +
        (if counted tz selectedYear selectedMonth task && decide (task.date = d) then 1 else 0) := by
  by_cases hc : counted tz selectedYear selectedMonth task = true
  · obtain ⟨e1, -, -, -⟩ := activityStep_map tz selectedYear selectedMonth acc task hc
    unfold dayCount
    rw [e1]
    by_cases hd : task.date = d
    · subst hd
      simp [mapGet_mapSet_self, hc]
    · have hd2 : d ≠ task.date := fun h => hd h.symm
      simp [mapGet_mapSet_other _ _ _ _ hd2, hd]
  · unfold activityStep
    rw [if_neg hc]
    simp [hc]

theorem dayCount_foldl (tz selectedYear : Int) (selectedMonth : MonthSelection)
    (tasks : List Task) (acc : Activity) (d : String) :
    dayCount (tasks.foldl (activityStep tz selectedYear selectedMonth) acc) d
      = dayCount acc d +
        (tasks.filter fun t =>
          counted tz selectedYear selectedMonth t && decide (t.date = d)).length := by
  induction tasks generalizing acc with
  | nil => simp
  | cons t ts ih =>
    rw [List.foldl_cons, ih, dayCount_activityStep, List.filter_cons]
    split_ifs
    · simp only [List.length_cons]; omega
    · omega

/-- The per-day count of the heatmap is the number of tasks with that date
string that pass the year and month guards, which read the year and month of
the task in local time. -/
theorem dayCount_renderHeatmapActivity (tz : Int) (tasks : List Task) (selectedYear : Int)
    (selectedMonth : MonthSelection) (d : String) :
    dayCount (renderHeatmapActivity tz tasks selectedYear selectedMonth) d
      = (tasks.filter fun t =>
          counted tz selectedYear selectedMonth t && decide (t.date = d)).length := by
  unfold renderHeatmapActivity
  rw [dayCount_foldl]
  simp [dayCount, mapGet]

/-! ## Lemmas on `findIndex` -/

theorem findIndex_eq_none (p : Task → Bool) (l : List Task) :
    findIndex p l = none ↔ ∀ t ∈ l, p t = false := by
  induction l with
  | nil => simp [findIndex]
  | cons a l ih =>
    by_cases h : p a = true
    · simp [findIndex, h]
    · simp only [Bool.not_eq_true] at h
      simp [findIndex, h, ih]

theorem findIndex_eq_some (p : Task → Bool) (l : List Task) (i : Nat)
    (h : findIndex p l = some i) :
    (∃ t, l[i]? = some t ∧ p t = true) ∧ ∀ j u, j < i → l[j]? = some u → p u = false := by
  induction l generalizing i with
  | nil => simp [findIndex] at h
  | cons a l ih =>
    by_cases hp : p a = true
    · simp only [findIndex, hp, if_true, Option.some.injEq] at h
      subst h
      exact ⟨⟨a, by simp, hp⟩, fun j u hj => absurd hj (Nat.not_lt_zero j)⟩
    · simp only [findIndex, hp, Bool.false_eq_true, if_false, Option.map_eq_some'] at h
      obtain ⟨k, hk, rfl⟩ := h
      obtain ⟨⟨t, ht, hpt⟩, hlt⟩ := ih k hk
      refine ⟨⟨t, by simpa using ht, hpt⟩, ?_⟩
      intro j u hj hu
      cases j with
      | zero =>
        simp only [List.getElem?_cons_zero, Option.some.injEq] at hu
        subst hu
        simpa using hp
      | succ j =>
        simp only [List.getElem?_cons_succ] at hu
        exact hlt j u (by omega) hu

/-! ## What the filters and the heatmap compute, by time zone -/

/-- What the week filter computes in a zone with a fixed offset: with `n` the
day number of the anchor and `w` the day of the week of the anchor's midnight
UTC read in local time, the tasks whose day number lies in `n - w .. n - w + 6`. -/
theorem getFilteredTasks_week_window (tz : Int) (tasks : List Task) (D : String) (n : Int)
    (hD : dayNumber D = some n) :
    getFilteredTasks tz tasks "week" D
      = tasks.filter fun t =>
          match dayNumber t.date with
          | some k => decide (n - WeekDay (LocalTime tz (n * msPerDay)) ≤ k ∧
                              k ≤ n - WeekDay (LocalTime tz (n * msPerDay)) + 6)
          | none => false := by
  obtain ⟨hp, b1, b2⟩ := dayNumber_eq_some D n hD
  have hw := WeekDay_range (LocalTime tz (n * msPerDay))
  generalize hwd : WeekDay (LocalTime tz (n * msPerDay)) = w at hw
  have hstart : setDate tz (some (n * msPerDay))
      (sub (getDate tz (some (n * msPerDay))) (getDay tz (some (n * msPerDay))))
      = some ((n - w) * msPerDay) := by
    have : getDay tz (some (n * msPerDay)) = some w := by simp [getDay, hwd]
    rw [this, setDate_getDate_sub, TimeClip_of_bounds]
    · congr 1; unfold msPerDay; omega
    · unfold msPerDay; omega
    · unfold msPerDay; omega
  have hend : setDate tz (some ((n - w) * msPerDay))
      (add (getDate tz (some ((n - w) * msPerDay))) (some 6))
      = some ((n - w + 6) * msPerDay) := by
    rw [setDate_getDate_add, TimeClip_of_bounds]
    · congr 1; unfold msPerDay; omega
    · unfold msPerDay; omega
    · unfold msPerDay; omega
  unfold getFilteredTasks
  rw [if_neg (by decide)]
  simp only [hp]
  apply List.filter_congr
  intro t _
  rw [if_pos trivial, hstart, hend]
  cases hdn : dayNumber t.date with
  | none =>
    have : parse t.date = none := by
      unfold dayNumber at hdn
      cases hq : parse t.date with
      | none => rfl
      | some u => simp [hq] at hdn
    simp [this, le]
  | some k =>
    obtain ⟨hq, -, -⟩ := dayNumber_eq_some _ _ hdn
    simp only [hq, le]
    rw [← Bool.decide_and]
    apply decide_eq_decide.2
    unfold msPerDay
    omega

/-- At or east of UTC the week filter keeps the seven days that start on the
Sunday on or before the anchor. -/
theorem getFilteredTasks_week_east (tz : Int) (tasks : List Task) (D : String) (n : Int)
    (hD : dayNumber D = some n) (h0 : 0 ≤ tz) (h1 : tz < 1440) :
    getFilteredTasks tz tasks "week" D
      = tasks.filter fun t =>
          match dayNumber t.date with
          | some k => decide (sundayOnOrBefore n ≤ k ∧ k ≤ sundayOnOrBefore n + 6)
          | none => false := by
  rw [getFilteredTasks_week_window tz tasks D n hD]
  unfold sundayOnOrBefore
  have : WeekDay (LocalTime tz (n * msPerDay)) = (n + 4) % 7 := by
    unfold WeekDay LocalTime Day msPerDay msPerMinute
    have : (n * 86400000 + tz * 60000) / 86400000 = n := by omega
    rw [this]
  rw [this]

/-- West of UTC the week filter keeps the seven days that start on the Monday
on or before the anchor. -/
theorem getFilteredTasks_week_west (tz : Int) (tasks : List Task) (D : String) (n : Int)
    (hD : dayNumber D = some n) (h0 : -1440 ≤ tz) (h1 : tz < 0) :
    getFilteredTasks tz tasks "week" D
      = tasks.filter fun t =>
          match dayNumber t.date with
          | some k => decide (n - (n + 3) % 7 ≤ k ∧ k ≤ n - (n + 3) % 7 + 6)
          | none => false := by
  rw [getFilteredTasks_week_window tz tasks D n hD]
  have : WeekDay (LocalTime tz (n * msPerDay)) = (n + 3) % 7 := by
    unfold WeekDay LocalTime Day msPerDay msPerMinute
    have : (n * 86400000 + tz * 60000) / 86400000 = n - 1 := by omega
    rw [this]
    omega
  rw [this]

/-- At or east of UTC the month filter keeps the tasks whose date has the year
and month of the anchor. -/
theorem getFilteredTasks_month_east (tz : Int) (tasks : List Task) (D : String) (y m d : Int)
    (hD : calendarDate D = some (y, m, d)) (h0 : 0 ≤ tz) (h1 : tz < 1440) :
    getFilteredTasks tz tasks "month" D
      = tasks.filter fun t =>
          match calendarDate t.date with
          | some (y1, m1, _) => decide (y1 = y ∧ m1 = m)
          | none => false := by
  obtain ⟨ky, km⟩ := local_fields_east tz D y m d h0 h1 hD
  unfold getFilteredTasks
  rw [if_neg (by decide)]
  apply List.filter_congr
  intro t _
  rw [if_neg (by decide), if_neg (by decide), if_pos rfl, ky, km]
  cases hc : calendarDate t.date with
  | none =>
    obtain ⟨e1, e2⟩ := local_fields_none tz t.date hc
    simp [e1, e2, strictEq]
  | some ymd =>
    obtain ⟨y1, m1, d1⟩ := ymd
    obtain ⟨e1, e2⟩ := local_fields_east tz t.date y1 m1 d1 h0 h1 hc
    simp only [e1, e2, strictEq]
    rw [← Bool.decide_and]
    apply decide_eq_decide.2
    omega

/-- With an anchor that is not a calendar date the week and month filters
return nothing. -/
theorem getFilteredTasks_invalid_anchor (tz : Int) (tasks : List Task) (D : String)
    (h : calendarDate D = none) :
    getFilteredTasks tz tasks "week" D = [] ∧ getFilteredTasks tz tasks "month" D = [] := by
  have hp := parse_of_calendarDate_none D h
  constructor
  · unfold getFilteredTasks
    rw [if_neg (by decide), hp]
    apply List.filter_eq_nil_iff.2
    intro t _
    rw [if_neg (by decide), if_pos rfl]
    simp [getDate, getDay, sub, setDate, le]
  · unfold getFilteredTasks
    rw [if_neg (by decide), hp]
    apply List.filter_eq_nil_iff.2
    intro t _
    rw [if_neg (by decide), if_neg (by decide), if_pos rfl]
    simp [getMonth, strictEq]

/-- Any two zones at or east of UTC give the same subset, for every filter
type and anchor. -/
theorem getFilteredTasks_east_agree (tz1 tz2 : Int) (tasks : List Task)
    (filterType D : String) (h1 : 0 ≤ tz1 ∧ tz1 < 1440) (h2 : 0 ≤ tz2 ∧ tz2 < 1440) :
    getFilteredTasks tz1 tasks filterType D = getFilteredTasks tz2 tasks filterType D := by
  by_cases hw : filterType = "week"
  · subst hw
    cases hc : calendarDate D with
    | none =>
      rw [(getFilteredTasks_invalid_anchor tz1 tasks D hc).1,
        (getFilteredTasks_invalid_anchor tz2 tasks D hc).1]
    | some ymd =>
      obtain ⟨y, m, d⟩ := ymd
      have hn := dayNumber_of_calendarDate D y m d hc
      rw [getFilteredTasks_week_east tz1 tasks D _ hn h1.1 h1.2,
        getFilteredTasks_week_east tz2 tasks D _ hn h2.1 h2.2]
  by_cases hm : filterType = "month"
  · subst hm
    cases hc : calendarDate D with
    | none =>
      rw [(getFilteredTasks_invalid_anchor tz1 tasks D hc).2,
        (getFilteredTasks_invalid_anchor tz2 tasks D hc).2]
    | some ymd =>
      obtain ⟨y, m, d⟩ := ymd
      rw [getFilteredTasks_month_east tz1 tasks D y m d hc h1.1 h1.2,
        getFilteredTasks_month_east tz2 tasks D y m d hc h2.1 h2.2]
  unfold getFilteredTasks
  simp only [hw, hm, if_false]

/-- At or east of UTC a task is counted by the heatmap when the year of its
date is the selected year and, unless all months are selected, its month
(0 = January) is the selected index. -/
theorem counted_east (tz selectedYear : Int) (selectedMonth : MonthSelection) (task : Task)
    (h0 : 0 ≤ tz) (h1 : tz < 1440) :
    counted tz selectedYear selectedMonth task
      = match calendarDate task.date with
        | some (y, m, _) =>
          decide (y = selectedYear) &&
            (match selectedMonth with
             | MonthSelection.all => true
             | MonthSelection.index i => decide (m - 1 = i))
        | none => false := by
  unfold counted
  cases hc : calendarDate task.date with
  | none =>
    obtain ⟨e1, e2⟩ := local_fields_none tz task.date hc
    simp [e1, e2, strictEq]
  | some ymd =>
    obtain ⟨y, m, d⟩ := ymd
    obtain ⟨e1, e2⟩ := local_fields_east tz task.date y m d h0 h1 hc
    simp only [e1, e2, strictEq]
    by_cases hy : y = selectedYear
    · cases selectedMonth <;> simp [hy]
    · simp [hy]

/-- At or east of UTC the per-day count of the heatmap is the number of tasks
with that date string whose date lies in the selected year and month. -/
theorem dayCount_east (tz : Int) (tasks : List Task) (selectedYear : Int)
    (selectedMonth : MonthSelection) (d : String) (h0 : 0 ≤ tz) (h1 : tz < 1440) :
    dayCount (renderHeatmapActivity tz tasks selectedYear selectedMonth) d
      = (tasks.filter fun t =>
          decide (t.date = d) && inSelectedPeriod selectedYear selectedMonth t.date).length := by
  rw [dayCount_renderHeatmapActivity]
  congr 1
  apply List.filter_congr
  intro t _
  rw [counted_east tz selectedYear selectedMonth t h0 h1, Bool.and_comm]
  rfl

/-- The local branch of `updateTaskStatus` writes the status only: the
`updatedAt` stamps of the collection stay as they were. -/
theorem updateTaskStatus_local_updatedAt (rt : Runtime) (now : String) (s : State)
    (id newStatus : String) (h : remoteMode s = false) :
    (updateTaskStatus rt now s id newStatus).tasks.map (fun t => t.updatedAt)
      = s.tasks.map (fun t => t.updatedAt) := by
  unfold updateTaskStatus
  rw [h]
  simp only [Bool.false_eq_true, if_false]
  cases findIndex (fun t => decide (t.id = id)) s.tasks with
  | none => rfl
  | some index =>
    simp only []
    cases hold : s.tasks[index]? with
    | none => rfl
    | some old =>
      simp only [saveToLocalStorage]
      apply List.ext_getElem?
      intro j
      by_cases hj : index = j
      · subst hj
        simp [List.getElem?_map, List.getElem?_set_self', hold]
      · simp [List.getElem?_map, List.getElem?_set_ne hj]

/-! ## C1: the day filter -/

/-- C1: with filter type `day` and anchor `D`, `getFilteredTasks` returns the
tasks whose date string equals `D` and no others, in their original order, in
every time zone. -/
theorem getFilteredTasks_day (tz : Int) (tasks : List Task) (D : String) :
    getFilteredTasks tz tasks "day" D = tasks.filter (fun t => decide (t.date = D)) ∧
    (∀ t, t ∈ getFilteredTasks tz tasks "day" D ↔ t ∈ tasks ∧ t.date = D) ∧
    (getFilteredTasks tz tasks "day" D).Sublist tasks := by
  have h : getFilteredTasks tz tasks "day" D = tasks.filter (fun t => decide (t.date = D)) := by
    unfold getFilteredTasks
    rw [if_neg (by decide)]
    simp
  refine ⟨h, ?_, ?_⟩
  · intro t
    rw [h]
    simp
  · rw [h]
    exact List.filter_sublist tasks

/-! ## C2, C3, C4: the week and month filters depend on the time zone -/

/-- C2: five hours west of UTC, the week filter anchored at Sunday 2024-03-17
keeps the task of Monday 2024-03-11 and drops those of 2024-03-18 and
2024-03-23: the window is 11..17 March, not 17..23 March.  At UTC the same call
returns the tasks of the week 17..23 March.  (In general the window starts on
the Sunday on or before the anchor at or east of UTC, and on the Monday on or
before it west of UTC.) -/
theorem getFilteredTasks_week_west_of_utc :
    getFilteredTasks (-300)
        [sampleTask "a" "2024-03-11", sampleTask "b" "2024-03-17",
         sampleTask "c" "2024-03-18", sampleTask "d" "2024-03-23"] "week" "2024-03-17"
      = [sampleTask "a" "2024-03-11", sampleTask "b" "2024-03-17"] ∧
    getFilteredTasks 0
        [sampleTask "a" "2024-03-11", sampleTask "b" "2024-03-17",
         sampleTask "c" "2024-03-18", sampleTask "d" "2024-03-23"] "week" "2024-03-17"
      = [sampleTask "b" "2024-03-17", sampleTask "c" "2024-03-18",
         sampleTask "d" "2024-03-23"] := by
  decide

/-- C3: five hours west of UTC, the month filter anchored at 2024-03-20 drops
the task of 2024-03-01 and keeps the task of 2024-04-01.  At UTC the same call
returns the two March tasks.  (In general the filter compares the year and month
of the texts at or east of UTC, and those of the day before west of UTC.) -/
theorem getFilteredTasks_month_west_of_utc :
    getFilteredTasks (-300)
        [sampleTask "a" "2024-03-01", sampleTask "b" "2024-03-15",
         sampleTask "c" "2024-04-01"] "month" "2024-03-20"
      = [sampleTask "b" "2024-03-15", sampleTask "c" "2024-04-01"] ∧
    getFilteredTasks 0
        [sampleTask "a" "2024-03-01", sampleTask "b" "2024-03-15",
         sampleTask "c" "2024-04-01"] "month" "2024-03-20"
      = [sampleTask "a" "2024-03-01", sampleTask "b" "2024-03-15"] := by
  decide

/-- C4: the same collection, filter type and anchor give different subsets in
two time zones: for the week of 2024-03-17 the task of 2024-03-18 is returned
at UTC+05:30 and not at UTC-05:00, and for the month of 2024-03-20 the task of
2024-03-01 likewise. -/
theorem getFilteredTasks_depends_on_time_zone :
    getFilteredTasks 330 [sampleTask "c" "2024-03-18"] "week" "2024-03-17"
      = [sampleTask "c" "2024-03-18"] ∧
    getFilteredTasks (-300) [sampleTask "c" "2024-03-18"] "week" "2024-03-17" = [] ∧
    getFilteredTasks 330 [sampleTask "a" "2024-03-01"] "month" "2024-03-20"
      = [sampleTask "a" "2024-03-01"] ∧
    getFilteredTasks (-300) [sampleTask "a" "2024-03-01"] "month" "2024-03-20" = [] := by
  decide

/-! ## C5: activity levels -/

/-- C5: `getActivityLevel` is 0 at 0, 1 at 1, 2 at 2 and 3, 3 at 4 and 5, and 4
from 6 on; the counts 0,1,2,3,4,5,6,100 map to 0,1,2,2,3,3,4,4; the level is at
most 4 and is monotone in the count. -/
theorem getActivityLevel_buckets :
    getActivityLevel 0 = 0 ∧ getActivityLevel 1 = 1 ∧
    getActivityLevel 2 = 2 ∧ getActivityLevel 3 = 2 ∧
    getActivityLevel 4 = 3 ∧ getActivityLevel 5 = 3 ∧
    (∀ count, 6 ≤ count → getActivityLevel count = 4) ∧
    [0, 1, 2, 3, 4, 5, 6, 100].map getActivityLevel = [0, 1, 2, 2, 3, 3, 4, 4] ∧
    (∀ count, getActivityLevel count ≤ 4) ∧
    (∀ a b, a ≤ b → getActivityLevel a ≤ getActivityLevel b) := by
  refine ⟨by decide, by decide, by decide, by decide, by decide, by decide, ?_, by decide,
    ?_, ?_⟩
  · intro count h
    unfold getActivityLevel
    split_ifs <;> omega
  · intro count
    unfold getActivityLevel
    split_ifs <;> omega
  · intro a b h
    unfold getActivityLevel
    split_ifs <;> omega

/-! ## C6, C7: heatmap counts -/

/-- C6: five hours west of UTC, the task dated 2024-01-01 gets count 0 in the
heatmap of 2024 and count 1 in the heatmap of 2023, and the task dated
2024-03-01 gets count 0 in the heatmap of March 2024; at UTC the task dated
2024-01-01 gets count 1 in the heatmap of 2024.  The year and month guards read
the task date in local time, so the count is not the number of tasks of that
date string in the selected calendar year and month. -/
theorem renderHeatmap_counts_west_of_utc :
    dayCount (renderHeatmapActivity (-300) [sampleTask "a" "2024-01-01"] 2024
      MonthSelection.all) "2024-01-01" = 0 ∧
    dayCount (renderHeatmapActivity (-300) [sampleTask "a" "2024-01-01"] 2023
      MonthSelection.all) "2024-01-01" = 1 ∧
    dayCount (renderHeatmapActivity 0 [sampleTask "a" "2024-01-01"] 2024
      MonthSelection.all) "2024-01-01" = 1 ∧
    dayCount (renderHeatmapActivity (-300) [sampleTask "a" "2024-03-01"] 2024
      (MonthSelection.index 2)) "2024-03-01" = 0 := by
  decide

/-- The task of the scenario passes the guards for 2024 and month index 2 in
every zone less than a day from UTC: its local day is 14 or 15 March 2024. -/
theorem counted_scenario (tz : Int) (h0 : -1440 < tz) (h1 : tz < 1440) :
    counted tz 2024 (MonthSelection.index 2) (sampleTask "a" "2024-03-15") = true := by
  have hp : parse (sampleTask "a" "2024-03-15").date = some (19797 * msPerDay) := by decide
  have hday : Day (LocalTime tz (19797 * msPerDay)) = MakeDay 2024 2 15 ∨
      Day (LocalTime tz (19797 * msPerDay)) = MakeDay 2024 2 14 := by
    have e1 : MakeDay 2024 2 15 = 19797 := by decide
    have e2 : MakeDay 2024 2 14 = 19796 := by decide
    rw [e1, e2]
    unfold Day LocalTime msPerDay msPerMinute
    omega
  have hf : YearFromTime (LocalTime tz (19797 * msPerDay)) = 2024 ∧
      MonthFromTime (LocalTime tz (19797 * msPerDay)) = 2 := by
    rcases hday with h | h
    · obtain ⟨k1, k2, -⟩ := fields_of_MakeDay 2024 2 15 _ (by decide) (by decide) (by decide)
        (by decide) h
      exact ⟨k1, k2⟩
    · obtain ⟨k1, k2, -⟩ := fields_of_MakeDay 2024 2 14 _ (by decide) (by decide) (by decide)
        (by decide) h
      exact ⟨k1, k2⟩
  unfold counted
  simp only [hp, getFullYear, getMonth, Option.map_some', hf.1, hf.2, strictEq]
  decide

/-- The scenario of C6 holds in every zone less than a day from UTC: for the
single two-hour task dated 2024-03-15, year 2024 and month index 2, the count of
2024-03-15 is 1, its level is 1, `totalTasks` is 1, `activeDays` is 1 and
`totalHours` is 2. -/
theorem renderHeatmap_scenario (tz : Int) (h0 : -1440 < tz) (h1 : tz < 1440) :
    dayCount (renderHeatmapActivity tz [sampleTask "a" "2024-03-15"] 2024
      (MonthSelection.index 2)) "2024-03-15" = 1 ∧
    getActivityLevel (dayCount (renderHeatmapActivity tz [sampleTask "a" "2024-03-15"] 2024
      (MonthSelection.index 2)) "2024-03-15") = 1 ∧
    (renderHeatmapActivity tz [sampleTask "a" "2024-03-15"] 2024
      (MonthSelection.index 2)).totalTasks = 1 ∧
    (renderHeatmapActivity tz [sampleTask "a" "2024-03-15"] 2024
      (MonthSelection.index 2)).activeDays = 1 ∧
    (renderHeatmapActivity tz [sampleTask "a" "2024-03-15"] 2024
      (MonthSelection.index 2)).totalHours = 2 := by
  have hc := counted_scenario tz h0 h1
  have hcount : dayCount (renderHeatmapActivity tz [sampleTask "a" "2024-03-15"] 2024
      (MonthSelection.index 2)) "2024-03-15" = 1 := by
    rw [dayCount_renderHeatmapActivity, List.filter_cons, hc]
    rfl
  obtain ⟨-, e2, e3, e4⟩ := activityStep_map tz 2024 (MonthSelection.index 2)
    { activityMap := [], totalTasks := 0, totalHours := 0, activeDays := 0 }
    (sampleTask "a" "2024-03-15") hc
  refine ⟨hcount, by rw [hcount]; rfl, ?_, ?_, ?_⟩
  · simp only [renderHeatmapActivity, List.foldl]
    rw [e2]
  · simp only [renderHeatmapActivity, List.foldl]
    rw [e4]
    rfl
  · simp only [renderHeatmapActivity, List.foldl]
    rw [e3]
    simp [sampleTask]

/-- C7: after the aggregation loop of `renderHeatmap`, `activeDays` is the
number of distinct date strings whose count is at least 1, `totalTasks` is the
sum of the counts over these date strings, and `activeDays` is at most
`totalTasks`; for every collection, selection and time zone. -/
theorem renderHeatmap_activeDays_totalTasks (tz : Int) (tasks : List Task) (selectedYear : Int)
    (selectedMonth : MonthSelection) :
    ∃ days : Finset String,
      (∀ d, d ∈ days ↔ 1 ≤ dayCount (renderHeatmapActivity tz tasks selectedYear selectedMonth) d) ∧
      (renderHeatmapActivity tz tasks selectedYear selectedMonth).activeDays = days.card ∧
      (renderHeatmapActivity tz tasks selectedYear selectedMonth).totalTasks
        = Finset.sum days
            (fun d => dayCount (renderHeatmapActivity tz tasks selectedYear selectedMonth) d) ∧
      (renderHeatmapActivity tz tasks selectedYear selectedMonth).activeDays
        ≤ (renderHeatmapActivity tz tasks selectedYear selectedMonth).totalTasks := by
  obtain ⟨h1, h2, h3, h4⟩ := renderHeatmapActivity_inv tz tasks selectedYear selectedMonth
  generalize renderHeatmapActivity tz tasks selectedYear selectedMonth = a at *
  have hmem : ∀ d, d ∈ (a.activityMap.map Prod.fst).toFinset ↔ 1 ≤ dayCount a d := by
    intro d
    unfold dayCount
    rw [List.mem_toFinset]
    cases hg : mapGet a.activityMap d with
    | none =>
      have := (mapGet_eq_none_iff _ _).1 hg
      simp [this]
    | some v =>
      have hm := mem_of_mapGet _ _ _ hg
      have hv := h2 _ hm
      simp only [Option.getD_some]
      constructor
      · intro _; exact hv
      · intro _; exact List.mem_map_of_mem Prod.fst hm
  have hsum : Finset.sum (a.activityMap.map Prod.fst).toFinset (fun d => dayCount a d)
      = (a.activityMap.map Prod.snd).sum := by
    rw [List.sum_toFinset _ h1, List.map_map]
    congr 1
    apply List.map_congr_left
    intro e he
    obtain ⟨k, v⟩ := e
    simp [dayCount, mapGet_of_mem _ _ _ h1 he]
  refine ⟨(a.activityMap.map Prod.fst).toFinset, hmem, ?_, ?_, ?_⟩
  · rw [List.toFinset_card_of_nodup h1, List.length_map, h3]
  · rw [hsum, h4]
  · rw [h3, h4]
    exact length_le_sum_counts _ h2


/-! ## C8, C9, C10: store operations -/

/-- C8: in local mode `addTask` leaves the previous collection in place and in
order and appends one record: title, date and status are the input's, hours is
the number `parseFloat` reads from the input (0 for `NaN`), notes is the input's
text (empty when absent), id and `createdAt` are the generated id and the clock
reading.  The value saved to local storage is the serialization of the new
collection, and nothing is sent to the document store. -/
theorem addTask_local (rt : Runtime) (newId now : String) (remoteOk : Bool) (s : State)
    (taskData : TaskInput) (h : remoteMode s = false) :
    (addTask rt newId now remoteOk s taskData).tasks
      = s.tasks ++ [{ id := newId, title := taskData.title, date := taskData.date,
                      status := taskData.status,
                      hours := (rt.parseFloat taskData.hours).getD 0,
                      notes := taskData.notes.getD "", createdAt := now,
                      updatedAt := none }] ∧
    (addTask rt newId now remoteOk s taskData).localStorage
      = some (rt.stringify (addTask rt newId now remoteOk s taskData).tasks) ∧
    (addTask rt newId now remoteOk s taskData).remoteCalls = s.remoteCalls ∧
    (addTask rt newId now remoteOk s taskData).currentUser = s.currentUser := by
  simp [addTask, h, saveToLocalStorage]

/-- A guest store with one task is in local mode; adding the scenario task
to it gives the old task followed by the new record. -/
theorem addTask_local_witness :
    remoteMode (guestStore [sampleTask "a" "2024-03-10"]) = false ∧
    (addTask sampleRuntime "b" "2024-03-15T10:00:00.000Z" true
        (guestStore [sampleTask "a" "2024-03-10"])
        { title := "Write spec", date := "2024-03-15", status := "todo", hours := "2",
          notes := none }).tasks
      = [sampleTask "a" "2024-03-10",
         { id := "b", title := "Write spec", date := "2024-03-15", status := "todo",
           hours := 2, notes := "", createdAt := "2024-03-15T10:00:00.000Z",
           updatedAt := none }] :=
  ⟨by decide,
   (addTask_local sampleRuntime "b" "2024-03-15T10:00:00.000Z" true
      (guestStore [sampleTask "a" "2024-03-10"])
      { title := "Write spec", date := "2024-03-15", status := "todo", hours := "2",
        notes := none } (by decide)).1.trans (by simp [sampleRuntime, guestStore])⟩


/-- C9: in local mode, when no task has the id, `updateTask` leaves the
collection and the saved local-storage value as they are.  When some task has
the id, the first such task (at `index`) gets the title, date and status of the
patch, the hours `parseFloat` reads (0 for `NaN`), the notes of the patch (empty
when absent) and `updatedAt` set to the clock reading, and keeps its id and
`createdAt`; the length and every other position are unchanged, and the saved
value is the serialization of the new collection. -/
theorem updateTask_local (rt : Runtime) (now : String) (remoteOk : Bool) (s : State)
    (id : String) (taskData : TaskInput) (h : remoteMode s = false) :
    ((∀ t ∈ s.tasks, t.id ≠ id) →
      (updateTask rt now remoteOk s id taskData).tasks = s.tasks ∧
      (updateTask rt now remoteOk s id taskData).localStorage = s.localStorage) ∧
    ((∃ t ∈ s.tasks, t.id = id) →
      ∃ (index : Nat) (old : Task),
        s.tasks[index]? = some old ∧ old.id = id ∧
        (∀ j u, j < index → s.tasks[j]? = some u → u.id ≠ id) ∧
        (updateTask rt now remoteOk s id taskData).tasks
          = s.tasks.set index
              { id := old.id, title := taskData.title, date := taskData.date,
                status := taskData.status,
                hours := (rt.parseFloat taskData.hours).getD 0,
                notes := taskData.notes.getD "", createdAt := old.createdAt,
                updatedAt := some now } ∧
        (updateTask rt now remoteOk s id taskData).tasks.length = s.tasks.length ∧
        (∀ j, j ≠ index →
          (updateTask rt now remoteOk s id taskData).tasks[j]? = s.tasks[j]?) ∧
        (updateTask rt now remoteOk s id taskData).localStorage
          = some (rt.stringify (updateTask rt now remoteOk s id taskData).tasks)) := by
  constructor
  · intro hno
    have hf : findIndex (fun t => decide (t.id = id)) s.tasks = none := by
      rw [findIndex_eq_none]
      intro t ht
      simpa using hno t ht
    simp [updateTask, h, updateLocal, hf]
  · rintro ⟨t, ht, hid⟩
    cases hf : findIndex (fun t => decide (t.id = id)) s.tasks with
    | none =>
      rw [findIndex_eq_none] at hf
      have := hf t ht
      simp [hid] at this
    | some index =>
      obtain ⟨⟨old, hold, hp⟩, hlt⟩ := findIndex_eq_some _ _ _ hf
      have hoid : old.id = id := by simpa using hp
      have htasks : (updateTask rt now remoteOk s id taskData).tasks
          = s.tasks.set index
              { id := old.id, title := taskData.title, date := taskData.date,
                status := taskData.status,
                hours := (rt.parseFloat taskData.hours).getD 0,
                notes := taskData.notes.getD "", createdAt := old.createdAt,
                updatedAt := some now } := by
        simp [updateTask, h, updateLocal, hf, hold, saveToLocalStorage, applyPatch]
      refine ⟨index, old, hold, hoid, ?_, htasks, ?_, ?_, ?_⟩
      · intro j u hj hu
        simpa using hlt j u hj hu
      · rw [htasks, List.length_set]
      · intro j hj
        rw [htasks, List.getElem?_set_ne (Ne.symm hj)]
      · simp [updateTask, h, updateLocal, hf, hold, saveToLocalStorage]

/-- A guest store with two tasks is in local mode: updating id `b` keeps the
length, updating the unknown id `c` changes nothing. -/
theorem updateTask_local_witness :
    remoteMode (guestStore [sampleTask "a" "2024-03-10", sampleTask "b" "2024-03-11"]) = false ∧
    (updateTask sampleRuntime "2024-03-16T08:00:00.000Z" true
        (guestStore [sampleTask "a" "2024-03-10", sampleTask "b" "2024-03-11"]) "b"
        sampleInput).tasks.length = 2 ∧
    (updateTask sampleRuntime "2024-03-16T08:00:00.000Z" true
        (guestStore [sampleTask "a" "2024-03-10", sampleTask "b" "2024-03-11"]) "c"
        sampleInput).tasks
      = [sampleTask "a" "2024-03-10", sampleTask "b" "2024-03-11"] := by
  have h := updateTask_local sampleRuntime "2024-03-16T08:00:00.000Z" true
    (guestStore [sampleTask "a" "2024-03-10", sampleTask "b" "2024-03-11"])
  refine ⟨by decide, ?_, ?_⟩
  · obtain ⟨index, old, -, -, -, -, hlen, -⟩ :=
      (h "b" sampleInput (by decide)).2 ⟨sampleTask "b" "2024-03-11", by decide, rfl⟩
    exact hlen
  · exact ((h "c" sampleInput (by decide)).1 (by decide)).1

/-- C10: in guest mode `updateTaskStatus` on the one task of the store sets
its status to `done` and leaves `updatedAt` absent, although the call is made at
2024-03-16T08:00:00.000Z; for a signed-in user the same call sends the fields
`status` and `updatedAt`, stamped with that time, to the document store. -/
theorem updateTaskStatus_local_no_stamp :
    (updateTaskStatus sampleRuntime "2024-03-16T08:00:00.000Z"
        (guestStore [sampleTask "a" "2024-03-10"]) "a" "done").tasks
      = [{ id := "a", title := "Write spec", date := "2024-03-10", status := "done",
           hours := 2, notes := "", createdAt := "2024-03-15T09:00:00.000Z",
           updatedAt := none }] ∧
    (updateTaskStatus sampleRuntime "2024-03-16T08:00:00.000Z"
        { tasks := [sampleTask "a" "2024-03-10"], currentUser := some "u1",
          isConfigured := true, localStorage := none, remoteCalls := [] } "a" "done").remoteCalls
      = [RemoteCall.update "u1" "a"
          { title := none, date := none, status := some "done", hours := none, notes := none,
            updatedAt := some "2024-03-16T08:00:00.000Z" }] := by
  decide

/-! ## C11: deleting a task -/

/-- Every filter returns a sublist of the collection. -/
theorem getFilteredTasks_sublist (tz : Int) (tasks : List Task) (filterType filterDate : String) :
    (getFilteredTasks tz tasks filterType filterDate).Sublist tasks := by
  unfold getFilteredTasks
  by_cases h : filterType = "all"
  · rw [if_pos h]
  · rw [if_neg h]
    exact List.filter_sublist _

/-- C11: in local mode a confirmed `deleteTask(id)` leaves exactly the tasks
with another id, unchanged and in order, and saves them; no remaining task has
the id, so none is returned by `getFilteredTasks` for any filter, anchor and
zone, and the heatmap count of every date is the number of counted tasks of
that date among the remaining ones.  A declined confirmation changes nothing. -/
theorem deleteTask_local (rt : Runtime) (s : State) (id : String) (h : remoteMode s = false) :
    (deleteTask rt true s id).tasks = s.tasks.filter (fun t => !decide (t.id = id)) ∧
    (deleteTask rt true s id).tasks.Sublist s.tasks ∧
    (∀ t, t ∈ (deleteTask rt true s id).tasks ↔ t ∈ s.tasks ∧ t.id ≠ id) ∧
    (∀ tz filterType filterDate, ∀ t ∈ getFilteredTasks tz (deleteTask rt true s id).tasks
        filterType filterDate, t ∈ s.tasks ∧ t.id ≠ id) ∧
    (∀ tz selectedYear selectedMonth d,
      dayCount (renderHeatmapActivity tz (deleteTask rt true s id).tasks selectedYear
          selectedMonth) d
        = (s.tasks.filter fun t => !decide (t.id = id) &&
            (counted tz selectedYear selectedMonth t && decide (t.date = d))).length) ∧
    (deleteTask rt true s id).localStorage
      = some (rt.stringify (deleteTask rt true s id).tasks) ∧
    deleteTask rt false s id = s := by
  have ht : (deleteTask rt true s id).tasks = s.tasks.filter (fun t => !decide (t.id = id)) := by
    simp [deleteTask, h, saveToLocalStorage]
  have hmem : ∀ t, t ∈ (deleteTask rt true s id).tasks ↔ t ∈ s.tasks ∧ t.id ≠ id := by
    intro t
    rw [ht]
    simp
  refine ⟨ht, ?_, hmem, ?_, ?_, ?_, ?_⟩
  · rw [ht]
    exact List.filter_sublist _
  · intro tz filterType filterDate t hin
    exact (hmem t).1 ((getFilteredTasks_sublist tz _ filterType filterDate).subset hin)
  · intro tz selectedYear selectedMonth d
    rw [dayCount_renderHeatmapActivity, ht, List.filter_filter]
    congr 1
    apply List.filter_congr
    intro t _
    rw [Bool.and_comm]
  · simp [deleteTask, h, saveToLocalStorage]
  · simp [deleteTask]

/-- A guest store with three tasks is in local mode: deleting id `b` leaves
the tasks `a` and `c`. -/
theorem deleteTask_local_witness :
    remoteMode (guestStore [sampleTask "a" "2024-03-10", sampleTask "b" "2024-03-11",
      sampleTask "c" "2024-03-12"]) = false ∧
    (deleteTask sampleRuntime true (guestStore [sampleTask "a" "2024-03-10",
      sampleTask "b" "2024-03-11", sampleTask "c" "2024-03-12"]) "b").tasks
      = [sampleTask "a" "2024-03-10", sampleTask "c" "2024-03-12"] :=
  ⟨by decide,
   (deleteTask_local sampleRuntime (guestStore [sampleTask "a" "2024-03-10",
      sampleTask "b" "2024-03-11", sampleTask "c" "2024-03-12"]) "b" (by decide)).1.trans
     (by decide)⟩

/-! ## C16: ids stay distinct -/

/-- Replacing an element by one with the same image leaves the images as they
were. -/
theorem map_set_same {β : Type} (f : Task → β) (l : List Task) (i : Nat) (old new : Task)
    (h : l[i]? = some old) (hf : f new = f old) : (l.set i new).map f = l.map f := by
  apply List.ext_getElem?
  intro j
  by_cases hj : i = j
  · subst hj
    simp [List.getElem?_map, List.getElem?_set_self', h, hf]
  · simp [List.getElem?_map, List.getElem?_set_ne hj]

theorem issue_tasks (s : State) (call : String → RemoteCall) : (issue s call).tasks = s.tasks := by
  unfold issue
  cases s.currentUser <;> rfl

theorem updateLocal_ids (rt : Runtime) (s : State) (id : String) (p : Patch) :
    (updateLocal rt s id p).tasks.map (fun t => t.id) = s.tasks.map (fun t => t.id) := by
  unfold updateLocal
  cases findIndex (fun t => decide (t.id = id)) s.tasks with
  | none => rfl
  | some index =>
    simp only []
    cases hold : s.tasks[index]? with
    | none => rfl
    | some old =>
      simp only [saveToLocalStorage]
      exact map_set_same _ _ _ _ _ hold rfl

/-- No update changes the id of any task, in local or remote mode. -/
theorem updateTask_ids (rt : Runtime) (now : String) (remoteOk : Bool) (s : State) (id : String)
    (taskData : TaskInput) :
    (updateTask rt now remoteOk s id taskData).tasks.map (fun t => t.id)
      = s.tasks.map (fun t => t.id) := by
  unfold updateTask
  simp only []
  split_ifs
  · rw [issue_tasks]
  · rw [updateLocal_ids, issue_tasks]
  · rw [updateLocal_ids]

theorem updateTaskStatus_ids (rt : Runtime) (now : String) (s : State) (id newStatus : String) :
    (updateTaskStatus rt now s id newStatus).tasks.map (fun t => t.id)
      = s.tasks.map (fun t => t.id) := by
  unfold updateTaskStatus
  split_ifs
  · rw [issue_tasks]
  · cases findIndex (fun t => decide (t.id = id)) s.tasks with
    | none => rfl
    | some index =>
      simp only []
      cases hold : s.tasks[index]? with
      | none => rfl
      | some old =>
        simp only [saveToLocalStorage]
        exact map_set_same _ _ _ _ _ hold rfl

/-- C16: when the ids of the collection are pairwise distinct and the
generated id is not among them, the ids are still pairwise distinct after
`addTask`, `updateTask`, `updateTaskStatus` and `deleteTask`, in local and in
remote mode, whether or not the remote write succeeds; `updateTask` and
`updateTaskStatus` leave the list of ids as it was. -/
theorem ids_stay_distinct (rt : Runtime) (newId now : String) (remoteOk confirmed : Bool)
    (s : State) (id newStatus : String) (taskData : TaskInput)
    (hd : (s.tasks.map fun t => t.id).Nodup) (hfresh : newId ∉ s.tasks.map fun t => t.id) :
    ((addTask rt newId now remoteOk s taskData).tasks.map fun t => t.id).Nodup ∧
    ((updateTask rt now remoteOk s id taskData).tasks.map fun t => t.id).Nodup ∧
    ((updateTaskStatus rt now s id newStatus).tasks.map fun t => t.id).Nodup ∧
    ((deleteTask rt confirmed s id).tasks.map fun t => t.id).Nodup ∧
    ((updateTask rt now remoteOk s id taskData).tasks.map fun t => t.id)
      = (s.tasks.map fun t => t.id) ∧
    ((updateTaskStatus rt now s id newStatus).tasks.map fun t => t.id)
      = (s.tasks.map fun t => t.id) := by
  have hadd : ∀ t : Task, t.id = newId → ((s.tasks ++ [t]).map fun t => t.id).Nodup := by
    intro t ht
    rw [List.map_append, List.nodup_append]
    refine ⟨hd, by simp, ?_⟩
    intro a ha hb
    simp only [List.map_cons, List.map_nil, List.mem_singleton] at hb
    exact hfresh (ht ▸ hb ▸ ha)
  refine ⟨?_, ?_, ?_, ?_, updateTask_ids rt now remoteOk s id taskData,
    updateTaskStatus_ids rt now s id newStatus⟩
  · unfold addTask
    simp only []
    split_ifs
    · rw [issue_tasks]; exact hd
    · simp only [saveToLocalStorage, issue_tasks]; exact hadd _ rfl
    · simp only [saveToLocalStorage]; exact hadd _ rfl
  · rw [updateTask_ids]; exact hd
  · rw [updateTaskStatus_ids]; exact hd
  · unfold deleteTask
    split_ifs
    · rw [issue_tasks]; exact hd
    · simp only [saveToLocalStorage]
      exact hd.sublist ((List.filter_sublist _).map _)
    · exact hd

/-- The ids `a`, `b` of a guest store are distinct and `c` is not among them;
after adding a task with id `c` the ids are `a`, `b`, `c`. -/
theorem ids_stay_distinct_witness :
    ((guestStore [sampleTask "a" "2024-03-10", sampleTask "b" "2024-03-11"]).tasks.map
      fun t => t.id).Nodup ∧
    ((addTask sampleRuntime "c" "2024-03-16T08:00:00.000Z" true
      (guestStore [sampleTask "a" "2024-03-10", sampleTask "b" "2024-03-11"])
      sampleInput).tasks.map fun t => t.id).Nodup :=
  ⟨by decide,
   (ids_stay_distinct sampleRuntime "c" "2024-03-16T08:00:00.000Z" true true
      (guestStore [sampleTask "a" "2024-03-10", sampleTask "b" "2024-03-11"]) "a" "done"
      sampleInput (by decide) (by decide)).1⟩

/-! ## C12: loading from local storage -/

/-- What `loadFromLocalStorage` does by content of the key: an absent key or
a falsy value gives the empty collection, a serialized list gives that list, a
text that `JSON.parse` rejects makes the call raise a `SyntaxError`. -/
theorem loadFromLocalStorage_cases (rt : Runtime) (s : State) :
    (s.localStorage = none →
      loadFromLocalStorage rt s = Except.ok { s with tasks := [] }) ∧
    (∀ text ts, s.localStorage = some text → rt.jsonParse text = Parsed.tasks ts →
      loadFromLocalStorage rt s = Except.ok { s with tasks := ts }) ∧
    (∀ text, s.localStorage = some text → rt.jsonParse text = Parsed.falsy →
      loadFromLocalStorage rt s = Except.ok { s with tasks := [] }) ∧
    (∀ text, s.localStorage = some text → rt.jsonParse text = Parsed.syntaxError →
      loadFromLocalStorage rt s = Except.error JSError.syntaxError) := by
  refine ⟨?_, ?_, ?_, ?_⟩
  · intro h
    simp [loadFromLocalStorage, h]
  · intro text ts h1 h2
    simp [loadFromLocalStorage, h1, h2]
  · intro text h1 h2
    simp [loadFromLocalStorage, h1, h2]
  · intro text h1 h2
    simp [loadFromLocalStorage, h1, h2]

/-- C12: with the malformed text `oops` under the key, `loadFromLocalStorage`
raises a `SyntaxError` and sets no collection; with an absent key and with the
text `[]` it completes with the empty collection. -/
theorem loadFromLocalStorage_malformed_raises :
    raised (loadFromLocalStorage sampleRuntime
      { tasks := [sampleTask "a" "2024-03-10"], currentUser := none, isConfigured := false,
        localStorage := some "oops", remoteCalls := [] }) = some JSError.syntaxError ∧
    loadedTasks (loadFromLocalStorage sampleRuntime
      { tasks := [sampleTask "a" "2024-03-10"], currentUser := none, isConfigured := false,
        localStorage := some "oops", remoteCalls := [] }) = none ∧
    loadedTasks (loadFromLocalStorage sampleRuntime
      { tasks := [sampleTask "a" "2024-03-10"], currentUser := none, isConfigured := false,
        localStorage := none, remoteCalls := [] }) = some [] ∧
    loadedTasks (loadFromLocalStorage sampleRuntime
      { tasks := [sampleTask "a" "2024-03-10"], currentUser := none, isConfigured := false,
        localStorage := some "[]", remoteCalls := [] }) = some [] := by
  decide

/-! ## C13: the exported CSV text -/

theorem dquote_eq : dquote = '"' := rfl

/-- Doubling every double quote of a text, character by character. -/
theorem doubleQuotes_eq_flatten (cs : List Char) :
    doubleQuotes cs = (cs.map fun c => if c = '"' then ['"', '"'] else [c]).flatten := by
  induction cs with
  | nil => rfl
  | cons c cs ih =>
    by_cases hc : c = '"'
    · simp only [doubleQuotes, dquote_eq, hc, if_true, List.map_cons, List.flatten_cons, ← ih,
        List.cons_append, List.nil_append]
    · simp only [doubleQuotes, dquote_eq, hc, if_false, List.map_cons, List.flatten_cons, ← ih,
        List.cons_append, List.nil_append]

theorem quoteField_eq_expectedField (text : String) : quoteField text = expectedField text := by
  unfold quoteField expectedField
  rw [doubleQuotes_eq_flatten, dquote_eq]
  rfl

theorem getStatusLabel_eq_expectedLabel (rt : Runtime) (status : String) :
    getStatusLabel rt status = expectedLabel rt status := by
  unfold getStatusLabel expectedLabel labels
  by_cases h1 : status = "todo"
  · subst h1; rfl
  by_cases h2 : status = "inprogress"
  · subst h2; rfl
  by_cases h3 : status = "onhold"
  · subst h3; rfl
  by_cases h4 : status = "done"
  · subst h4; rfl
  have e1 : (status == "todo") = false := by simp [h1]
  have e2 : (status == "inprogress") = false := by simp [h2]
  have e3 : (status == "onhold") = false := by simp [h3]
  have e4 : (status == "done") = false := by simp [h4]
  simp only [List.lookup, e1, e2, e3, e4, if_neg h1, if_neg h2, if_neg h3, if_neg h4]

theorem intercalate_go_eq_foldl (sep : String) (xs : List String) (acc : String) :
    String.intercalate.go acc sep xs = xs.foldl (fun text x => text ++ sep ++ x) acc := by
  induction xs generalizing acc with
  | nil => rfl
  | cons x xs ih => simp only [String.intercalate.go, List.foldl_cons, ih]

theorem csvRow_eq_expectedLine (rt : Runtime) (r : TaskRecord) :
    csvRow rt r = expectedLine rt r := by
  unfold csvRow expectedLine
  rw [quoteField_eq_expectedField, quoteField_eq_expectedField, getStatusLabel_eq_expectedLabel]
  cases r.hours <;> cases r.notes <;> rfl

theorem csvContent_eq_expectedCsv (rt : Runtime) (records : List TaskRecord) :
    csvContent rt records = expectedCsv rt records := by
  unfold csvContent expectedCsv
  simp only [String.intercalate, intercalate_go_eq_foldl, List.foldl_map, csvRow_eq_expectedLine]
  rfl

/-- Undoubling the quotes of a doubled text gives the text back. -/
theorem undoubleQuotes_doubleQuotes (cs : List Char) :
    undoubleQuotes (doubleQuotes cs) = some cs := by
  induction cs with
  | nil => rfl
  | cons c cs ih =>
    by_cases hc : c = dquote
    · simp only [doubleQuotes, hc, if_true, undoubleQuotes, ih, Option.map_some']
    · simp only [doubleQuotes, hc, if_false]
      cases hd : doubleQuotes cs with
      | nil =>
        rw [hd] at ih
        simp only [undoubleQuotes, Option.some.injEq] at ih
        simp only [undoubleQuotes, hc, if_false, ← ih]
      | cons d ds =>
        rw [hd] at ih
        simp only [undoubleQuotes, hc, if_false, ih, Option.map_some']

theorem tasksToExport_all (tz now : Int) (tasks : List Task) (filterType filterDate : String) :
    tasksToExport tz now tasks filterType filterDate "all" = tasks := by
  unfold tasksToExport
  simp only []
  rw [if_neg (by decide), if_neg (by decide), if_neg (by decide), if_neg (by decide),
    if_pos trivial]

/-- C13: the CSV text that `exportTasks` builds from a non-empty selection is
the header line `Date,Title,Status,Hours,Notes` followed, each after a line
feed, by one line per task in list order; a line is the date, the title field,
the status label, the hours (0 when the record has none) and the notes field
(of the empty text when the record has none), separated by commas; a field is
the text with every double quote written twice, between two double quotes, so
that undoubling the inside gives the text back; the labels of the four states
are `To Do`, `In Progress`, `On Hold` and `Done`; the title `Say "hi"` is
written `"Say ""hi"""`; with the range `all` the selection is the whole
collection, and for an empty selection no text is built. -/
theorem exportTasks_csv (rt : Runtime) (tz now : Int) (tasks : List Task)
    (filterType filterDate range : String) (records : List TaskRecord) :
    csvContent rt records = expectedCsv rt records ∧
    (tasksToExport tz now tasks filterType filterDate range ≠ [] →
      exportTasks rt tz now tasks filterType filterDate range
        = some (expectedCsv rt
            ((tasksToExport tz now tasks filterType filterDate range).map Task.record))) ∧
    (tasksToExport tz now tasks filterType filterDate range = [] →
      exportTasks rt tz now tasks filterType filterDate range = none) ∧
    (tasks ≠ [] →
      exportTasks rt tz now tasks filterType filterDate "all"
        = some (expectedCsv rt (tasks.map Task.record))) ∧
    (∀ text : String, ∃ inner : List Char,
      (quoteField text).data = ['"'] ++ inner ++ ['"'] ∧
      inner.length = text.data.length + text.data.count '"' ∧
      undoubleQuotes inner = some text.data) ∧
    (getStatusLabel rt "todo" = "To Do" ∧ getStatusLabel rt "inprogress" = "In Progress" ∧
      getStatusLabel rt "onhold" = "On Hold" ∧ getStatusLabel rt "done" = "Done") ∧
    (∀ status : String, status ∉ ["todo", "inprogress", "onhold", "done"] →
      rt.prototypeText status = none → getStatusLabel rt status = status) ∧
    quoteField "Say \"hi\"" = "\"Say \"\"hi\"\"\"" ∧
    quoteField "\"" = "\"\"\"\"" ∧
    exportTasks sampleRuntime tz now [quotedTask] filterType filterDate "all"
      = some "Date,Title,Status,Hours,Notes\n2024-03-15,\"Say \"\"hi\"\"\",To Do,2,\"\"" ∧
    csvContent sampleRuntime [quotedTask.record, bareRecord, inheritedRecord]
      = "Date,Title,Status,Hours,Notes\n2024-03-15,\"Say \"\"hi\"\"\",To Do,2,\"\"\n2024-03-16,\"\"\"\",Done,0,\"\"\n2024-03-17,\"x\",[object Object],0,\"n\"" := by
  have hexp : ∀ sel : List Task, sel ≠ [] →
      (if sel.length = 0 then none else some (csvContent rt (sel.map Task.record)))
        = some (expectedCsv rt (sel.map Task.record)) := by
    intro sel hsel
    rw [if_neg (fun h0 => hsel (List.length_eq_zero.1 h0)), csvContent_eq_expectedCsv]
  refine ⟨csvContent_eq_expectedCsv rt records, ?_, ?_, ?_, ?_, ?_, ?_, by decide, by decide, ?_,
    by decide⟩
  · intro h
    exact hexp _ h
  · intro h
    unfold exportTasks
    simp only [h]
    rfl
  · intro h
    have := hexp tasks h
    unfold exportTasks
    simp only [tasksToExport_all]
    exact this
  · intro text
    refine ⟨doubleQuotes text.data, rfl, ?_, undoubleQuotes_doubleQuotes _⟩
    generalize text.data = cs
    induction cs with
    | nil => rfl
    | cons c cs ih =>
      by_cases hc : c = '"'
      · subst hc
        simp only [doubleQuotes, dquote_eq, if_true, List.length_cons, ih, List.count_cons_self]
        omega
      · have hc2 : ('"' : Char) ≠ c := fun h => hc h.symm
        simp only [doubleQuotes, dquote_eq, hc, if_false, List.length_cons, ih,
          List.count_cons_of_ne hc2]
        omega
  · exact ⟨rfl, rfl, rfl, rfl⟩
  · intro status hs hp
    rw [getStatusLabel_eq_expectedLabel]
    simp only [List.mem_cons, List.mem_singleton, List.not_mem_nil, or_false, not_or] at hs
    unfold expectedLabel
    rw [if_neg hs.1, if_neg hs.2.1, if_neg hs.2.2.1, if_neg hs.2.2.2, hp]
  · unfold exportTasks
    simp only [tasksToExport_all]
    decide

/-! ## C14: the year check of `saveTask` -/

theorem digit_code (c : Char) (a : Int) (h : digitVal c = some a) :
    48 ≤ c.toNat ∧ c.toNat ≤ 57 ∧ a = (c.toNat : Int) - 48 := by
  unfold digitVal at h
  split_ifs at h with hd
  simp only [Option.some.injEq] at h
  simp only [Char.isDigit, Bool.and_eq_true, decide_eq_true_eq] at hd
  have h1 : 48 ≤ c.toNat := hd.1
  have h2 : c.toNat ≤ 57 := hd.2
  exact ⟨h1, h2, h.symm⟩

theorem ne_of_code (c e : Char) (h : c.toNat ≠ e.toNat) : c ≠ e := by
  rintro rfl
  exact h rfl

/-- A text of four digits is read by `parseInt` as its decimal value. -/
theorem parseInt_four_digits (c1 c2 c3 c4 : Char) (a b c d : Int)
    (h1 : digitVal c1 = some a) (h2 : digitVal c2 = some b) (h3 : digitVal c3 = some c)
    (h4 : digitVal c4 = some d) :
    parseInt (String.mk [c1, c2, c3, c4]) = some (1000 * a + 100 * b + 10 * c + d) := by
  obtain ⟨k1, k2, -⟩ := digit_code c1 a h1
  obtain ⟨k3, k4, -⟩ := digit_code c2 b h2
  have hw : isStrWhiteSpace c1 = false := by
    simp only [isStrWhiteSpace, Bool.or_eq_false_iff, decide_eq_false_iff_not, Bool.and_eq_false_imp,
      decide_eq_true_eq]
    omega
  have n1 : c1 ≠ '-' := ne_of_code _ _ (by have : ('-' : Char).toNat = 45 := rfl; omega)
  have n2 : c1 ≠ '+' := ne_of_code _ _ (by have : ('+' : Char).toNat = 43 := rfl; omega)
  have n3 : c2 ≠ 'x' := ne_of_code _ _ (by have : ('x' : Char).toNat = 120 := rfl; omega)
  have n4 : c2 ≠ 'X' := ne_of_code _ _ (by have : ('X' : Char).toNat = 88 := rfl; omega)
  unfold parseInt
  simp only [List.dropWhile, hw, stripSign, n1, n2, if_false, stripHexPrefix, n3, n4, or_self,
    and_false, readDigits, h1, h2, h3, h4, Option.getD_some, Option.getD_none, Option.map_some',
    Option.some.injEq]
  norm_num
  rw [h1]
  simp only []
  rw [h2]
  simp only []
  rw [h3]
  simp only []
  rw [h4]
  simp only [Option.some.injEq]
  ring

theorem utf16Length_four_digits (c1 c2 c3 c4 : Char) (a b c d : Int)
    (h1 : digitVal c1 = some a) (h2 : digitVal c2 = some b) (h3 : digitVal c3 = some c)
    (h4 : digitVal c4 = some d) : utf16Length (String.mk [c1, c2, c3, c4]) = 4 := by
  obtain ⟨-, k1, -⟩ := digit_code c1 a h1
  obtain ⟨-, k2, -⟩ := digit_code c2 b h2
  obtain ⟨-, k3, -⟩ := digit_code c3 c h3
  obtain ⟨-, k4, -⟩ := digit_code c4 d h4
  have e1 : c1.toNat < 65536 := by omega
  have e2 : c2.toNat < 65536 := by omega
  have e3 : c3.toNat < 65536 := by omega
  have e4 : c4.toNat < 65536 := by omega
  simp [utf16Length, e1, e2, e3, e4]

/-- When the text before the first hyphen is four digits, `saveTask` rejects
the date exactly when the value of the digits is below 1900 or above 2100. -/
theorem yearRejected_four_digits (dateValue : String) (c1 c2 c3 c4 : Char) (a b c d : Int)
    (hy : beforeHyphen dateValue = String.mk [c1, c2, c3, c4])
    (h1 : digitVal c1 = some a) (h2 : digitVal c2 = some b) (h3 : digitVal c3 = some c)
    (h4 : digitVal c4 = some d) :
    yearRejected dateValue
      = decide (1000 * a + 100 * b + 10 * c + d < 1900 ∨ 2100 < 1000 * a + 100 * b + 10 * c + d) := by
  unfold yearRejected
  simp only [hy, parseInt_four_digits c1 c2 c3 c4 a b c d h1 h2 h3 h4,
    utf16Length_four_digits c1 c2 c3 c4 a b c d h1 h2 h3 h4, lt]
  simp

/-- When the text before the first hyphen does not have four code units,
`saveTask` rejects the date. -/
theorem yearRejected_of_length (dateValue : String)
    (h : utf16Length (beforeHyphen dateValue) ≠ 4) : yearRejected dateValue = true := by
  unfold yearRejected
  simp [h]

/-- A rejected date leaves `saveTask` without a store operation; an accepted
one leads to `updateTask` when the form carries an id, to `addTask` otherwise. -/
theorem saveTask_cases (rt : Runtime) (newId now : String) (remoteOk : Bool) (s : State)
    (form : TaskForm) :
    (yearRejected form.taskDate = true → saveTask rt newId now remoteOk s form = none) ∧
    (yearRejected form.taskDate = false → form.taskId ≠ "" →
      saveTask rt newId now remoteOk s form
        = some (updateTask rt now remoteOk s form.taskId
            { title := form.taskTitle, date := form.taskDate, status := form.taskStatus,
              hours := form.taskHours, notes := some form.taskNotes })) ∧
    (yearRejected form.taskDate = false → form.taskId = "" →
      saveTask rt newId now remoteOk s form
        = some (addTask rt newId now remoteOk s
            { title := form.taskTitle, date := form.taskDate, status := form.taskStatus,
              hours := form.taskHours, notes := some form.taskNotes })) := by
  refine ⟨?_, ?_, ?_⟩
  · intro h
    simp [saveTask, h]
  · intro h hid
    simp [saveTask, h, hid]
  · intro h hid
    simp [saveTask, h, hid]

/-- The value of a digit. -/
theorem digitVal_of_isDigit (c : Char) (h : c.isDigit = true) :
    digitVal c = some ((c.toNat : Int) - 48) ∧ 48 ≤ c.toNat := by
  refine ⟨by simp [digitVal, h], ?_⟩
  simp only [Char.isDigit, Bool.and_eq_true, decide_eq_true_eq] at h
  exact h.1

/-- The function `saveTask` saves something exactly when the year check lets
the date pass. -/
theorem saveTask_ne_none (rt : Runtime) (newId now : String) (remoteOk : Bool) (s : State)
    (form : TaskForm) :
    saveTask rt newId now remoteOk s form ≠ none ↔ yearRejected form.taskDate = false := by
  unfold saveTask
  cases h : yearRejected form.taskDate
  · by_cases hid : form.taskId = "" <;> simp [hid]
  · simp

theorem dropWhile_length_cases (p : Char → Bool) (l : List Char) :
    l.dropWhile p = l ∨ (l.dropWhile p).length + 1 ≤ l.length := by
  cases l with
  | nil => exact Or.inl rfl
  | cons c cs =>
    by_cases hc : p c = true
    · right
      rw [List.dropWhile_cons_of_pos hc, List.length_cons]
      exact Nat.succ_le_succ (List.dropWhile_sublist p).length_le
    · left
      rw [List.dropWhile_cons_of_neg hc]

theorem stripSign_cases (s : List Char) :
    ((stripSign s).1 = 1 ∧ (stripSign s).2 = s) ∨
      (((stripSign s).1 = 1 ∨ (stripSign s).1 = -1) ∧ (stripSign s).2.length + 1 ≤ s.length) := by
  cases s with
  | nil => exact Or.inl ⟨rfl, rfl⟩
  | cons c r =>
    unfold stripSign
    by_cases h1 : c = '-'
    · right
      simp [h1]
    · by_cases h2 : c = '+'
      · right
        simp [h2]
      · left
        simp [h1, h2]

theorem stripHexPrefix_cases (s : List Char) :
    ((stripHexPrefix s).1 = 10 ∧ (stripHexPrefix s).2 = s) ∨
      ((stripHexPrefix s).1 = 16 ∧ (stripHexPrefix s).2.length + 2 ≤ s.length) := by
  unfold stripHexPrefix
  split
  · rename_i c d r
    by_cases h : c = '0' ∧ (d = 'x' ∨ d = 'X')
    · right
      rw [if_pos h]
      simp
    · left
      rw [if_neg h]
      exact ⟨rfl, rfl⟩
  · exact Or.inl ⟨rfl, rfl⟩

theorem hexVal_bound (c : Char) (d : Int) (h : hexVal c = some d) : 0 ≤ d ∧ d < 16 := by
  unfold hexVal at h
  split_ifs at h with h1 h2 h3
  · simp only [Char.isDigit, Bool.and_eq_true, decide_eq_true_eq] at h1
    have a1 : 48 ≤ c.toNat := h1.1
    have a2 : c.toNat ≤ 57 := h1.2
    simp only [Option.some.injEq] at h
    omega
  · simp only [Option.some.injEq] at h
    omega
  · simp only [Option.some.injEq] at h
    omega

theorem digitVal_bound (c : Char) (d : Int) (h : digitVal c = some d) : 0 ≤ d ∧ d < 10 := by
  obtain ⟨h1, h2, h3⟩ := digit_code c d h
  omega

/-- The digits read so far bound the value that `readDigits` returns. -/
theorem readDigits_bound (radix : Int) (val : Char → Option Int) (hr : 0 < radix)
    (hval : ∀ c d, val c = some d → 0 ≤ d ∧ d < radix) :
    ∀ (l : List Char) (acc : Option Int) (B v : Int), 0 < B →
      0 ≤ acc.getD 0 → acc.getD 0 < B →
      readDigits radix val l acc = some v → 0 ≤ v ∧ v < B * radix ^ l.length := by
  intro l
  induction l with
  | nil =>
    intro acc B v hB h0 h1 h
    simp only [readDigits] at h
    rw [h] at h0 h1
    simp only [Option.getD_some] at h0 h1
    simp only [List.length_nil, pow_zero, mul_one]
    exact ⟨h0, h1⟩
  | cons c cs ih =>
    intro acc B v hB h0 h1 h
    have hp : 0 < radix ^ cs.length := pow_pos hr _
    simp only [readDigits] at h
    cases hv : val c with
    | none =>
      rw [hv] at h
      simp only [] at h
      rw [h] at h0 h1
      simp only [Option.getD_some] at h0 h1
      refine ⟨h0, ?_⟩
      have hp1 : 0 < radix ^ (c :: cs).length := pow_pos hr _
      nlinarith
    | some d =>
      rw [hv] at h
      simp only [] at h
      obtain ⟨d0, d1⟩ := hval c d hv
      have hB2 : 0 < radix * B := mul_pos hr hB
      have hlo : 0 ≤ (some (radix * acc.getD 0 + d)).getD 0 := by
        simp only [Option.getD_some]
        nlinarith
      have hhi : (some (radix * acc.getD 0 + d)).getD 0 < radix * B := by
        simp only [Option.getD_some]
        nlinarith
      obtain ⟨r0, r1⟩ := ih _ (radix * B) v hB2 hlo hhi h
      refine ⟨r0, ?_⟩
      rw [List.length_cons, pow_succ]
      calc v < radix * B * radix ^ cs.length := r1
        _ = B * (radix ^ cs.length * radix) := by ring

theorem length_le_utf16Length (cs : List Char) : cs.length ≤ utf16Length (String.mk cs) := by
  unfold utf16Length
  simp only []
  induction cs with
  | nil => exact le_refl _
  | cons c cs ih =>
    rw [List.map_cons, List.sum_cons, List.length_cons]
    split_ifs <;> omega

/-- Four digits whose value `readDigits` returns, when the value has four
decimal places. -/
theorem readDigits_four (c1 c2 c3 c4 : Char) (w : Int)
    (h : readDigits 10 digitVal [c1, c2, c3, c4] none = some w) (hw : 1000 ≤ w) :
    c1.isDigit = true ∧ c2.isDigit = true ∧ c3.isDigit = true ∧ c4.isDigit = true ∧
      w = 1000 * ((c1.toNat : Int) - 48) + 100 * ((c2.toNat : Int) - 48)
        + 10 * ((c3.toNat : Int) - 48) + ((c4.toNat : Int) - 48) := by
  have key : ∀ c : Char, (c.isDigit = true ∧ digitVal c = some ((c.toNat : Int) - 48) ∧
      48 ≤ c.toNat ∧ c.toNat ≤ 57) ∨ digitVal c = none := by
    intro c
    by_cases hc : c.isDigit = true
    · left
      obtain ⟨h1, h2⟩ := digitVal_of_isDigit c hc
      obtain ⟨-, h3, -⟩ := digit_code c _ h1
      exact ⟨hc, h1, h2, h3⟩
    · right
      simp [digitVal, hc]
  rcases key c1 with ⟨i1, e1, a1, b1⟩ | e1 <;> rcases key c2 with ⟨i2, e2, a2, b2⟩ | e2 <;>
    rcases key c3 with ⟨i3, e3, a3, b3⟩ | e3 <;> rcases key c4 with ⟨i4, e4, a4, b4⟩ | e4 <;>
    simp only [readDigits, e1, e2, e3, e4, Option.getD_some, Option.getD_none,
      Option.some.injEq] at h <;>
    first
      | exact ⟨i1, i2, i3, i4, by omega⟩
      | (exfalso; omega)
      | (exfalso; exact Option.noConfusion h)

theorem ten_pow_le (n : Nat) (h : n ≤ 3) : (10 : Int) ^ n ≤ 1000 :=
  le_trans (pow_le_pow_right₀ (by decide) h) (by norm_num)

/-- A text of four code units that `parseInt` reads as a number of at least
1000 consists of four digits, and the number is their decimal value. -/
theorem parseInt_four_units (y : String) (v : Int) (hlen : utf16Length y = 4)
    (hp : parseInt y = some v) (hlo : 1000 ≤ v) :
    ∃ c1 c2 c3 c4 : Char, y.data = [c1, c2, c3, c4] ∧
      c1.isDigit = true ∧ c2.isDigit = true ∧ c3.isDigit = true ∧ c4.isDigit = true ∧
      v = 1000 * ((c1.toNat : Int) - 48) + 100 * ((c2.toNat : Int) - 48)
        + 10 * ((c3.toNat : Int) - 48) + ((c4.toNat : Int) - 48) := by
  have hcs : y.data.length ≤ 4 := by
    have := length_le_utf16Length y.data
    have e : String.mk y.data = y := rfl
    rw [e, hlen] at this
    exact this
  unfold parseInt at hp
  simp only [Option.map_eq_some'] at hp
  obtain ⟨w, hw, hv⟩ := hp
  generalize hws : y.data.dropWhile isStrWhiteSpace = ws at hw hv
  have hdrop := dropWhile_length_cases isStrWhiteSpace y.data
  rw [hws] at hdrop
  generalize hsg : stripSign ws = sg at hw hv
  have hsign := stripSign_cases ws
  rw [hsg] at hsign
  generalize hpx : stripHexPrefix sg.2 = px at hw
  have hhex := stripHexPrefix_cases sg.2
  rw [hpx] at hhex
  have hl2 : ws.length ≤ y.data.length := by
    rcases hdrop with h | h
    · rw [h]
    · omega
  rcases hhex with ⟨hr, hp2⟩ | ⟨hr, hp2⟩
  · -- decimal digits
    rw [hr] at hw
    rw [if_neg (by decide)] at hw
    obtain ⟨w0, w1⟩ := readDigits_bound 10 digitVal (by decide) digitVal_bound px.2 none 1 w
      (by decide) (by simp) (by simp) hw
    rw [one_mul] at w1
    have hsg1 : sg.1 = 1 ∧ sg.2 = ws := by
      rcases hsign with h | ⟨h1 | h1, h2⟩
      · exact h
      · exfalso
        have hn : px.2.length ≤ 3 := by rw [hp2]; omega
        have := ten_pow_le px.2.length hn
        rw [h1] at hv
        omega
      · exfalso
        rw [h1] at hv
        omega
    have hws2 : ws = y.data := by
      rcases hdrop with h | h
      · exact h
      · exfalso
        have hn : px.2.length ≤ 3 := by rw [hp2, hsg1.2]; omega
        have := ten_pow_le px.2.length hn
        rw [hsg1.1] at hv
        omega
    have hpy : px.2 = y.data := by rw [hp2, hsg1.2, hws2]
    rw [hpy] at hw w1
    rw [hsg1.1, one_mul] at hv
    subst hv
    have h4 : y.data.length = 4 := by
      by_contra hne
      have hn : y.data.length ≤ 3 := by omega
      have := ten_pow_le y.data.length hn
      omega
    rcases hy : y.data with _ | ⟨c1, _ | ⟨c2, _ | ⟨c3, _ | ⟨c4, _ | ⟨c5, r⟩⟩⟩⟩⟩ <;>
      rw [hy] at h4 <;> simp only [List.length_cons, List.length_nil] at h4 <;> try omega
    rw [hy] at hw
    exact ⟨c1, c2, c3, c4, rfl, readDigits_four c1 c2 c3 c4 w hw hlo⟩
  · -- hexadecimal digits: at most two of them
    exfalso
    rw [hr] at hw
    rw [if_pos rfl] at hw
    obtain ⟨w0, w1⟩ := readDigits_bound 16 hexVal (by decide) hexVal_bound px.2 none 1 w
      (by decide) (by simp) (by simp) hw
    rw [one_mul] at w1
    have hl1 : sg.2.length ≤ ws.length := by
      rcases hsign with h | h
      · rw [h.2]
      · omega
    have hn : px.2.length ≤ 2 := by omega
    have : (16 : Int) ^ px.2.length ≤ 256 :=
      le_trans (pow_le_pow_right₀ (by decide) hn) (by norm_num)
    have hs : sg.1 = 1 ∨ sg.1 = -1 := by
      rcases hsign with h | h
      · exact Or.inl h.1
      · exact h.1
    rcases hs with h | h <;> rw [h] at hv <;> omega

/-- C14, as stated, fails: the year `abcd` of the date text `abcd-01-01` has
four characters, none of them a digit, and `saveTask` shows no message and adds
a task with that date; the texts with an empty year, a five-digit year and the
years 1899 and 2101 are rejected, the years 1900, 2024 and 2100 are accepted. -/
theorem saveTask_accepts_non_numeric_year :
    beforeHyphen "abcd-01-01" = "abcd" ∧
    ("abcd".data.map fun c => c.isDigit) = [false, false, false, false] ∧
    (saveTask sampleRuntime "b" "2024-03-16T08:00:00.000Z" true (guestStore [])
        { taskId := "", taskTitle := "Review", taskDate := "abcd-01-01", taskStatus := "todo",
          taskHours := "2", taskNotes := "" }).map (fun s => s.tasks.map fun t => t.date)
      = some ["abcd-01-01"] ∧
    yearRejected "abcd-01-01" = false ∧
    yearRejected "" = true ∧ yearRejected "12345-01-01" = true ∧
    yearRejected "1899-12-31" = true ∧ yearRejected "2101-01-01" = true ∧
    yearRejected "1900-01-01" = false ∧ yearRejected "2024-03-15" = false ∧
    yearRejected "2100-12-31" = false := by
  decide

/-- C14, amended: for every date text except one whose year component, the
text before the first hyphen, has four characters and is not a number (`parseInt`
reads `NaN` from it), `saveTask` adds or updates the task exactly when the year
component consists of exactly four digits whose decimal value lies in
1900..2100; otherwise, as for an empty text, a year of another length or a year
outside the range, it shows the message and returns without a store operation.
When it saves, it calls `addTask` for a form without a task id and `updateTask`
for one with a task id, on the values of the form. -/
theorem saveTask_year_check (rt : Runtime) (newId now : String) (remoteOk : Bool) (s : State)
    (form : TaskForm)
    (hnum : utf16Length (beforeHyphen form.taskDate) = 4 →
      parseInt (beforeHyphen form.taskDate) ≠ none) :
    (saveTask rt newId now remoteOk s form ≠ none ↔
      ∃ c1 c2 c3 c4 : Char,
        (beforeHyphen form.taskDate).data = [c1, c2, c3, c4] ∧
        c1.isDigit = true ∧ c2.isDigit = true ∧ c3.isDigit = true ∧ c4.isDigit = true ∧
        1900 ≤ 1000 * (c1.toNat - 48) + 100 * (c2.toNat - 48) + 10 * (c3.toNat - 48)
          + (c4.toNat - 48) ∧
        1000 * (c1.toNat - 48) + 100 * (c2.toNat - 48) + 10 * (c3.toNat - 48)
          + (c4.toNat - 48) ≤ 2100) ∧
    (saveTask rt newId now remoteOk s form = none ∨
      (form.taskId = "" ∧
        saveTask rt newId now remoteOk s form
          = some (addTask rt newId now remoteOk s
              { title := form.taskTitle, date := form.taskDate, status := form.taskStatus,
                hours := form.taskHours, notes := some form.taskNotes })) ∨
      (form.taskId ≠ "" ∧
        saveTask rt newId now remoteOk s form
          = some (updateTask rt now remoteOk s form.taskId
              { title := form.taskTitle, date := form.taskDate, status := form.taskStatus,
                hours := form.taskHours, notes := some form.taskNotes }))) := by
  constructor
  · rw [saveTask_ne_none]
    constructor
    · intro hacc
      unfold yearRejected at hacc
      simp only [Bool.or_eq_false_iff, Bool.not_eq_false', decide_eq_true_eq] at hacc
      obtain ⟨⟨hlen, hlo⟩, hhi⟩ := hacc
      cases hp : parseInt (beforeHyphen form.taskDate) with
      | none => exact absurd hp (hnum hlen)
      | some v =>
        rw [hp] at hlo hhi
        simp only [lt, decide_eq_false_iff_not, not_lt] at hlo hhi
        obtain ⟨c1, c2, c3, c4, hy, i1, i2, i3, i4, hv⟩ :=
          parseInt_four_units _ v hlen hp (by omega)
        have k1 := (digitVal_of_isDigit c1 i1).2
        have k2 := (digitVal_of_isDigit c2 i2).2
        have k3 := (digitVal_of_isDigit c3 i3).2
        have k4 := (digitVal_of_isDigit c4 i4).2
        exact ⟨c1, c2, c3, c4, hy, i1, i2, i3, i4, by omega, by omega⟩
    · rintro ⟨c1, c2, c3, c4, hys, i1, i2, i3, i4, hlo, hhi⟩
      have hy : beforeHyphen form.taskDate = String.mk [c1, c2, c3, c4] := by rw [← hys]
      obtain ⟨h1, k1⟩ := digitVal_of_isDigit c1 i1
      obtain ⟨h2, k2⟩ := digitVal_of_isDigit c2 i2
      obtain ⟨h3, k3⟩ := digitVal_of_isDigit c3 i3
      obtain ⟨h4, k4⟩ := digitVal_of_isDigit c4 i4
      rw [yearRejected_four_digits form.taskDate c1 c2 c3 c4 _ _ _ _ hy h1 h2 h3 h4]
      simp only [decide_eq_false_iff_not, not_or, not_lt]
      constructor <;> omega
  · obtain ⟨hr, hu, ha⟩ := saveTask_cases rt newId now remoteOk s form
    cases h : yearRejected form.taskDate
    · by_cases hid : form.taskId = ""
      · exact Or.inr (Or.inl ⟨hid, ha h hid⟩)
      · exact Or.inr (Or.inr ⟨hid, hu h hid⟩)
    · exact Or.inl (hr h)

/-- The year of the date text `2024-03-15` has four characters and is a
number, and the text is saved. -/
theorem saveTask_year_check_witness :
    (utf16Length (beforeHyphen "2024-03-15") = 4 → parseInt (beforeHyphen "2024-03-15") ≠ none) ∧
    saveTask sampleRuntime "b" "2024-03-16T08:00:00.000Z" true (guestStore [])
        { taskId := "", taskTitle := "Review", taskDate := "2024-03-15", taskStatus := "todo",
          taskHours := "2", taskNotes := "" } ≠ none :=
  ⟨by decide,
   (saveTask_year_check sampleRuntime "b" "2024-03-16T08:00:00.000Z" true (guestStore [])
      { taskId := "", taskTitle := "Review", taskDate := "2024-03-15", taskStatus := "todo",
        taskHours := "2", taskNotes := "" } (by decide)).1.2
     ⟨'2', '0', '2', '4', by decide, by decide, by decide, by decide, by decide, by decide,
       by decide⟩⟩

/-! ## C15: the stored hours -/

theorem parseFloatDecimal_minus_three : parseFloatDecimal "-3" = some (-3) := by
  have h : decimalParts "-3" = some (-3, 0) := by decide
  unfold parseFloatDecimal
  rw [h]
  norm_num

theorem parseFloatDecimal_two_and_a_half : parseFloatDecimal "2.5" = some (5 / 2) := by
  have h : decimalParts "2.5" = some (25, -1) := by decide
  unfold parseFloatDecimal
  rw [h]
  norm_num

theorem parseFloatDecimal_not_a_number :
    parseFloatDecimal "" = none ∧ parseFloatDecimal "abc" = none := by
  have h1 : decimalParts "" = none := by decide
  have h2 : decimalParts "abc" = none := by decide
  simp [parseFloatDecimal, h1, h2]

/-- In signed-in mode a user is signed in. -/
theorem remoteMode_user (s : State) (h : remoteMode s = true) : ∃ uid, s.currentUser = some uid := by
  unfold remoteMode at h
  cases hu : s.currentUser with
  | none =>
    rw [hu] at h
    simp at h
  | some uid => exact ⟨uid, rfl⟩

/-- C15, as stated, fails: with the hours text `-3`, which `parseFloat` reads
as the number -3, the hours that `addTask` stores in the new record is -3, a
negative number, and so is the hours that `updateTask` stores. -/
theorem stored_hours_negative :
    ((addTask decimalRuntime "b" "2024-03-16T08:00:00.000Z" true (guestStore [])
        negativeInput).tasks.map fun t => t.hours) = [-3] ∧
    ((updateTask decimalRuntime "2024-03-16T08:00:00.000Z" true
        (guestStore [sampleTask "a" "2024-03-10"]) "a" negativeInput).tasks.map
          fun t => t.hours) = [-3] ∧
    (-3 : ℚ) < 0 := by
  have hp : decimalRuntime.parseFloat negativeInput.hours = some (-3) :=
    parseFloatDecimal_minus_three
  refine ⟨?_, ?_, by norm_num⟩
  · simp [addTask, remoteMode, guestStore, saveToLocalStorage, hp]
  · have hf : findIndex (fun t => decide (t.id = "a")) [sampleTask "a" "2024-03-10"] = some 0 := by
      decide
    simp [updateTask, updateLocal, remoteMode, guestStore, saveToLocalStorage, hp, hf, applyPatch]

/-- C15, amended: for every hours text, in guest mode and in signed-in mode, the
hours of the record that `addTask` builds, and of the fields that `updateTask`
builds, is the number `parseFloat` reads from the text, or 0 when `parseFloat`
reads no number; no sign check is made.  In guest mode `addTask` appends the
record, and `updateTask` puts the hours into the first task with the given id
and keeps the hours of the others; in signed-in mode the record, or the
fields, are sent to the document store with these hours, and when the write
fails the collection changes as in guest mode.  With a `parseFloat` that reads
decimal numerals, the empty text and the text `abc` give 0 hours and the text
`2.5` gives two and a half hours. -/
theorem stored_hours (rt : Runtime) (newId now : String) (remoteOk : Bool) (s : State)
    (id : String) (taskData : TaskInput) :
    (remoteMode s = false →
      (addTask rt newId now remoteOk s taskData).tasks.map (fun t => t.hours)
        = s.tasks.map (fun t => t.hours) ++ [(rt.parseFloat taskData.hours).getD 0]) ∧
    (remoteMode s = true →
      (∃ uid task, s.currentUser = some uid ∧
        (addTask rt newId now remoteOk s taskData).remoteCalls
          = s.remoteCalls ++ [RemoteCall.set uid newId task] ∧
        task.hours = (rt.parseFloat taskData.hours).getD 0) ∧
      (addTask rt newId now remoteOk s taskData).tasks.map (fun t => t.hours)
        = s.tasks.map (fun t => t.hours) ++
            (if remoteOk then [] else [(rt.parseFloat taskData.hours).getD 0])) ∧
    (remoteMode s = false ∨ remoteOk = false →
      ∀ index, findIndex (fun t => decide (t.id = id)) s.tasks = some index →
        ((updateTask rt now remoteOk s id taskData).tasks[index]?.map fun t => t.hours)
          = some ((rt.parseFloat taskData.hours).getD 0) ∧
        ∀ j, j ≠ index →
          ((updateTask rt now remoteOk s id taskData).tasks[j]?.map fun t => t.hours)
            = s.tasks[j]?.map fun t => t.hours) ∧
    (remoteMode s = true →
      ∃ uid fields, s.currentUser = some uid ∧
        (updateTask rt now remoteOk s id taskData).remoteCalls
          = s.remoteCalls ++ [RemoteCall.update uid id fields] ∧
        fields.hours = some ((rt.parseFloat taskData.hours).getD 0)) ∧
    (remoteMode s = false → taskData.hours = "" ∨ taskData.hours = "abc" →
      (addTask decimalRuntime newId now remoteOk s taskData).tasks.map (fun t => t.hours)
        = s.tasks.map (fun t => t.hours) ++ [0]) ∧
    (remoteMode s = false → taskData.hours = "2.5" →
      (addTask decimalRuntime newId now remoteOk s taskData).tasks.map (fun t => t.hours)
        = s.tasks.map (fun t => t.hours) ++ [5 / 2]) := by
  have hadd : ∀ rt0 : Runtime, remoteMode s = false →
      (addTask rt0 newId now remoteOk s taskData).tasks.map (fun t => t.hours)
        = s.tasks.map (fun t => t.hours) ++ [(rt0.parseFloat taskData.hours).getD 0] := by
    intro rt0 h
    simp [addTask, h, saveToLocalStorage]
  have hupd : ∀ s1 : State, s1.tasks = s.tasks →
      ∀ index, findIndex (fun t => decide (t.id = id)) s.tasks = some index →
        ∀ p : Patch, p.hours = some ((rt.parseFloat taskData.hours).getD 0) →
        ((updateLocal rt s1 id p).tasks[index]?.map fun t => t.hours)
          = some ((rt.parseFloat taskData.hours).getD 0) ∧
        ∀ j, j ≠ index →
          ((updateLocal rt s1 id p).tasks[j]?.map fun t => t.hours)
            = s.tasks[j]?.map fun t => t.hours := by
    intro s1 hs1 index hf p hp
    obtain ⟨⟨old, hold, -⟩, -⟩ := findIndex_eq_some _ _ _ hf
    have hlt : index < s.tasks.length := (List.getElem?_eq_some.1 hold).1
    unfold updateLocal
    rw [hs1, hf]
    simp only [hold, saveToLocalStorage]
    refine ⟨?_, ?_⟩
    · rw [List.getElem?_set_self hlt]
      simp [applyPatch, hp]
    · intro j hj
      rw [List.getElem?_set_ne (Ne.symm hj)]
  refine ⟨hadd rt, ?_, ?_, ?_, ?_, ?_⟩
  · intro h
    obtain ⟨uid, hu⟩ := remoteMode_user s h
    refine ⟨⟨uid,
      { id := newId, title := taskData.title, date := taskData.date, status := taskData.status,
        hours := (rt.parseFloat taskData.hours).getD 0, notes := taskData.notes.getD "",
        createdAt := now, updatedAt := none }, hu, ?_, rfl⟩, ?_⟩
    · cases remoteOk <;> simp [addTask, h, issue, hu, saveToLocalStorage]
    · cases remoteOk <;> simp [addTask, h, issue, hu, saveToLocalStorage]
  · intro h index hf
    unfold updateTask
    simp only []
    cases hm : remoteMode s
    · simp only [Bool.false_eq_true, if_false]
      exact hupd s rfl index hf _ rfl
    · have hok : remoteOk = false := by
        rcases h with h | h
        · rw [hm] at h; exact absurd h (by decide)
        · exact h
      simp only [if_true, hok, Bool.false_eq_true, if_false]
      exact hupd _ (issue_tasks _ _) index hf _ rfl
  · intro h
    obtain ⟨uid, hu⟩ := remoteMode_user s h
    refine ⟨uid,
      { title := some taskData.title, date := some taskData.date, status := some taskData.status,
        hours := some ((rt.parseFloat taskData.hours).getD 0),
        notes := some (taskData.notes.getD ""), updatedAt := some now }, hu, ?_, rfl⟩
    cases remoteOk
    · simp only [updateTask, h, if_true, Bool.false_eq_true, if_false]
      unfold updateLocal
      simp only [issue, hu]
      split
      · split <;> rfl
      · rfl
    · simp [updateTask, h, issue, hu]
  · intro h ht
    rw [hadd decimalRuntime h]
    rcases ht with ht | ht <;> rw [ht] <;>
      simp [decimalRuntime, parseFloatDecimal_not_a_number.1, parseFloatDecimal_not_a_number.2]
  · intro h ht
    rw [hadd decimalRuntime h, ht]
    simp [decimalRuntime, parseFloatDecimal_two_and_a_half]

/-- A signed-in store is in signed-in mode; when the remote write of the sample
input fails there, the record with two hours is sent and is appended to the
collection. -/
theorem stored_hours_witness :
    remoteMode (signedInStore "u1" [sampleTask "r" "2024-03-10"]) = true ∧
    ((addTask sampleRuntime "b" "2024-03-16T08:00:00.000Z" false
      (signedInStore "u1" [sampleTask "r" "2024-03-10"]) sampleInput).tasks.map
        fun t => t.hours) = [2, 2] :=
  ⟨by decide,
   ((stored_hours sampleRuntime "b" "2024-03-16T08:00:00.000Z" false
      (signedInStore "u1" [sampleTask "r" "2024-03-10"]) "r" sampleInput).2.1 (by decide)).2.trans
     (by simp [sampleRuntime, sampleInput, signedInStore, sampleTask])⟩

/-! ## C17: the guest key while a user is signed in -/

theorem loadOrKeep_fields (rt : Runtime) (s : State) :
    (loadOrKeep rt s).localStorage = s.localStorage ∧
    (loadOrKeep rt s).currentUser = s.currentUser ∧
    (loadOrKeep rt s).isConfigured = s.isConfigured := by
  unfold loadOrKeep loadFromLocalStorage
  simp only []
  cases (match s.localStorage with
    | none => Parsed.falsy
    | some text => rt.jsonParse text) <;> exact ⟨rfl, rfl, rfl⟩

theorem issue_fields (s : State) (call : String → RemoteCall) :
    (issue s call).localStorage = s.localStorage ∧ (issue s call).currentUser = s.currentUser ∧
    (issue s call).isConfigured = s.isConfigured := by
  unfold issue
  split <;> exact ⟨rfl, rfl, rfl⟩

/-- While a user is signed in, an event that is neither an auth notification nor
a failed remote add or update leaves the guest key and the mode as they are. -/
theorem step_keeps_localStorage (rt : Runtime) (ss : Session) (e : Event)
    (hr : remoteMode ss.store = true) (ha : e.isAuth = false) (hf : e.fallsBack = false) :
    (step rt ss e).store.localStorage = ss.store.localStorage ∧
    remoteMode (step rt ss e).store = true := by
  cases e with
  | auth user => simp [Event.isAuth] at ha
  | snapshot handle docs =>
    simp only [step, onSnapshot]
    split_ifs
    · exact ⟨rfl, hr⟩
    · exact ⟨rfl, hr⟩
  | snapshotError handle =>
    simp only [step, onSnapshotError]
    split_ifs
    · obtain ⟨h1, h2, h3⟩ := loadOrKeep_fields rt ss.store
      refine ⟨h1, ?_⟩
      unfold remoteMode at hr ⊢
      rw [h2, h3]; exact hr
    · exact ⟨rfl, hr⟩
  | add newId now remoteOk taskData =>
    have hok : remoteOk = true := by simpa [Event.fallsBack] using hf
    subst hok
    obtain ⟨h1, h2, h3⟩ := issue_fields ss.store fun uid =>
      RemoteCall.set uid newId
        { id := newId, title := taskData.title, date := taskData.date, status := taskData.status,
          hours := (rt.parseFloat taskData.hours).getD 0, notes := taskData.notes.getD "",
          createdAt := now, updatedAt := none }
    simp only [step, addTask, hr, if_true]
    refine ⟨h1, ?_⟩
    unfold remoteMode at hr ⊢
    rw [h2, h3]; exact hr
  | update now remoteOk id taskData =>
    have hok : remoteOk = true := by simpa [Event.fallsBack] using hf
    subst hok
    obtain ⟨h1, h2, h3⟩ := issue_fields ss.store fun uid =>
      RemoteCall.update uid id
        { title := some taskData.title, date := some taskData.date,
          status := some taskData.status,
          hours := some ((rt.parseFloat taskData.hours).getD 0),
          notes := some (taskData.notes.getD ""), updatedAt := some now }
    simp only [step, updateTask, hr, if_true]
    refine ⟨h1, ?_⟩
    unfold remoteMode at hr ⊢
    rw [h2, h3]; exact hr
  | setStatus now id newStatus =>
    obtain ⟨h1, h2, h3⟩ := issue_fields ss.store fun uid =>
      RemoteCall.update uid id
        { title := none, date := none, status := some newStatus, hours := none, notes := none,
          updatedAt := some now }
    simp only [step, updateTaskStatus, hr, if_true]
    refine ⟨h1, ?_⟩
    unfold remoteMode at hr ⊢
    rw [h2, h3]; exact hr
  | delete confirmed id =>
    obtain ⟨h1, h2, h3⟩ := issue_fields ss.store fun uid => RemoteCall.delete uid id
    simp only [step, deleteTask, hr, if_true]
    split_ifs
    · refine ⟨h1, ?_⟩
      unfold remoteMode at hr ⊢
      rw [h2, h3]; exact hr
    · exact ⟨rfl, hr⟩

/-- While a user is signed in, a sequence of snapshots, listener errors, status
changes, deletions, and adds and updates whose remote write succeeds leaves the
guest key as it is. -/
theorem run_keeps_localStorage (rt : Runtime) (events : List Event) (ss : Session)
    (hr : remoteMode ss.store = true)
    (he : ∀ e ∈ events, e.isAuth = false ∧ e.fallsBack = false) :
    (run rt ss events).store.localStorage = ss.store.localStorage := by
  induction events generalizing ss with
  | nil => rfl
  | cons e es ih =>
    obtain ⟨h1, h2⟩ := step_keeps_localStorage rt ss e hr
      (he e (List.mem_cons_self _ _)).1 (he e (List.mem_cons_self _ _)).2
    have := ih (step rt ss e) h2 (fun e1 h => he e1 (List.mem_cons_of_mem _ h))
    simp only [run, List.foldl_cons] at this ⊢
    rw [this, h1]

/-- Signing in from guest mode and receiving a snapshot shows exactly the
documents of the snapshot and leaves the guest key as it is. -/
theorem sign_in_then_snapshot (rt : Runtime) (G docs : List Task) (uid : String) :
    (run rt (guestSession rt G) [Event.auth (some uid), Event.snapshot 0 docs]).store.tasks
      = docs ∧
    (run rt (guestSession rt G)
      [Event.auth (some uid), Event.snapshot 0 docs]).store.localStorage
      = some (rt.stringify G) := by
  simp [run, step, onAuthStateChanged, setupFirestoreListener, onSnapshot, guestSession]

/-- C17: a guest saves the collection with the task `a`, signs in, receives
an empty snapshot (zero tasks are shown and the guest key still holds the
guest collection) and adds a task while the remote write fails: the guest key
now holds the serialization of the one new task, not of the guest collection. -/
theorem guest_key_overwritten_by_fallback :
    (run sampleRuntime (guestSession sampleRuntime [sampleTask "a" "2024-03-10"])
      [Event.auth (some "u1"), Event.snapshot 0 []]).store.tasks = [] ∧
    (run sampleRuntime (guestSession sampleRuntime [sampleTask "a" "2024-03-10"])
      [Event.auth (some "u1"), Event.snapshot 0 []]).store.localStorage
      = some (sampleRuntime.stringify [sampleTask "a" "2024-03-10"]) ∧
    (run sampleRuntime (guestSession sampleRuntime [sampleTask "a" "2024-03-10"])
      [Event.auth (some "u1"), Event.snapshot 0 [],
       Event.add "b" "2024-03-16T08:00:00.000Z" false sampleInput]).store.localStorage
      = some "b" ∧
    sampleRuntime.stringify [sampleTask "a" "2024-03-10"] = "a" ∧
    (run sampleRuntime (guestSession sampleRuntime [sampleTask "a" "2024-03-10"])
      [Event.auth (some "u1"), Event.snapshot 0 [],
       Event.add "b" "2024-03-16T08:00:00.000Z" false sampleInput]).store.currentUser
      = some "u1" := by
  decide

/-! ## C18: the remote subscription across auth notifications -/

theorem step_subscriptions (rt : Runtime) (ss : Session) (e : Event) (ha : e.isAuth = false) :
    (step rt ss e).live = ss.live ∧ (step rt ss e).released = ss.released ∧
    (step rt ss e).nextHandle = ss.nextHandle ∧ (step rt ss e).unsubscribe = ss.unsubscribe := by
  cases e with
  | auth user => simp [Event.isAuth] at ha
  | snapshot handle docs =>
    simp only [step, onSnapshot]
    split_ifs <;> exact ⟨rfl, rfl, rfl, rfl⟩
  | snapshotError handle =>
    simp only [step, onSnapshotError]
    split_ifs <;> exact ⟨rfl, rfl, rfl, rfl⟩
  | add newId now remoteOk taskData => exact ⟨rfl, rfl, rfl, rfl⟩
  | update now remoteOk id taskData => exact ⟨rfl, rfl, rfl, rfl⟩
  | setStatus now id newStatus => exact ⟨rfl, rfl, rfl, rfl⟩
  | delete confirmed id => exact ⟨rfl, rfl, rfl, rfl⟩

theorem step_inv (rt : Runtime) (ss : Session) (e : Event) (h : SubscriptionsInv ss) :
    SubscriptionsInv (step rt ss e) := by
  obtain ⟨h1, h2, h3, h4, h5, h6⟩ := h
  by_cases ha : e.isAuth = false
  · obtain ⟨e1, e2, e3, e4⟩ := step_subscriptions rt ss e ha
    unfold SubscriptionsInv
    rw [e1, e2, e3, e4]
    exact ⟨h1, h2, h3, h4, h5, h6⟩
  cases e with
  | auth user =>
    cases user with
    | some uid =>
      simp only [step, onAuthStateChanged, setupFirestoreListener, SubscriptionsInv]
      refine ⟨?_, h2, ?_, ?_, ?_, ?_⟩
      · rw [List.nodup_append]
        refine ⟨h1, by simp, ?_⟩
        intro a ha1 ha2
        simp only [List.mem_singleton] at ha2
        have := h3 a ha1
        omega
      · intro a ha1
        rcases List.mem_append.1 ha1 with h7 | h7
        · have := h3 a h7; omega
        · simp only [List.mem_singleton] at h7; omega
      · intro a ha1
        have := h4 a ha1; omega
      · intro a ha1 ha2
        rcases List.mem_append.1 ha2 with h7 | h7
        · exact h5 a ha1 h7
        · simp only [List.mem_singleton] at h7
          have := h4 a ha1; omega
      · intro a ha1
        simp only [Option.some.injEq] at ha1
        simp [ha1]
    | none =>
      simp only [step, onAuthStateChanged]
      cases hu : ss.unsubscribe with
      | none =>
        simp only [SubscriptionsInv, hu]
        exact ⟨h1, h2, h3, h4, h5, by simp⟩
      | some k =>
        have hk := h6 k hu
        simp only [SubscriptionsInv]
        refine ⟨h1.erase k, ?_, ?_, ?_, ?_, by simp⟩
        · rw [List.nodup_append]
          refine ⟨h2, by simp, ?_⟩
          intro a ha1 ha2
          simp only [List.mem_singleton] at ha2
          exact h5 a ha1 (ha2 ▸ hk)
        · intro a ha1
          exact h3 a (List.mem_of_mem_erase ha1)
        · intro a ha1
          rcases List.mem_append.1 ha1 with h7 | h7
          · exact h4 a h7
          · simp only [List.mem_singleton] at h7
            exact h7 ▸ h3 k hk
        · intro a ha1 ha2
          rcases List.mem_append.1 ha1 with h7 | h7
          · exact h5 a h7 (List.mem_of_mem_erase ha2)
          · simp only [List.mem_singleton] at h7
            subst h7
            exact (List.Nodup.mem_erase_iff h1).1 ha2 |>.1 rfl
  | snapshot handle docs => simp [Event.isAuth] at ha
  | snapshotError handle => simp [Event.isAuth] at ha
  | add newId now remoteOk taskData => simp [Event.isAuth] at ha
  | update now remoteOk id taskData => simp [Event.isAuth] at ha
  | setStatus now id newStatus => simp [Event.isAuth] at ha
  | delete confirmed id => simp [Event.isAuth] at ha

theorem run_inv (rt : Runtime) (events : List Event) (ss : Session) (h : SubscriptionsInv ss) :
    SubscriptionsInv (run rt ss events) := by
  induction events generalizing ss with
  | nil => exact h
  | cons e es ih => exact ih _ (step_inv rt ss e h)

/-- After any sequence of events no handle has been released twice, the
released handles are not live, and a sign-out leaves no handle in
`this.unsubscribe`. -/
theorem run_release_once (rt : Runtime) (G : List Task) (events : List Event) :
    (run rt (guestSession rt G) events).released.Nodup ∧
    (∀ h ∈ (run rt (guestSession rt G) events).released,
      h ∉ (run rt (guestSession rt G) events).live) ∧
    (step rt (run rt (guestSession rt G) events) (Event.auth none)).unsubscribe = none := by
  have hinv : SubscriptionsInv (run rt (guestSession rt G) events) := by
    apply run_inv
    simp [SubscriptionsInv, guestSession]
  refine ⟨hinv.2.1, hinv.2.2.2.2.1, ?_⟩
  simp only [step, onAuthStateChanged]
  cases (run rt (guestSession rt G) events).unsubscribe <;> rfl

/-- C18: after the notifications "user `u1`" and "user `u2`" two listeners are
live and none has been released; a later sign-out releases the second only, so
one listener stays live in guest mode, and its snapshots still replace the
collection.  With a sign-out between the two sign-ins one listener is live. -/
theorem two_sign_ins_two_listeners :
    (run sampleRuntime (guestSession sampleRuntime [])
      [Event.auth (some "u1"), Event.auth (some "u2")]).live = [0, 1] ∧
    (run sampleRuntime (guestSession sampleRuntime [])
      [Event.auth (some "u1"), Event.auth (some "u2")]).released = [] ∧
    (run sampleRuntime (guestSession sampleRuntime [])
      [Event.auth (some "u1"), Event.auth (some "u2"), Event.auth none]).live = [0] ∧
    (run sampleRuntime (guestSession sampleRuntime [])
      [Event.auth (some "u1"), Event.auth (some "u2"), Event.auth none]).released = [1] ∧
    (run sampleRuntime (guestSession sampleRuntime [])
      [Event.auth (some "u1"), Event.auth (some "u2"), Event.auth none,
       Event.snapshot 0 [sampleTask "a" "2024-03-10"]]).store.tasks
      = [sampleTask "a" "2024-03-10"] ∧
    (run sampleRuntime (guestSession sampleRuntime [])
      [Event.auth (some "u1"), Event.auth none, Event.auth (some "u2")]).live = [1] := by
  decide

/-! ## C20: the week range of the export -/

/-- What the week range of the export selects: with `w` the local day of the
week of the current instant, the tasks whose midnight UTC lies between the
current instant moved back by `w` days and that instant six days later. -/
theorem tasksToExport_week_window (tz now : Int) (tasks : List Task)
    (filterType filterDate : String)
    (h1 : -8000000000000000 ≤ now) (h2 : now ≤ 8000000000000000) :
    tasksToExport tz now tasks filterType filterDate "week"
      = tasks.filter fun t =>
          match dayNumber t.date with
          | some k =>
            decide (now - WeekDay (LocalTime tz now) * msPerDay ≤ k * msPerDay ∧
              k * msPerDay ≤ now - WeekDay (LocalTime tz now) * msPerDay + 6 * msPerDay)
          | none => false := by
  have hw := WeekDay_range (LocalTime tz now)
  generalize hwd : WeekDay (LocalTime tz now) = w at hw
  have hstart : setDate tz (some now) (sub (getDate tz (some now)) (getDay tz (some now)))
      = some (now - w * msPerDay) := by
    have : getDay tz (some now) = some w := by simp [getDay, hwd]
    rw [this, setDate_getDate_sub, TimeClip_of_bounds]
    · unfold msPerDay; omega
    · unfold msPerDay; omega
  have hend : setDate tz (some (now - w * msPerDay))
      (add (getDate tz (some (now - w * msPerDay))) (some 6))
      = some (now - w * msPerDay + 6 * msPerDay) := by
    rw [setDate_getDate_add, TimeClip_of_bounds]
    · unfold msPerDay; omega
    · unfold msPerDay; omega
  unfold tasksToExport
  simp only []
  rw [if_neg (by decide), if_neg (by decide), if_pos trivial, hstart, hend]
  apply List.filter_congr
  intro t _
  cases hdn : dayNumber t.date with
  | none =>
    have : parse t.date = none := by
      unfold dayNumber at hdn
      cases hq : parse t.date with
      | none => rfl
      | some u => simp [hq] at hdn
    simp [this, le]
  | some k =>
    obtain ⟨hq, -, -⟩ := dayNumber_eq_some _ _ hdn
    simp only [hq, le]
    rw [← Bool.decide_and]

/-- At UTC, at any time of day other than midnight, the week range of the
export selects the six days from the Monday after the Sunday on or before
today to the following Saturday: the tasks of that Sunday are left out. -/
theorem tasksToExport_week_utc (now : Int) (tasks : List Task) (filterType filterDate : String)
    (h1 : -8000000000000000 ≤ now) (h2 : now ≤ 8000000000000000)
    (hday : 0 < TimeWithinDay now) :
    tasksToExport 0 now tasks filterType filterDate "week"
      = tasks.filter fun t =>
          match dayNumber t.date with
          | some k =>
            decide (sundayOnOrBefore (Day now) + 1 ≤ k ∧ k ≤ sundayOnOrBefore (Day now) + 6)
          | none => false := by
  rw [tasksToExport_week_window 0 now tasks filterType filterDate h1 h2]
  apply List.filter_congr
  intro t _
  cases dayNumber t.date with
  | none => rfl
  | some k =>
    simp only []
    apply decide_eq_decide.2
    unfold WeekDay LocalTime sundayOnOrBefore
    unfold TimeWithinDay at hday
    unfold Day msPerDay msPerMinute at *
    omega

/-- C20: at UTC on Wednesday 2024-03-20 at 15:00, the week range of the export
selects the tasks of Monday 18 and Saturday 23 March and leaves out the task of
Sunday 17 March, which `getFilteredTasks` with filter type `week` anchored at
today's date 2024-03-20 returns. -/
theorem export_week_drops_sunday :
    toISODate 1710946800000 = "2024-03-20" ∧
    tasksToExport 0 1710946800000
        [sampleTask "a" "2024-03-17", sampleTask "b" "2024-03-18",
         sampleTask "c" "2024-03-23", sampleTask "d" "2024-03-24"] "day" "2024-03-01" "week"
      = [sampleTask "b" "2024-03-18", sampleTask "c" "2024-03-23"] ∧
    getFilteredTasks 0
        [sampleTask "a" "2024-03-17", sampleTask "b" "2024-03-18",
         sampleTask "c" "2024-03-23", sampleTask "d" "2024-03-24"] "week"
        (toISODate 1710946800000)
      = [sampleTask "a" "2024-03-17", sampleTask "b" "2024-03-18",
         sampleTask "c" "2024-03-23"] := by
  decide

/-! ## C19: the week grid of the heatmap -/

theorem getLocalDateString_localMidnight (tz day : Int) :
    getLocalDateString tz (some (localMidnight tz day)) = dayText day := by
  simp only [getLocalDateString, LocalTime_localMidnight, dayText]

/-- The cell emitted for a local midnight is the cell asked for its day. -/
theorem heatmapCell_localMidnight (tz now : Int) (act : Activity) (startDay day : Int) :
    heatmapCell tz now act (some (localMidnight tz startDay)) (some (localMidnight tz day))
      = expectedCell tz now act startDay day := by
  unfold heatmapCell expectedCell
  simp only [getLocalDateString_localMidnight, lt]
  by_cases h1 : Day (LocalTime tz now) < day
  · have : now < localMidnight tz day := (lt_localMidnight tz day now).2 h1
    simp [h1, this]
  · have h1a : ¬ now < localMidnight tz day := fun h => h1 ((lt_localMidnight tz day now).1 h)
    by_cases h2 : day < startDay
    · have : localMidnight tz day < localMidnight tz startDay := (localMidnight_lt tz _ _).2 h2
      simp [h2, this]
    · have h2a : ¬ localMidnight tz day < localMidnight tz startDay :=
        fun h => h2 ((localMidnight_lt tz _ _).1 h)
      simp [h1, h2, h1a, h2a]

/-- The `for` loop started at a local midnight emits the cells of the next
days in order and ends at the local midnight after them. -/
theorem heatmapWeek_localMidnight (tz now : Int) (act : Activity) (startDay : Int)
    (htz : -1440 ≤ tz ∧ tz ≤ 1440) (days : Nat) (day : Int)
    (h1 : -90000000 ≤ day) (h2 : day + days ≤ 90000000) :
    heatmapWeek tz now act (some (localMidnight tz startDay)) days (some (localMidnight tz day))
      = ((List.range days).map fun (j : Nat) => expectedCell tz now act startDay (day + (j : Int)),
         some (localMidnight tz (day + days))) := by
  induction days generalizing day with
  | zero => simp [heatmapWeek]
  | succ n ih =>
    have hstep := setDate_next_day tz day htz h1 (by omega)
    simp only [heatmapWeek, hstep, heatmapCell_localMidnight]
    rw [ih (day + 1) (by omega) (by push_cast at h2 ⊢; omega)]
    rw [List.range_succ_eq_map]
    simp only [List.map_cons, List.map_map, Nat.cast_zero, add_zero, Nat.cast_add, Nat.cast_one]
    refine Prod.ext ?_ ?_
    · simp only [List.cons.injEq, true_and]
      apply List.map_congr_left
      intro j _
      simp only [Function.comp, Nat.cast_succ]
      congr 1
      ring
    · simp only [Option.some.injEq]
      congr 1
      ring

/-- The `while` loop started at a local midnight: when `n` weeks begin on or
before the local day of `endDate`, any fuel of at least `n` passes ends the
loop, and the loop emits `n` weeks of seven consecutive days. -/
theorem heatmapWeeks_localMidnight (tz now : Int) (act : Activity) (startDay e : Int)
    (htz : -1440 ≤ tz ∧ tz ≤ 1440) (n : Nat) (day : Int) (fuel : Nat)
    (h1 : -90000000 ≤ day) (h2 : day + 7 * (n : Int) ≤ 90000000)
    (hin : ∀ i : Nat, i < n → day + 7 * (i : Int) ≤ Day (LocalTime tz e))
    (hout : Day (LocalTime tz e) < day + 7 * (n : Int)) (hfuel : n ≤ fuel) :
    heatmapWeeks tz now act (some (localMidnight tz startDay)) (some e) fuel
        (some (localMidnight tz day))
      = some ((List.range n).map fun (i : Nat) =>
          (List.range 7).map fun (j : Nat) =>
            expectedCell tz now act startDay (day + 7 * (i : Int) + (j : Int))) := by
  induction n generalizing day fuel with
  | zero =>
    have hle : le (some (localMidnight tz day)) (some e) = false := by
      simp only [le, decide_eq_false_iff_not, localMidnight_le]
      simp only [Nat.cast_zero, mul_zero, add_zero] at hout
      omega
    cases fuel <;> simp [heatmapWeeks, hle]
  | succ n ih =>
    have hle : le (some (localMidnight tz day)) (some e) = true := by
      simp only [le, decide_eq_true_eq, localMidnight_le]
      have := hin 0 (Nat.succ_pos n)
      simpa using this
    cases fuel with
    | zero => omega
    | succ f =>
      have hweek := heatmapWeek_localMidnight tz now act startDay htz 7 day h1
        (by push_cast at h2 ⊢; omega)
      have hrec := ih (day + 7) f (by omega) (by push_cast at h2 ⊢; omega)
        (fun i hi => by
          have := hin (i + 1) (by omega)
          push_cast at this ⊢
          omega)
        (by push_cast at hout ⊢; omega) (by omega)
      simp only [heatmapWeeks, hle, if_true, hweek]
      have e7 : day + ((7 : Nat) : Int) = day + 7 := by norm_num
      rw [e7, hrec]
      simp only [Option.map_some', Option.some.injEq]
      rw [List.range_succ_eq_map (n := n)]
      simp only [List.map_cons, List.map_map, Nat.cast_zero, mul_zero, add_zero, List.cons.injEq,
        true_and]
      apply List.map_congr_left
      intro i _
      simp only [Function.comp]
      apply List.map_congr_left
      intro j _
      simp only [Nat.cast_succ]
      congr 1
      ring

/-- The range of the heatmap starts at a local midnight and ends at an
instant, both far from the limits of time values. -/
theorem heatmapRange_eq (tz now selectedYear : Int) (selectedMonth : MonthSelection)
    (htz : -1440 ≤ tz ∧ tz ≤ 1440)
    (hnow : -7000000000000000 ≤ now ∧ now ≤ 7000000000000000)
    (hy : -200000 ≤ selectedYear ∧ selectedYear ≤ 200000)
    (hm : ∀ m, selectedMonth = MonthSelection.index m → 0 ≤ m ∧ m ≤ 11) :
    ∃ e : Int,
      heatmapRange tz now selectedYear selectedMonth
        = (some (localMidnight tz (rangeStartDay selectedYear selectedMonth)), some e) ∧
      -7000000000000000 ≤ e ∧ e ≤ 7000000000000000 ∧
      -80000000 ≤ rangeStartDay selectedYear selectedMonth ∧
      rangeStartDay selectedYear selectedMonth ≤ 80000000 := by
  cases selectedMonth with
  | all =>
    obtain ⟨s1, s2, s3⟩ := newDateLocal_eq tz selectedYear 0 1 htz hy.1 hy.2 (by omega) (by omega)
      (by omega) (by omega)
    obtain ⟨e1, e2, e3⟩ := newDateLocal_eq tz selectedYear 11 31 htz hy.1 hy.2 (by omega)
      (by omega) (by omega) (by omega)
    simp only [heatmapRange, rangeStartDay, s1, e1]
    split_ifs
    · exact ⟨now, rfl, hnow.1, hnow.2, s2, s3⟩
    · refine ⟨_, rfl, ?_, ?_, s2, s3⟩
      · unfold localMidnight msPerDay msPerMinute; omega
      · unfold localMidnight msPerDay msPerMinute; omega
  | index m =>
    obtain ⟨m1, m2⟩ := hm m rfl
    obtain ⟨s1, s2, s3⟩ := newDateLocal_eq tz selectedYear m 1 htz hy.1 hy.2 m1 (by omega)
      (by omega) (by omega)
    obtain ⟨e1, e2, e3⟩ := newDateLocal_eq tz selectedYear (m + 1) 0 htz hy.1 hy.2 (by omega)
      (by omega) (by omega) (by omega)
    simp only [heatmapRange, rangeStartDay, s1, e1]
    split_ifs
    · exact ⟨now, rfl, hnow.1, hnow.2, s2, s3⟩
    · refine ⟨_, rfl, ?_, ?_, s2, s3⟩
      · unfold localMidnight msPerDay msPerMinute; omega
      · unfold localMidnight msPerDay msPerMinute; omega

/-- C19: for every zone within a day of UTC, every selected year between
-200000 and 200000, every month selection (all, or an index 0..11) and every
current instant, the week loop of `renderHeatmap` ends (any fuel of at least
`weeksShown` passes gives the same result) and emits whole weeks of seven
cells; the first cell is for the Sunday on or before the first day of the
range, the cells are for consecutive calendar days, a cell whose day is before
the first day of the range or after today is the placeholder, and every other
cell carries the text of its own day and the level of the count of that
text. -/
theorem renderHeatmapGrid_weeks (tz now : Int) (tasks : List Task) (selectedYear : Int)
    (selectedMonth : MonthSelection) (fuel : Nat)
    (htz : -1440 ≤ tz ∧ tz ≤ 1440)
    (hnow : -7000000000000000 ≤ now ∧ now ≤ 7000000000000000)
    (hy : -200000 ≤ selectedYear ∧ selectedYear ≤ 200000)
    (hm : ∀ m, selectedMonth = MonthSelection.index m → 0 ≤ m ∧ m ≤ 11)
    (hfuel : weeksShown (rangeStartDay selectedYear selectedMonth)
      (rangeEndDay tz now selectedYear selectedMonth) ≤ fuel) :
    renderHeatmapGrid tz now tasks selectedYear selectedMonth fuel
      = some (expectedGrid tz now (renderHeatmapActivity tz tasks selectedYear selectedMonth)
          (rangeStartDay selectedYear selectedMonth)
          (weeksShown (rangeStartDay selectedYear selectedMonth)
            (rangeEndDay tz now selectedYear selectedMonth))) ∧
    (∀ week ∈ expectedGrid tz now (renderHeatmapActivity tz tasks selectedYear selectedMonth)
        (rangeStartDay selectedYear selectedMonth)
        (weeksShown (rangeStartDay selectedYear selectedMonth)
          (rangeEndDay tz now selectedYear selectedMonth)), week.length = 7) ∧
    WeekDay (sundayOnOrBefore (rangeStartDay selectedYear selectedMonth) * msPerDay) = 0 ∧
    sundayOnOrBefore (rangeStartDay selectedYear selectedMonth)
      ≤ rangeStartDay selectedYear selectedMonth ∧
    rangeStartDay selectedYear selectedMonth
      < sundayOnOrBefore (rangeStartDay selectedYear selectedMonth) + 7 := by
  obtain ⟨e, hr, he1, he2, hs1, hs2⟩ :=
    heatmapRange_eq tz now selectedYear selectedMonth htz hnow hy hm
  obtain ⟨k1, k2, k3⟩ := sundayOnOrBefore_spec (rangeStartDay selectedYear selectedMonth)
  have hend : rangeEndDay tz now selectedYear selectedMonth = Day (LocalTime tz e) := by
    simp only [rangeEndDay, hr]
  refine ⟨?_, ?_, k1, k2, k3⟩
  · rw [hend] at hfuel ⊢
    generalize hS : rangeStartDay selectedYear selectedMonth = startDay at *
    have hEb : -82000000 ≤ Day (LocalTime tz e) ∧ Day (LocalTime tz e) ≤ 82000000 := by
      unfold Day LocalTime msPerDay msPerMinute
      omega
    generalize hE : Day (LocalTime tz e) = endDay at *
    have halign := setDate_sunday tz startDay htz (by omega) (by omega)
    unfold renderHeatmapGrid
    simp only [hr, halign]
    have hn1 : ∀ i : Nat, i < weeksShown startDay endDay →
        sundayOnOrBefore startDay + 7 * (i : Int) ≤ endDay := by
      intro i hi
      unfold weeksShown at hi
      omega
    have hn2 : endDay < sundayOnOrBefore startDay + 7 * (weeksShown startDay endDay : Int) := by
      unfold weeksShown
      omega
    have hn3 : sundayOnOrBefore startDay + 7 * (weeksShown startDay endDay : Int) ≤ 90000000 := by
      unfold weeksShown
      omega
    have := heatmapWeeks_localMidnight tz now
      (renderHeatmapActivity tz tasks selectedYear selectedMonth) startDay e htz
      (weeksShown startDay endDay) (sundayOnOrBefore startDay) fuel (by omega) hn3
      (by rw [hE]; exact hn1) (by rw [hE]; exact hn2) hfuel
    rw [this]
    rfl
  · intro week hw
    unfold expectedGrid at hw
    simp only [List.mem_map, List.mem_range] at hw
    obtain ⟨i, -, rfl⟩ := hw
    simp

/-- The heatmap of March 2024 seen at UTC on 2024-03-20 at 15:00, with one
task on 15 March: ten passes are enough, the loop emits four weeks, and the
first week is five placeholders (25 to 29 February) followed by the cells of 1
and 2 March. -/
theorem renderHeatmapGrid_weeks_witness :
    weeksShown (rangeStartDay 2024 (MonthSelection.index 2))
      (rangeEndDay 0 1710946800000 2024 (MonthSelection.index 2)) = 4 ∧
    renderHeatmapGrid 0 1710946800000 [sampleTask "a" "2024-03-15"] 2024
        (MonthSelection.index 2) 10
      = some (expectedGrid 0 1710946800000
          (renderHeatmapActivity 0 [sampleTask "a" "2024-03-15"] 2024 (MonthSelection.index 2))
          (rangeStartDay 2024 (MonthSelection.index 2))
          (weeksShown (rangeStartDay 2024 (MonthSelection.index 2))
            (rangeEndDay 0 1710946800000 2024 (MonthSelection.index 2)))) ∧
    (renderHeatmapGrid 0 1710946800000 [sampleTask "a" "2024-03-15"] 2024
        (MonthSelection.index 2) 10).map (fun weeks => weeks.head?)
      = some (some [Cell.placeholder, Cell.placeholder, Cell.placeholder, Cell.placeholder,
          Cell.placeholder, Cell.day "2024-03-01" 0, Cell.day "2024-03-02" 0]) :=
  ⟨by decide,
   (renderHeatmapGrid_weeks 0 1710946800000 [sampleTask "a" "2024-03-15"] 2024
      (MonthSelection.index 2) 10 (by decide) (by decide) (by decide)
      (fun m h => by cases h; decide) (by decide)).1,
   by decide⟩

end TaskTracker
